import Mathlib

/-!
# The arena combat simulator: engine model and verified properties

A shallow embedding of `Arena.cpp` / `Arena.h` (the engine) over explicit state,
and of the target selection of `Robot_SniperBrooke.cpp`.

* C++ `int` is modelled by `Int`: positions stay inside the grid, so the
  engine's position arithmetic does not overflow, and the coordinates a
  combatant supplies are taken as mathematical integers.  The sniper's
  `calculate_distance` subtracts arbitrary sample coordinates, so there the
  32-bit arithmetic is modelled with its wrap-around (`wrap32`).
* A `LoadedRobot&` is modelled by the index of the robot in `Arena::robots`
  (the vector never changes length after loading).
* Every call the engine makes on a combatant through `RobotBase*` is recorded,
  in order, in `Arena.log` as a pair (handle index, call).  The log is
  instrumentation: no engine decision reads it.
* The answers of the combatants' virtual methods (`get_move_direction`,
  `get_shot_location`) are inputs of the model.
* The `while (inBounds(r, c))` loop of the railgun branch can run forever, so it
  takes a fuel argument and yields an `Outcome`.
-/

/-- Hazard kinds of a board cell (`enum class ObstacleType` of `Arena.h`). -/
inductive ObstacleType
  | Empty
  | FlameTrap
  | Pit
  | Mound
  deriving DecidableEq, Repr

/-- Modelled from the spec: the enumeration `WeaponType` of `RobotBase.h`, which
is not among the sources.  The four weapon kinds the engine names, and `other`
for any further value of the enumeration (the engine's default case). -/
inductive WeaponType
  | flamethrower
  | railgun
  | grenade
  | hammer
  | other
  deriving DecidableEq, Repr

/-- Modelled from the spec: a sensing sample `RadarObj(type, row, col)` of
`RadarObj.h`, which is not among the sources. -/
structure RadarObj where
  m_type : Char
  m_row : Int
  m_col : Int
  deriving DecidableEq, Repr

/-- Modelled from the spec: the state a `RobotBase` instance owns (HP, armor,
weapon, grenade count, tracked location, movement-disabled flag); `RobotBase.h`
is not among the sources. -/
structure RobotBase where
  m_health : Int
  m_armor : Int
  m_weapon : WeaponType
  m_grenades : Int
  m_row : Int
  m_col : Int
  m_disabled : Bool
  deriving DecidableEq, Repr

namespace RobotBase

/-- Modelled from the spec: `armor() → int`. -/
def get_armor (r : RobotBase) : Int := r.m_armor

/-- Modelled from the spec: `degradeArmor()` decrements the armor counter (the
engine always passes 1). -/
def reduce_armor (r : RobotBase) (n : Int) : RobotBase :=
  { r with m_armor := r.m_armor - n }

/-- Modelled from the spec: `applyDamage(amount) → resultingHP`: the instance
subtracts `amount` from its HP and returns the new value. -/
def take_damage (r : RobotBase) (d : Int) : RobotBase × Int :=
  ({ r with m_health := r.m_health - d }, r.m_health - d)

/-- Modelled from the spec: `teleportTo(row, col)`, the instance tracks its own
location. -/
def move_to (r : RobotBase) (row col : Int) : RobotBase :=
  { r with m_row := row, m_col := col }

/-- Modelled from the spec: `disableMovement()`, a notification the instance
remembers. -/
def disable_movement (r : RobotBase) : RobotBase :=
  { r with m_disabled := true }

/-- Modelled from the spec: `weapon() → WeaponKind`, fixed and read-only. -/
def get_weapon (r : RobotBase) : WeaponType := r.m_weapon

/-- Modelled from the spec: `grenadeCount() → int`. -/
def get_grenades (r : RobotBase) : Int := r.m_grenades

/-- Modelled from the spec: `consumeGrenade()` decrements the grenade count. -/
def decrement_grenades (r : RobotBase) : RobotBase :=
  { r with m_grenades := r.m_grenades - 1 }

end RobotBase

/-- Modelled from the spec: the table `directions` of `RobotBase.h`, which is not
among the sources: index 0 is the null step and 1..8 are the eight compass
offsets `(Δrow, Δcol)`, clockwise from north (north is decreasing row, east is
increasing column). -/
def directions : List (Int × Int) :=
  [(0, 0), (-1, 0), (-1, 1), (0, 1), (1, 1), (1, 0), (1, -1), (0, -1), (-1, -1)]

/-- The engine-owned record of one combatant (`struct LoadedRobot`); the
`dlopen` handle plays no part in the simulation and is left out. -/
structure LoadedRobot where
  robot : RobotBase
  row : Int
  col : Int
  alive : Bool
  deriving DecidableEq, Repr

/-- The calls the engine makes on a combatant through `RobotBase*`. -/
inductive Call
  | get_radar_direction
  | process_radar_results (radar : List RadarObj)
  | get_move_direction
  | move_to (r c : Int)
  | disable_movement
  | get_shot_location
  | get_weapon
  | get_grenades
  | decrement_grenades
  | get_armor
  | reduce_armor (n : Int)
  | take_damage (d : Int)
  | print_stats
  deriving DecidableEq, Repr

/-- Result of a computation that contains the railgun's `while` loop:
`returned x` when it finished in state `x`, `outOfFuel x` when the loop was
still running in state `x` after the allotted number of iterations. -/
inductive Outcome (α : Type)
  | returned (x : α)
  | outOfFuel (x : α)
  deriving DecidableEq, Repr

/-- The world (`class Arena`): grid size, hazard board, combatant handles, and
the log of contract calls made so far. -/
structure Arena where
  m_rows : Int
  m_cols : Int
  board : List (List ObstacleType)
  robots : List LoadedRobot
  log : List (Nat × Call)
  deriving DecidableEq, Repr

namespace Arena

/-- `Arena::inBounds`. -/
def inBounds (a : Arena) (r c : Int) : Bool :=
  decide (r ≥ 0) && decide (r < a.m_rows) && decide (c ≥ 0) && decide (c < a.m_cols)

/-- The cell `board[r][c]`; the engine reads it only for in-bounds `(r, c)`, and
the model answers `Empty` for an index outside the stored vectors. -/
def boardAt (a : Arena) (r c : Int) : ObstacleType :=
  if r < 0 ∨ c < 0 then ObstacleType.Empty
  else (a.board.getD r.toNat []).getD c.toNat ObstacleType.Empty

/-- The search loop of `Arena::robotAt` over the handles from index `k` on. -/
def robotAtFrom (r c : Int) : List LoadedRobot → Nat → Option Nat
  | [], _ => none
  | lr :: rest, k =>
    if lr.row = r ∧ lr.col = c ∧ lr.alive = true then some k
    else robotAtFrom r c rest (k + 1)

/-- `Arena::robotAt`: the first handle that is alive at `(r, c)`, if any. -/
def robotAt (a : Arena) (r c : Int) : Option Nat :=
  robotAtFrom r c a.robots 0

/-- Append one contract call of handle `i` to the log. -/
def record (a : Arena) (i : Nat) (c : Call) : Arena :=
  { a with log := a.log ++ [(i, c)] }

/-- Replace the record of handle `i`. -/
def setRobot (a : Arena) (i : Nat) (lr : LoadedRobot) : Arena :=
  { a with robots := a.robots.set i lr }

/-- The base damage selected by the four `if`s of `Arena::applyDamage`. -/
def baseDamage (w : WeaponType) : Int :=
  let base : Int := 10
  let base := if w = WeaponType.railgun then 15 else base
  let base := if w = WeaponType.hammer then 20 else base
  let base := if w = WeaponType.flamethrower then 12 else base
  let base := if w = WeaponType.grenade then 18 else base
  base

/-- `Arena::applyDamage(target, w)` with `target = robots[t]`. -/
def applyDamage (a : Arena) (t : Nat) (w : WeaponType) : Arena :=
  match a.robots[t]? with
  | none => a
  | some target =>
    if !target.alive then a
    else
      let base := baseDamage w
      let a1 := a.record t Call.get_armor
      if target.robot.get_armor > 0 then
        let r1 := target.robot.reduce_armor 1
        let a2 := a1.record t (Call.reduce_armor 1)
        let base := base - 4
        let base := if base < 1 then 1 else base
        let res := r1.take_damage base
        let a3 := a2.record t (Call.take_damage base)
        a3.setRobot t { target with robot := res.1, alive := if res.2 ≤ 0 then false else target.alive }
      else
        let base := if base < 1 then 1 else base
        let res := target.robot.take_damage base
        let a3 := a1.record t (Call.take_damage base)
        a3.setRobot t { target with robot := res.1, alive := if res.2 ≤ 0 then false else target.alive }

/-- The amount `applyDamage` hands to `take_damage` for weapon `w` on a target
whose armor reads `armor`. -/
def damageDealt (w : WeaponType) (armor : Int) : Int :=
  if armor > 0 then (if baseDamage w - 4 < 1 then 1 else baseDamage w - 4)
  else (if baseDamage w < 1 then 1 else baseDamage w)

/-- The record of a living target after `applyDamage` with weapon `w`. -/
def damaged (x : LoadedRobot) (w : WeaponType) : LoadedRobot :=
  { x with
    robot :=
      { x.robot with
        m_armor := if x.robot.m_armor > 0 then x.robot.m_armor - 1 else x.robot.m_armor
        m_health := x.robot.m_health - damageDealt w x.robot.m_armor }
    alive := if x.robot.m_health - damageDealt w x.robot.m_armor ≤ 0 then false else x.alive }

/-- The contract calls `applyDamage` makes on a living target `t`. -/
def damageCalls (t : Nat) (x : LoadedRobot) (w : WeaponType) : List (Nat × Call) :=
  if x.robot.m_armor > 0 then
    [(t, Call.get_armor), (t, Call.reduce_armor 1), (t, Call.take_damage (damageDealt w x.robot.m_armor))]
  else [(t, Call.get_armor), (t, Call.take_damage (damageDealt w x.robot.m_armor))]

/-- A committed step of `Arena::doMovement`: `lr.row = nr; lr.col = nc;
lr.robot->move_to(nr, nc)` for `lr = robots[i]`. -/
def commitStep (a : Arena) (i : Nat) (lr : LoadedRobot) (nr nc : Int) : Arena :=
  (a.setRobot i { lr with row := nr, col := nc, robot := lr.robot.move_to nr nc }).record
    i (Call.move_to nr nc)

/-- The call `lr.robot->disable_movement()` for `lr = robots[i]`. -/
def notifyPit (a : Arena) (i : Nat) : Arena :=
  match a.robots[i]? with
  | none => a
  | some lr =>
    (a.setRobot i { lr with robot := lr.robot.disable_movement }).record i Call.disable_movement

/-- The step loop of `Arena::doMovement`: at most `n` further steps of handle
`i` along `(dr, dc)`. -/
def moveLoop : Nat → Arena → Nat → Int → Int → Arena
  | 0, a, _, _, _ => a
  | n + 1, a, i, dr, dc =>
    match a.robots[i]? with
    | none => a
    | some lr =>
      let nr := lr.row + dr
      let nc := lr.col + dc
      if !a.inBounds nr nc then a
      else if (a.robotAt nr nc).isSome then a
      else if a.boardAt nr nc = ObstacleType.Mound then a
      else
        let a1 := a.commitStep i lr nr nc
        if a.boardAt nr nc = ObstacleType.Pit then a1.notifyPit i
        else if a.boardAt nr nc = ObstacleType.FlameTrap then
          moveLoop n (a1.applyDamage i WeaponType.flamethrower) i dr dc
        else moveLoop n a1 i dr dc

/-- `Arena::doMovement(lr)` with `lr = robots[i]`, where `(dir, dist)` is what
`get_move_direction` answered.  An index outside 0..8 reads past the table in
the source (undefined behaviour); the model then uses the null step. -/
def doMovement (a : Arena) (i : Nat) (dir dist : Int) : Arena :=
  match a.robots[i]? with
  | none => a
  | some lr =>
    if !lr.alive then a
    else
      let a1 := a.record i Call.get_move_direction
      if dist = 0 ∨ dir = 0 then a1
      else
        let d := directions.getD dir.toNat (0, 0)
        moveLoop dist.toNat a1 i d.1 d.2

/-- The body `if (auto* t = robotAt(r, c)) applyDamage(*t, w)`. -/
def hitAt (a : Arena) (r c : Int) (w : WeaponType) : Arena :=
  match a.robotAt r c with
  | some t => a.applyDamage t w
  | none => a

/-- The flamethrower's two nested `for` loops, anchored at `(r0, c0)`. -/
def flameSweep (a : Arena) (r0 c0 : Int) : Arena :=
  ([-1, 0, 1] : List Int).foldl
    (fun a1 dr =>
      ([1, 2, 3, 4] : List Int).foldl
        (fun a2 i =>
          if a2.inBounds (r0 + i) (c0 + dr) then a2.hitAt (r0 + i) (c0 + dr) WeaponType.flamethrower
          else a2)
        a1)
    a

/-- The railgun's `while (inBounds(r, c))` loop, at most `fuel` iterations. -/
def railgunWalk : Nat → Arena → Int → Int → Int → Int → Outcome Arena
  | 0, a, _, _, _, _ => Outcome.outOfFuel a
  | fuel + 1, a, r, c, dr, dc =>
    if a.inBounds r c then
      railgunWalk fuel (a.hitAt r c WeaponType.railgun) (r + dr) (c + dc) dr dc
    else Outcome.returned a

/-- The grenade's two nested `for` loops around `(sr, sc)`. -/
def grenadeBlast (a : Arena) (sr sc : Int) : Arena :=
  ([-1, 0, 1] : List Int).foldl
    (fun a1 dr =>
      ([-1, 0, 1] : List Int).foldl
        (fun a2 dc =>
          if a2.inBounds (sr + dr) (sc + dc) then a2.hitAt (sr + dr) (sc + dc) WeaponType.grenade
          else a2)
        a1)
    a

/-- The sign computation of the railgun branch: `(s > x) ? 1 : (s < x ? -1 : 0)`. -/
def stepToward (s x : Int) : Int :=
  if s > x then 1 else (if s < x then -1 else 0)

/-- `Arena::doShooting(lr)` with `lr = robots[i]`, where `shot` is what
`get_shot_location` answered (`none` for `false`). -/
def doShooting (fuel : Nat) (a : Arena) (i : Nat) (shot : Option (Int × Int)) : Outcome Arena :=
  match a.robots[i]? with
  | none => Outcome.returned a
  | some lr =>
    if !lr.alive then Outcome.returned a
    else
      let a1 := a.record i Call.get_shot_location
      match shot with
      | none => Outcome.returned a1
      | some (sr, sc) =>
        let w := lr.robot.get_weapon
        let a2 := a1.record i Call.get_weapon
        if w = WeaponType.flamethrower then
          Outcome.returned (a2.flameSweep lr.row lr.col)
        else if w = WeaponType.hammer then
          Outcome.returned (a2.hitAt sr sc w)
        else if w = WeaponType.railgun then
          let r0 := lr.row
          let c0 := lr.col
          let dr : Int := stepToward sr r0
          let dc : Int := stepToward sc c0
          railgunWalk fuel a2 (r0 + dr) (c0 + dc) dr dc
        else if w = WeaponType.grenade then
          let a3 := a2.record i Call.get_grenades
          if lr.robot.get_grenades = 0 then Outcome.returned a3
          else
            let a4 := (a3.setRobot i { lr with robot := lr.robot.decrement_grenades }).record
              i Call.decrement_grenades
            Outcome.returned (a4.grenadeBlast sr sc)
        else Outcome.returned a2

/-- The sample `buildRadar` emits for cell `(r, c)`. -/
def radarCell (a : Arena) (r c : Int) : RadarObj :=
  let type : Char :=
    if (a.robotAt r c).isSome then 'R'
    else
      match a.boardAt r c with
      | ObstacleType.FlameTrap => 'F'
      | ObstacleType.Pit => 'P'
      | ObstacleType.Mound => 'M'
      | ObstacleType.Empty => '.'
  { m_type := type, m_row := r, m_col := c }

/-- `Arena::buildRadar(lr)`: one sample per cell, row-major. -/
def buildRadar (a : Arena) (_i : Nat) : List RadarObj :=
  (List.range a.m_rows.toNat).flatMap fun (r : Nat) =>
    (List.range a.m_cols.toNat).map fun (c : Nat) => a.radarCell (r : Int) (c : Int)

/-- `Arena::gameOver`. -/
def gameOver (a : Arena) : Bool :=
  decide ((a.robots.filter fun lr => lr.alive).length ≤ 1)

end Arena

/-- The answers of the combatants' own decision methods, by round and handle. -/
structure Behaviour where
  get_move_direction : Nat → Nat → Int × Int
  get_shot_location : Nat → Nat → Option (Int × Int)

namespace Arena

/-- The body of the per-handle loop of `Arena::runSimulation` for handle `i`. -/
def takeTurn (fuel : Nat) (beh : Behaviour) (round : Nat) (a : Arena) (i : Nat) : Outcome Arena :=
  match a.robots[i]? with
  | none => Outcome.returned a
  | some lr =>
    if !lr.alive then Outcome.returned a
    else
      let radar := a.buildRadar i
      let a1 := (a.record i Call.get_radar_direction).record i (Call.process_radar_results radar)
      let mv := beh.get_move_direction round i
      let a2 := a1.doMovement i mv.1 mv.2
      a2.doShooting fuel i (beh.get_shot_location round i)

/-- The loop `for (auto& lr : robots)` of one round, over the listed handles. -/
def turnsFrom (fuel : Nat) (beh : Behaviour) (round : Nat) : List Nat → Arena → Outcome Arena
  | [], a => Outcome.returned a
  | i :: rest, a =>
    match takeTurn fuel beh round a i with
    | Outcome.returned a1 => turnsFrom fuel beh round rest a1
    | Outcome.outOfFuel a1 => Outcome.outOfFuel a1

/-- One full round: every handle in registration order. -/
def playRound (fuel : Nat) (beh : Behaviour) (round : Nat) (a : Arena) : Outcome Arena :=
  turnsFrom fuel beh round (List.range a.robots.length) a

/-- The loop `while (!gameOver() && round < 500)`; the first argument bounds
the number of iterations still allowed and is 500 at the start. -/
def simLoop (fuel : Nat) (beh : Behaviour) : Nat → Nat → Arena → Outcome (Arena × Nat)
  | 0, round, a => Outcome.returned (a, round)
  | n + 1, round, a =>
    if !a.gameOver && decide (round < 500) then
      match playRound fuel beh round a with
      | Outcome.returned a1 => simLoop fuel beh n (round + 1) a1
      | Outcome.outOfFuel a1 => Outcome.outOfFuel (a1, round)
    else Outcome.returned (a, round)

/-- The handles named on the `WINNER:` lines, in print order. -/
def winners (a : Arena) : List Nat :=
  (List.range a.robots.length).filter fun i =>
    match a.robots[i]? with
    | some lr => lr.alive
    | none => false

/-- What a finished match leaves behind: the final world, the round counter,
and the handles reported as winners. -/
structure SimResult where
  arena : Arena
  round : Nat
  winners : List Nat
  deriving DecidableEq, Repr

/-- `Arena::runSimulation`. -/
def runSimulation (fuel : Nat) (beh : Behaviour) (a : Arena) : Outcome SimResult :=
  match simLoop fuel beh 500 0 a with
  | Outcome.returned (a1, round) =>
    Outcome.returned
      { arena := a1.winners.foldl (fun w i => w.record i Call.print_stats) a1
        round := round
        winners := a1.winners }
  | Outcome.outOfFuel (a1, round) =>
    Outcome.outOfFuel { arena := a1, round := round, winners := [] }

/-- The number of handles whose `alive` flag is set. -/
def aliveCount (a : Arena) : Nat :=
  (a.robots.filter fun lr => lr.alive).length

/-- The calls logged between world `a` and a later world `b`. -/
def newCalls (a b : Arena) : List (Nat × Call) :=
  b.log.drop a.log.length

/-- No two distinct alive handles stand on the same cell. -/
def NoOverlap (a : Arena) : Prop :=
  ∀ i j : Nat, ∀ x y : LoadedRobot, a.robots[i]? = some x → a.robots[j]? = some y →
    x.alive = true → y.alive = true → x.row = y.row → x.col = y.col → i = j

/-- No call in `L` is `disable_movement` or a `move_to` onto a Pit cell of `a`. -/
def PitFree (a : Arena) (L : List (Nat × Call)) : Prop :=
  ∀ e ∈ L, e.2 ≠ Call.disable_movement ∧
    ∀ r c, e.2 = Call.move_to r c → a.boardAt r c ≠ ObstacleType.Pit

/-- Every call in `L` is made on handle `i`, and every `move_to` in it goes to a
cell inside the grid of `a` that is not a Mound. -/
def StepsValid (a : Arena) (i : Nat) (L : List (Nat × Call)) : Prop :=
  ∀ e ∈ L, e.1 = i ∧
    ∀ r c, e.2 = Call.move_to r c → a.inBounds r c = true ∧ a.boardAt r c ≠ ObstacleType.Mound

end Arena

/-- The state a computation reached, whether it returned or was cut off. -/
def Outcome.state {α : Type} : Outcome α → α
  | Outcome.returned x => x
  | Outcome.outOfFuel x => x

namespace Arena

/-- World `b` has the grid of `a` and the same handles on the same cells, and
every handle alive in `b` is alive in `a`. -/
def Weakens (a b : Arena) : Prop :=
  b.m_rows = a.m_rows ∧ b.m_cols = a.m_cols ∧ b.board = a.board ∧
  b.robots.length = a.robots.length ∧
  ∀ (j : Nat) (x y : LoadedRobot), a.robots[j]? = some x → b.robots[j]? = some y →
    y.row = x.row ∧ y.col = x.col ∧ (y.alive = true → x.alive = true)

/-- Executable test that no two distinct alive handles stand on the same cell. -/
def noOverlapCheck (a : Arena) : Bool :=
  (List.range a.robots.length).all fun i =>
    (List.range a.robots.length).all fun j =>
      match a.robots[i]?, a.robots[j]? with
      | some x, some y =>
        decide (i = j) || !(x.alive && y.alive && decide (x.row = y.row) && decide (x.col = y.col))
      | _, _ => true

/-- The first `n` cells of the walk that starts at `(r, c)` and advances by
`(dr, dc)`. -/
def rayCells (r c dr dc : Int) (n : Nat) : List (Int × Int) :=
  (List.range n).map fun (k : Nat) => (r + (k : Int) * dr, c + (k : Int) * dc)

/-- The calls logged when the handles `hits`, as they are in world `a`, are
damaged one after the other with weapon `w`. -/
def damageCallsOf (a : Arena) (w : WeaponType) (hits : List Nat) : List (Nat × Call) :=
  hits.flatMap fun t =>
    match a.robots[t]? with
    | some x => damageCalls t x w
    | none => []

end Arena

/-! ## Concrete worlds used as test inputs -/

namespace Scenario

/-- A living combatant with the given weapon, HP and armor at `(r, c)`. -/
def mkRobot (w : WeaponType) (hp armor r c : Int) : LoadedRobot :=
  { robot :=
      { m_health := hp, m_armor := armor, m_weapon := w, m_grenades := 0, m_row := r, m_col := c,
        m_disabled := false }
    row := r
    col := c
    alive := true }

/-- A board of the given size without hazards. -/
def emptyBoard (rows cols : Nat) : List (List ObstacleType) :=
  List.replicate rows (List.replicate cols ObstacleType.Empty)

/-- Scenario A: 5×5 empty grid, X (railgun) at `(0,0)`, Y at `(0,4)` with HP 30,
both without armor. -/
def scenarioA : Arena :=
  { m_rows := 5, m_cols := 5, board := emptyBoard 5 5,
    robots := [mkRobot WeaponType.railgun 100 0 0 0, mkRobot WeaponType.railgun 30 0 0 4],
    log := [] }

/-- Scenario A after the first shot: Y is down to HP 15. -/
def scenarioA2 : Arena :=
  { m_rows := 5, m_cols := 5, board := emptyBoard 5 5,
    robots := [mkRobot WeaponType.railgun 100 0 0 0, mkRobot WeaponType.railgun 15 0 0 4],
    log := [] }

/-- An armored target: 5×5 empty grid, a hammer robot at `(1,1)` and a target
with HP 30 and armor 3 at `(1,2)`. -/
def armored : Arena :=
  { m_rows := 5, m_cols := 5, board := emptyBoard 5 5,
    robots := [mkRobot WeaponType.hammer 100 0 1 1, mkRobot WeaponType.railgun 30 3 1 2],
    log := [] }

/-- Scenario B: a 5×5 grid whose only hazard is a Mound at `(2,4)`, one handle
at `(2,2)`. -/
def scenarioB : Arena :=
  { m_rows := 5, m_cols := 5,
    board :=
      [[ObstacleType.Empty, ObstacleType.Empty, ObstacleType.Empty, ObstacleType.Empty, ObstacleType.Empty],
       [ObstacleType.Empty, ObstacleType.Empty, ObstacleType.Empty, ObstacleType.Empty, ObstacleType.Empty],
       [ObstacleType.Empty, ObstacleType.Empty, ObstacleType.Empty, ObstacleType.Empty, ObstacleType.Mound],
       [ObstacleType.Empty, ObstacleType.Empty, ObstacleType.Empty, ObstacleType.Empty, ObstacleType.Empty],
       [ObstacleType.Empty, ObstacleType.Empty, ObstacleType.Empty, ObstacleType.Empty, ObstacleType.Empty]],
    robots := [mkRobot WeaponType.railgun 100 0 2 2],
    log := [] }

/-- A 1×4 lane `. F P .` with one handle (HP 100, armor 1) at `(0,0)`. -/
def pitLane : Arena :=
  { m_rows := 1, m_cols := 4,
    board := [[ObstacleType.Empty, ObstacleType.FlameTrap, ObstacleType.Pit, ObstacleType.Empty]],
    robots := [mkRobot WeaponType.hammer 100 1 0 0],
    log := [] }

/-- Combatants that never move and never shoot. -/
def idle : Behaviour :=
  { get_move_direction := fun _ _ => (0, 0)
    get_shot_location := fun _ _ => none }

/-- Nobody moves; handle 0 reports its own cell `(0,0)` of Scenario A as shot
intent in every round, the others do not shoot. -/
def selfShooter : Behaviour :=
  { get_move_direction := fun _ _ => (0, 0)
    get_shot_location := fun _ i => if i = 0 then some (0, 0) else none }

/-- The shooter X of Scenario A. -/
def shooterX : LoadedRobot := mkRobot WeaponType.railgun 100 0 0 0

/-- A 1×4 lane `. F . .` with one handle (HP 10, no armor) at `(0,0)`. -/
def flameLane : Arena :=
  { m_rows := 1, m_cols := 4,
    board := [[ObstacleType.Empty, ObstacleType.FlameTrap, ObstacleType.Empty, ObstacleType.Empty]],
    robots := [mkRobot WeaponType.hammer 10 0 0 0],
    log := [] }

/-- Scenario A with Y already dead. -/
def scenarioAdead : Arena :=
  { m_rows := 5, m_cols := 5, board := emptyBoard 5 5,
    robots :=
      [mkRobot WeaponType.railgun 100 0 0 0,
        { mkRobot WeaponType.railgun 0 0 0 4 with alive := false }],
    log := [] }

end Scenario

namespace Arena

/-- The common shape of the flamethrower's and the grenade's loops: for each
listed cell in order, `if (inBounds(r, c)) if (auto* t = robotAt(r, c))
applyDamage(*t, w)`. -/
def sweep (a : Arena) (w : WeaponType) (cells : List (Int × Int)) : Arena :=
  cells.foldl (fun b p => if b.inBounds p.1 p.2 then b.hitAt p.1 p.2 w else b) a

/-- The handles `robotAt` finds, in world `a`, on those of the listed cells that
lie inside the grid, in list order. -/
def hitsOf (a : Arena) (cells : List (Int × Int)) : List Nat :=
  (cells.filter fun p => a.inBounds p.1 p.2).filterMap fun p => a.robotAt p.1 p.2

/-- The offsets `(i, dr)` the flamethrower's loops run through, in loop order
(`dr` outer, `i` inner; `i` is added to the row and `dr` to the column). -/
def flameOffsets : List (Int × Int) :=
  [(1, -1), (2, -1), (3, -1), (4, -1), (1, 0), (2, 0), (3, 0), (4, 0), (1, 1), (2, 1), (3, 1), (4, 1)]

/-- The cells the flamethrower's loops visit from the anchor `(r0, c0)`. -/
def flameCells (r0 c0 : Int) : List (Int × Int) :=
  flameOffsets.map fun o => (r0 + o.1, c0 + o.2)

/-- The offsets `(dr, dc)` the grenade's loops run through, in loop order. -/
def blastOffsets : List (Int × Int) :=
  [(-1, -1), (-1, 0), (-1, 1), (0, -1), (0, 0), (0, 1), (1, -1), (1, 0), (1, 1)]

/-- The cells the grenade's loops visit around `(sr, sc)`. -/
def blastCells (sr sc : Int) : List (Int × Int) :=
  blastOffsets.map fun o => (sr + o.1, sc + o.2)

end Arena

namespace Scenario

/-- Scenario C: a clear 10×10 board, a flamethrower handle at `(5,5)`, an enemy
at `(7,5)` and a bystander at `(4,5)`, all with HP 100 and no armor. -/
def scenarioC : Arena :=
  { m_rows := 10, m_cols := 10, board := emptyBoard 10 10,
    robots :=
      [mkRobot WeaponType.flamethrower 100 0 5 5, mkRobot WeaponType.hammer 100 0 7 5,
        mkRobot WeaponType.hammer 100 0 4 5],
    log := [] }

/-- A living grenade thrower with the given grenade count at `(r, c)`, HP 100,
no armor. -/
def mkGrenadier (count r c : Int) : LoadedRobot :=
  { robot :=
      { m_health := 100, m_armor := 0, m_weapon := WeaponType.grenade, m_grenades := count,
        m_row := r, m_col := c, m_disabled := false }
    row := r
    col := c
    alive := true }

/-- Scenario D: a clear 7×7 board, a grenade thrower with one grenade at
`(0,0)`, enemies at `(2,3)` and `(4,4)` (inside the block around `(3,3)`) and at
`(5,5)` (outside it). -/
def scenarioD : Arena :=
  { m_rows := 7, m_cols := 7, board := emptyBoard 7 7,
    robots :=
      [mkGrenadier 1 0 0, mkRobot WeaponType.hammer 100 0 2 3, mkRobot WeaponType.hammer 100 0 4 4,
        mkRobot WeaponType.hammer 100 0 5 5],
    log := [] }

/-- Scenario D after the throw: no grenade left, the two enemies in the block
at HP 82. -/
def scenarioDspent : Arena :=
  { m_rows := 7, m_cols := 7, board := emptyBoard 7 7,
    robots :=
      [mkGrenadier 0 0 0, mkRobot WeaponType.hammer 82 0 2 3, mkRobot WeaponType.hammer 82 0 4 4,
        mkRobot WeaponType.hammer 100 0 5 5],
    log := [] }

/-- Scenario D with a grenade count of `-1`. -/
def scenarioDnegative : Arena :=
  { m_rows := 7, m_cols := 7, board := emptyBoard 7 7,
    robots :=
      [mkGrenadier (-1) 0 0, mkRobot WeaponType.hammer 100 0 2 3,
        mkRobot WeaponType.hammer 100 0 4 4, mkRobot WeaponType.hammer 100 0 5 5],
    log := [] }

end Scenario

namespace Arena

/-- The record of handle `j` once the thrower `i` has spent a grenade: the
thrower's grenade count is decremented, every other record is as it was. -/
def spent (i j : Nat) (x : LoadedRobot) : LoadedRobot :=
  if j = i then { x with robot := x.robot.decrement_grenades } else x

/-- The sample sequences handed to `process_radar_results` among the logged
calls, each with the handle that received it, in order. -/
def radarDeliveries (L : List (Nat × Call)) : List (Nat × List RadarObj) :=
  L.filterMap fun e =>
    match e.2 with
    | Call.process_radar_results radar => some (e.1, radar)
    | _ => none

/-- World `b` is world `a` after further contract calls, none of which is a
`process_radar_results`, have been logged. -/
def Quiet (a b : Arena) : Prop :=
  ∃ L, b.log = a.log ++ L ∧ radarDeliveries L = []

end Arena

namespace Scenario

/-- Three railgun handles in a row on a 1×3 board: X (HP 10) at `(0,0)`, Z
(HP 100) at `(0,1)`, Y (HP 10) at `(0,2)`. -/
def scenarioE : Arena :=
  { m_rows := 1, m_cols := 3, board := emptyBoard 1 3,
    robots :=
      [mkRobot WeaponType.railgun 10 0 0 0, mkRobot WeaponType.railgun 100 0 0 1,
        mkRobot WeaponType.railgun 10 0 0 2],
    log := [] }

/-- Nobody moves; handle 0 shoots toward `(0,2)`, every other handle toward
`(0,0)`. -/
def crossfire : Behaviour :=
  { get_move_direction := fun _ _ => (0, 0)
    get_shot_location := fun _ i => if i = 0 then some (0, 2) else some (0, 0) }

end Scenario

/-- The state of a `Robot_SniperBrooke` instance: its `RobotBase` part (the
tracked location is what `get_current_location` reads) and its own fields; the
`std::set` of remembered obstacles is kept as a duplicate-free list. -/
structure Robot_SniperBrooke where
  base : RobotBase
  target_found : Bool
  target_row : Int
  target_col : Int
  radar_direction : Int
  fixed_radar : Bool
  obstacles_memory : List (Int × Int)
  deriving DecidableEq, Repr

namespace Robot_SniperBrooke

/-- The constant `max_range`. -/
def max_range : Int := 20

/-- The initial value of `closest_distance`, `std::numeric_limits<int>::max()`. -/
def int_max : Int := 2147483647

/-- The value of a 32-bit `int` computation whose mathematical result is `x`:
`x` reduced into `-2^31 .. 2^31 - 1` by two's-complement wrap-around (what the
compiled code yields where the C++ arithmetic overflows). -/
def wrap32 (x : Int) : Int :=
  (x + 2147483648) % 4294967296 - 2147483648

/-- `calculate_distance`: `std::abs(row1 - row2) + std::abs(col1 - col2)`, every
operation on 32-bit `int`. -/
def calculate_distance (row1 col1 row2 col2 : Int) : Int :=
  wrap32
    (wrap32 ((wrap32 (row1 - row2)).natAbs : Int) + wrap32 ((wrap32 (col1 - col2)).natAbs : Int))

/-- Modelled from the spec: `currentLocation() → (row, col)` of `RobotBase`, the
location tracked through `move_to`. -/
def get_current_location (s : Robot_SniperBrooke) : Int × Int :=
  (s.base.m_row, s.base.m_col)

/-- `update_obstacle_memory`. -/
def update_obstacle_memory (s : Robot_SniperBrooke) (radar_results : List RadarObj) :
    Robot_SniperBrooke :=
  radar_results.foldl
    (fun s1 obj =>
      if obj.m_type = 'M' ∨ obj.m_type = 'P' ∨ obj.m_type = 'F' then
        { s1 with obstacles_memory := s1.obstacles_memory.insert (obj.m_row, obj.m_col) }
      else s1)
    s

/-- The body of the loop of `find_closest_enemy`; the first component of the
state is the local `closest_distance`. -/
def find_closest_step (current_row current_col : Int) (st : Int × Robot_SniperBrooke)
    (obj : RadarObj) : Int × Robot_SniperBrooke :=
  if obj.m_type ≠ 'R' then st
  else if obj.m_row ≠ current_row ∧ obj.m_col ≠ current_col then st
  else
    let distance := calculate_distance current_row current_col obj.m_row obj.m_col
    if distance ≤ max_range ∧ distance > 0 ∧ distance < st.1 then
      (distance,
        { st.2 with
          target_row := obj.m_row, target_col := obj.m_col, target_found := true,
          fixed_radar := true })
    else st

/-- `find_closest_enemy`. -/
def find_closest_enemy (s : Robot_SniperBrooke) (radar_results : List RadarObj)
    (current_row current_col : Int) : Robot_SniperBrooke :=
  (radar_results.foldl (find_closest_step current_row current_col)
    (int_max, { s with target_found := false })).2

/-- `process_radar_results`. -/
def process_radar_results (s : Robot_SniperBrooke) (radar_results : List RadarObj) :
    Robot_SniperBrooke :=
  let s1 := { s with target_found := false }
  let loc := s1.get_current_location
  let s2 := s1.update_obstacle_memory radar_results
  let s3 := s2.find_closest_enemy radar_results loc.1 loc.2
  if !s3.target_found then { s3 with fixed_radar := false } else s3

/-- `get_shot_location`: `none` for `false`, the shot cell for `true`. -/
def get_shot_location (s : Robot_SniperBrooke) : Option (Int × Int) :=
  if !s.target_found then none else some (s.target_row, s.target_col)

/-- `get_radar_direction`: the direction reported and the state afterwards. -/
def get_radar_direction (s : Robot_SniperBrooke) : Int × Robot_SniperBrooke :=
  if s.fixed_radar && s.target_found then (s.radar_direction, s)
  else (s.radar_direction, { s with radar_direction := s.radar_direction % 8 + 1 })

/-- `get_move_direction`: the sniper stays put. -/
def get_move_direction (_s : Robot_SniperBrooke) : Int × Int := (0, 0)

end Robot_SniperBrooke

namespace Scenario

end Scenario

namespace Robot_SniperBrooke

end Robot_SniperBrooke

/-! ## Lemmas and theorems -/

namespace Arena

@[simp] theorem record_m_rows (a : Arena) (i : Nat) (c : Call) : (a.record i c).m_rows = a.m_rows := rfl
@[simp] theorem record_m_cols (a : Arena) (i : Nat) (c : Call) : (a.record i c).m_cols = a.m_cols := rfl
@[simp] theorem record_board (a : Arena) (i : Nat) (c : Call) : (a.record i c).board = a.board := rfl
@[simp] theorem record_robots (a : Arena) (i : Nat) (c : Call) : (a.record i c).robots = a.robots := rfl
@[simp] theorem record_log (a : Arena) (i : Nat) (c : Call) : (a.record i c).log = a.log ++ [(i, c)] := rfl
@[simp] theorem setRobot_m_rows (a : Arena) (i : Nat) (x : LoadedRobot) : (a.setRobot i x).m_rows = a.m_rows := rfl
@[simp] theorem setRobot_m_cols (a : Arena) (i : Nat) (x : LoadedRobot) : (a.setRobot i x).m_cols = a.m_cols := rfl
@[simp] theorem setRobot_board (a : Arena) (i : Nat) (x : LoadedRobot) : (a.setRobot i x).board = a.board := rfl
@[simp] theorem setRobot_robots (a : Arena) (i : Nat) (x : LoadedRobot) :
    (a.setRobot i x).robots = a.robots.set i x := rfl
@[simp] theorem setRobot_log (a : Arena) (i : Nat) (x : LoadedRobot) : (a.setRobot i x).log = a.log := rfl

/-- On a living target, `applyDamage` replaces its record by `damaged` and logs `damageCalls`. -/
theorem applyDamage_alive (a : Arena) (t : Nat) (w : WeaponType) (target : LoadedRobot)
    (ht : a.robots[t]? = some target) (halive : target.alive = true) :
    a.applyDamage t w =
      { a with robots := a.robots.set t (damaged target w), log := a.log ++ damageCalls t target w } := by
  unfold applyDamage
  simp only [ht, halive]
  by_cases h : target.robot.m_armor > 0
  · simp [h, damaged, damageCalls, damageDealt, RobotBase.get_armor, RobotBase.reduce_armor, RobotBase.take_damage, setRobot, record, halive]
  · simp [h, damaged, damageCalls, damageDealt, RobotBase.get_armor, RobotBase.reduce_armor, RobotBase.take_damage, setRobot, record, halive]

theorem applyDamage_dead (a : Arena) (t : Nat) (w : WeaponType) (target : LoadedRobot)
    (ht : a.robots[t]? = some target) (hdead : target.alive = false) :
    a.applyDamage t w = a := by
  unfold applyDamage
  simp [ht, hdead]

theorem applyDamage_none (a : Arena) (t : Nat) (w : WeaponType)
    (ht : a.robots[t]? = none) :
    a.applyDamage t w = a := by
  unfold applyDamage
  simp [ht]

theorem getElem?_set_robot (l : List LoadedRobot) (t j : Nat) (x y : LoadedRobot)
    (ht : l[t]? = some x) :
    (l.set t y)[j]? = if j = t then some y else l[j]? := by
  have hlt : t < l.length := by
    rcases List.getElem?_eq_some_iff.mp ht with ⟨h, _⟩
    exact h
  by_cases h : j = t
  · subst h
    simp [hlt]
  · have h2 : t ≠ j := fun e => h e.symm
    simp [h, h2]

theorem newCalls_append (a b : Arena) (l : List (Nat × Call)) (h : b.log = a.log ++ l) :
    a.newCalls b = l := by
  simp [newCalls, h]

/-- C1: for each of the four weapons and every living target, `applyDamage` hands
`take_damage` exactly the base damage (railgun 15, hammer 20, flamethrower 12,
grenade 18) when the target's armor is 0, leaving the armor unchanged, and
exactly `max 1 (base - 4)` when the armor is positive, leaving armor `a - 1`. -/
theorem applyDamage_armor_mitigation (a : Arena) (t : Nat) (w : WeaponType) (base : Int)
    (target : LoadedRobot) (ht : a.robots[t]? = some target) (halive : target.alive = true)
    (hw : (w, base) ∈ [(WeaponType.railgun, (15 : Int)), (WeaponType.hammer, 20),
      (WeaponType.flamethrower, 12), (WeaponType.grenade, 18)]) :
    (target.robot.m_armor = 0 →
      a.newCalls (a.applyDamage t w) = [(t, Call.get_armor), (t, Call.take_damage base)] ∧
      ∃ x, (a.applyDamage t w).robots[t]? = some x ∧ x.robot.m_armor = target.robot.m_armor) ∧
    (target.robot.m_armor > 0 →
      a.newCalls (a.applyDamage t w) =
        [(t, Call.get_armor), (t, Call.reduce_armor 1), (t, Call.take_damage (max 1 (base - 4)))] ∧
      ∃ x, (a.applyDamage t w).robots[t]? = some x ∧ x.robot.m_armor = target.robot.m_armor - 1) := by
  have hbase : baseDamage w = base := by
    simp only [List.mem_cons, Prod.mk.injEq, List.mem_singleton, List.not_mem_nil, or_false] at hw
    rcases hw with ⟨h1, h2⟩ | ⟨h1, h2⟩ | ⟨h1, h2⟩ | ⟨h1, h2⟩ <;> subst h1 <;> subst h2 <;> rfl
  have hb6 : 12 ≤ base := by
    simp only [List.mem_cons, Prod.mk.injEq, List.mem_singleton, List.not_mem_nil, or_false] at hw
    rcases hw with ⟨_, h2⟩ | ⟨_, h2⟩ | ⟨_, h2⟩ | ⟨_, h2⟩ <;> omega
  rw [applyDamage_alive a t w target ht halive]
  constructor
  · intro h0
    constructor
    · apply newCalls_append
      simp [damageCalls, damageDealt, h0, hbase]
      omega
    · refine ⟨damaged target w, ?_, ?_⟩
      · simp [getElem?_set_robot _ t t target _ ht]
      · simp [damaged, h0]
  · intro hpos
    constructor
    · apply newCalls_append
      simp only [damageCalls, damageDealt, hpos, hbase, if_true]
      have : ¬ base - 4 < 1 := by omega
      have hm : max 1 (base - 4) = base - 4 := by omega
      simp [this, hm]
    · refine ⟨damaged target w, ?_, ?_⟩
      · simp [getElem?_set_robot _ t t target _ ht]
      · simp [damaged, hpos]

/-- C1 at a concrete input: a hammer blow on the armored target (armor 3) hands
16 to `take_damage` and leaves armor 2. -/
theorem applyDamage_armor_mitigation_witness :
    Scenario.armored.robots[1]? = some (Scenario.mkRobot WeaponType.railgun 30 3 1 2) ∧
    (Scenario.armored.newCalls (Scenario.armored.applyDamage 1 WeaponType.hammer) =
        [(1, Call.get_armor), (1, Call.reduce_armor 1), (1, Call.take_damage (max 1 (20 - 4)))] ∧
      ∃ x, (Scenario.armored.applyDamage 1 WeaponType.hammer).robots[1]? = some x ∧
        x.robot.m_armor = (Scenario.mkRobot WeaponType.railgun 30 3 1 2).robot.m_armor - 1) :=
  ⟨by decide,
    (applyDamage_armor_mitigation Scenario.armored 1 WeaponType.hammer 20
      (Scenario.mkRobot WeaponType.railgun 30 3 1 2) (by decide) (by decide) (by decide)).2
      (by decide)⟩

/-- The `take_damage` calls among a list of logged calls. -/
theorem damageCalls_filter (t : Nat) (x : LoadedRobot) (w : WeaponType) :
    (damageCalls t x w).filter (fun e => match e.2 with | Call.take_damage _ => true | _ => false) =
      [(t, Call.take_damage (damageDealt w x.robot.m_armor))] := by
  unfold damageCalls
  split <;> rfl

/-- C9: for every living target, `applyDamage` calls `take_damage` exactly once,
and the target's alive flag afterwards is false exactly when the HP that call
returned is `≤ 0` (so a hit that brings HP to exactly 0 kills). -/
theorem applyDamage_kill_iff (a : Arena) (t : Nat) (w : WeaponType) (target : LoadedRobot)
    (ht : a.robots[t]? = some target) (halive : target.alive = true) :
    ∃ (d : Int) (r0 : RobotBase),
      (r0 = target.robot ∨ r0 = target.robot.reduce_armor 1) ∧
      (a.newCalls (a.applyDamage t w)).filter
        (fun e => match e.2 with | Call.take_damage _ => true | _ => false) =
        [(t, Call.take_damage d)] ∧
      ∃ x, (a.applyDamage t w).robots[t]? = some x ∧ x.robot = (r0.take_damage d).1 ∧
        (x.alive = false ↔ (r0.take_damage d).2 ≤ 0) := by
  rw [applyDamage_alive a t w target ht halive]
  refine ⟨damageDealt w target.robot.m_armor,
    if target.robot.m_armor > 0 then target.robot.reduce_armor 1 else target.robot, ?_, ?_, ?_⟩
  · split
    · exact Or.inr rfl
    · exact Or.inl rfl
  · rw [newCalls_append a _ (damageCalls t target w) rfl]
    exact damageCalls_filter t target w
  · refine ⟨damaged target w, ?_, ?_, ?_⟩
    · simp [getElem?_set_robot _ t t target _ ht]
    · by_cases h : target.robot.m_armor > 0 <;>
        simp [damaged, h, RobotBase.take_damage, RobotBase.reduce_armor]
    · by_cases h : target.robot.m_armor > 0 <;>
        simp [damaged, h, RobotBase.take_damage, RobotBase.reduce_armor, halive]

/-- C9 at a concrete input (Scenario A, second shot): Y has HP 15 and no armor,
the railgun hit of 15 brings it to exactly 0 and clears its alive flag. -/
theorem applyDamage_kill_iff_witness :
    (Scenario.scenarioA2.applyDamage 1 WeaponType.railgun).robots[1]? =
      some { Scenario.mkRobot WeaponType.railgun 0 0 0 4 with alive := false } ∧
    ∃ (d : Int) (r0 : RobotBase),
      (r0 = (Scenario.mkRobot WeaponType.railgun 15 0 0 4).robot ∨
        r0 = (Scenario.mkRobot WeaponType.railgun 15 0 0 4).robot.reduce_armor 1) ∧
      (Scenario.scenarioA2.newCalls (Scenario.scenarioA2.applyDamage 1 WeaponType.railgun)).filter
        (fun e => match e.2 with | Call.take_damage _ => true | _ => false) =
        [(1, Call.take_damage d)] ∧
      ∃ x, (Scenario.scenarioA2.applyDamage 1 WeaponType.railgun).robots[1]? = some x ∧
        x.robot = (r0.take_damage d).1 ∧ (x.alive = false ↔ (r0.take_damage d).2 ≤ 0) :=
  ⟨by decide,
    applyDamage_kill_iff Scenario.scenarioA2 1 WeaponType.railgun
      (Scenario.mkRobot WeaponType.railgun 15 0 0 4) (by decide) (by decide)⟩

/-! ### Frame facts: the grid never changes -/

theorem inBounds_congr (a b : Arena) (h1 : b.m_rows = a.m_rows) (h2 : b.m_cols = a.m_cols)
    (r c : Int) : b.inBounds r c = a.inBounds r c := by
  simp [inBounds, h1, h2]

theorem boardAt_congr (a b : Arena) (h : b.board = a.board) (r c : Int) :
    b.boardAt r c = a.boardAt r c := by
  simp [boardAt, h]

theorem inBounds_iff (a : Arena) (r c : Int) :
    a.inBounds r c = true ↔ 0 ≤ r ∧ r < a.m_rows ∧ 0 ≤ c ∧ c < a.m_cols := by
  simp [inBounds, and_assoc]

/-- What `applyDamage` does, by the state of the target. -/
theorem applyDamage_cases (a : Arena) (t : Nat) (w : WeaponType) :
    a.applyDamage t w = a ∨
    ∃ x, a.robots[t]? = some x ∧ x.alive = true ∧
      a.applyDamage t w =
        { a with robots := a.robots.set t (damaged x w), log := a.log ++ damageCalls t x w } := by
  cases h : a.robots[t]? with
  | none => exact Or.inl (applyDamage_none a t w h)
  | some x =>
    cases hx : x.alive with
    | false => exact Or.inl (applyDamage_dead a t w x h hx)
    | true => exact Or.inr ⟨x, rfl, hx, applyDamage_alive a t w x h hx⟩

@[simp] theorem applyDamage_m_rows (a : Arena) (t : Nat) (w : WeaponType) :
    (a.applyDamage t w).m_rows = a.m_rows := by
  rcases applyDamage_cases a t w with h | ⟨x, _, _, h⟩ <;> rw [h]

@[simp] theorem applyDamage_m_cols (a : Arena) (t : Nat) (w : WeaponType) :
    (a.applyDamage t w).m_cols = a.m_cols := by
  rcases applyDamage_cases a t w with h | ⟨x, _, _, h⟩ <;> rw [h]

@[simp] theorem applyDamage_board (a : Arena) (t : Nat) (w : WeaponType) :
    (a.applyDamage t w).board = a.board := by
  rcases applyDamage_cases a t w with h | ⟨x, _, _, h⟩ <;> rw [h]

@[simp] theorem applyDamage_length (a : Arena) (t : Nat) (w : WeaponType) :
    (a.applyDamage t w).robots.length = a.robots.length := by
  rcases applyDamage_cases a t w with h | ⟨x, _, _, h⟩ <;> rw [h]
  simp

/-- Every handle keeps its cell under `applyDamage`; alive flags are only ever
cleared; handles other than the target are untouched. -/
theorem applyDamage_get (a : Arena) (t : Nat) (w : WeaponType) (j : Nat) (x : LoadedRobot)
    (h : a.robots[j]? = some x) :
    ∃ y, (a.applyDamage t w).robots[j]? = some y ∧ y.row = x.row ∧ y.col = x.col ∧
      (y.alive = true → x.alive = true) ∧ (j ≠ t → y = x) := by
  rcases applyDamage_cases a t w with h1 | ⟨z, hz, hza, h1⟩
  · rw [h1]
    exact ⟨x, h, rfl, rfl, id, fun _ => rfl⟩
  · rw [h1]
    by_cases hj : j = t
    · subst hj
      have hzx : z = x := by
        rw [h] at hz
        exact (Option.some.inj hz).symm
      subst hzx
      refine ⟨damaged z w, ?_, rfl, rfl, ?_, fun hne => absurd rfl hne⟩
      · simp [getElem?_set_robot _ j j z _ h]
      · intro _
        exact hza
    · refine ⟨x, ?_, rfl, rfl, id, fun _ => rfl⟩
      simp [getElem?_set_robot _ t j z _ hz, hj, h]

@[simp] theorem commitStep_m_rows (a : Arena) (i : Nat) (lr : LoadedRobot) (nr nc : Int) :
    (a.commitStep i lr nr nc).m_rows = a.m_rows := rfl

@[simp] theorem commitStep_m_cols (a : Arena) (i : Nat) (lr : LoadedRobot) (nr nc : Int) :
    (a.commitStep i lr nr nc).m_cols = a.m_cols := rfl

@[simp] theorem commitStep_board (a : Arena) (i : Nat) (lr : LoadedRobot) (nr nc : Int) :
    (a.commitStep i lr nr nc).board = a.board := rfl

@[simp] theorem commitStep_log (a : Arena) (i : Nat) (lr : LoadedRobot) (nr nc : Int) :
    (a.commitStep i lr nr nc).log = a.log ++ [(i, Call.move_to nr nc)] := rfl

@[simp] theorem commitStep_robots (a : Arena) (i : Nat) (lr : LoadedRobot) (nr nc : Int) :
    (a.commitStep i lr nr nc).robots =
      a.robots.set i { lr with row := nr, col := nc, robot := lr.robot.move_to nr nc } := rfl

theorem commitStep_get (a : Arena) (i : Nat) (lr : LoadedRobot) (nr nc : Int)
    (h : a.robots[i]? = some lr) :
    (a.commitStep i lr nr nc).robots[i]? =
      some { lr with row := nr, col := nc, robot := lr.robot.move_to nr nc } := by
  simp [getElem?_set_robot _ i i lr _ h]

/-- What `notifyPit` does to a present handle. -/
theorem notifyPit_eq (a : Arena) (i : Nat) (lr : LoadedRobot) (h : a.robots[i]? = some lr) :
    a.notifyPit i =
      { a with
        robots := a.robots.set i { lr with robot := lr.robot.disable_movement }
        log := a.log ++ [(i, Call.disable_movement)] } := by
  simp [notifyPit, h, setRobot, record]

theorem notifyPit_grid (a : Arena) (i : Nat) :
    (a.notifyPit i).m_rows = a.m_rows ∧ (a.notifyPit i).m_cols = a.m_cols ∧
      (a.notifyPit i).board = a.board := by
  cases h : a.robots[i]? with
  | none => simp [notifyPit, h]
  | some lr => rw [notifyPit_eq a i lr h]; exact ⟨rfl, rfl, rfl⟩

@[simp] theorem notifyPit_m_rows (a : Arena) (i : Nat) : (a.notifyPit i).m_rows = a.m_rows :=
  (notifyPit_grid a i).1

@[simp] theorem notifyPit_m_cols (a : Arena) (i : Nat) : (a.notifyPit i).m_cols = a.m_cols :=
  (notifyPit_grid a i).2.1

@[simp] theorem notifyPit_board (a : Arena) (i : Nat) : (a.notifyPit i).board = a.board :=
  (notifyPit_grid a i).2.2

theorem moveLoop_grid (n : Nat) (a : Arena) (i : Nat) (dr dc : Int) :
    (moveLoop n a i dr dc).m_rows = a.m_rows ∧ (moveLoop n a i dr dc).m_cols = a.m_cols ∧
      (moveLoop n a i dr dc).board = a.board := by
  induction n generalizing a with
  | zero => exact ⟨rfl, rfl, rfl⟩
  | succ n ih =>
    simp only [moveLoop]
    split
    · exact ⟨rfl, rfl, rfl⟩
    · split
      · exact ⟨rfl, rfl, rfl⟩
      · split
        · exact ⟨rfl, rfl, rfl⟩
        · split
          · exact ⟨rfl, rfl, rfl⟩
          · split
            · simp
            · split
              · obtain ⟨h1, h2, h3⟩ := ih ((a.commitStep i _ _ _).applyDamage i WeaponType.flamethrower)
                rw [h1, h2, h3]
                simp
              · obtain ⟨h1, h2, h3⟩ := ih (a.commitStep i _ _ _)
                rw [h1, h2, h3]
                simp

@[simp] theorem moveLoop_m_rows (n : Nat) (a : Arena) (i : Nat) (dr dc : Int) :
    (moveLoop n a i dr dc).m_rows = a.m_rows := (moveLoop_grid n a i dr dc).1

@[simp] theorem moveLoop_m_cols (n : Nat) (a : Arena) (i : Nat) (dr dc : Int) :
    (moveLoop n a i dr dc).m_cols = a.m_cols := (moveLoop_grid n a i dr dc).2.1

@[simp] theorem moveLoop_board (n : Nat) (a : Arena) (i : Nat) (dr dc : Int) :
    (moveLoop n a i dr dc).board = a.board := (moveLoop_grid n a i dr dc).2.2

/-- One iteration of the step loop, by cases on the next cell. -/
theorem moveLoop_succ (n : Nat) (a : Arena) (i : Nat) (dr dc : Int) (lr : LoadedRobot)
    (h : a.robots[i]? = some lr) :
    moveLoop (n + 1) a i dr dc =
      if a.inBounds (lr.row + dr) (lr.col + dc) = false ∨
          (a.robotAt (lr.row + dr) (lr.col + dc)).isSome = true ∨
          a.boardAt (lr.row + dr) (lr.col + dc) = ObstacleType.Mound then a
      else if a.boardAt (lr.row + dr) (lr.col + dc) = ObstacleType.Pit then
        (a.commitStep i lr (lr.row + dr) (lr.col + dc)).notifyPit i
      else if a.boardAt (lr.row + dr) (lr.col + dc) = ObstacleType.FlameTrap then
        moveLoop n ((a.commitStep i lr (lr.row + dr) (lr.col + dc)).applyDamage i
          WeaponType.flamethrower) i dr dc
      else moveLoop n (a.commitStep i lr (lr.row + dr) (lr.col + dc)) i dr dc := by
  simp only [moveLoop, h]
  by_cases h1 : a.inBounds (lr.row + dr) (lr.col + dc) = true
  · by_cases h2 : (a.robotAt (lr.row + dr) (lr.col + dc)).isSome = true
    · simp [h1, h2]
    · by_cases h3 : a.boardAt (lr.row + dr) (lr.col + dc) = ObstacleType.Mound
      · simp [h1, h2, h3]
      · simp [h1, h2, h3]
  · simp [h1]

/-! ### Movement -/

/-- `doMovement` either changes nothing (absent or dead handle) or asks for the
move intent and runs the step loop (zero steps when the intent is a no-op). -/
theorem doMovement_cases (a : Arena) (i : Nat) (dir dist : Int) :
    a.doMovement i dir dist = a ∨
    ∃ (n : Nat) (dr dc : Int),
      a.doMovement i dir dist = moveLoop n (a.record i Call.get_move_direction) i dr dc := by
  unfold doMovement
  cases h : a.robots[i]? with
  | none => exact Or.inl rfl
  | some lr =>
    cases hl : lr.alive with
    | false => exact Or.inl (by simp [hl])
    | true =>
      right
      by_cases h0 : dist = 0 ∨ dir = 0
      · exact ⟨0, 0, 0, by simp [hl, h0, moveLoop]⟩
      · exact ⟨dist.toNat, (directions.getD dir.toNat (0, 0)).1,
          (directions.getD dir.toNat (0, 0)).2, by simp [hl, h0]⟩

theorem notifyPit_get (a : Arena) (i : Nat) (lr : LoadedRobot) (h : a.robots[i]? = some lr) :
    (a.notifyPit i).robots[i]? = some { lr with robot := lr.robot.disable_movement } := by
  rw [notifyPit_eq a i lr h]
  simp [getElem?_set_robot _ i i lr _ h]

/-- After the step loop the handle is either on the cell it started from or on
a cell inside the grid that is not a Mound. -/
theorem moveLoop_position (n : Nat) (a : Arena) (i : Nat) (dr dc : Int) (lr : LoadedRobot)
    (h : a.robots[i]? = some lr) :
    ∃ x, (moveLoop n a i dr dc).robots[i]? = some x ∧
      ((x.row = lr.row ∧ x.col = lr.col) ∨
        (a.inBounds x.row x.col = true ∧ a.boardAt x.row x.col ≠ ObstacleType.Mound)) := by
  induction n generalizing a lr with
  | zero => exact ⟨lr, h, Or.inl ⟨rfl, rfl⟩⟩
  | succ n ih =>
    rw [moveLoop_succ n a i dr dc lr h]
    have hc := commitStep_get a i lr (lr.row + dr) (lr.col + dc) h
    split_ifs with h1 h2 h3
    · exact ⟨lr, h, Or.inl ⟨rfl, rfl⟩⟩
    · refine ⟨_, notifyPit_get _ i _ hc, Or.inr ?_⟩
      simp only [not_or] at h1
      exact ⟨by simpa using h1.1, h1.2.2⟩
    · obtain ⟨y, hy, hyr, hyc, -, -⟩ :=
        applyDamage_get (a.commitStep i lr (lr.row + dr) (lr.col + dc)) i
          WeaponType.flamethrower i _ hc
      obtain ⟨x, hx, hpos⟩ := ih _ y hy
      refine ⟨x, hx, Or.inr ?_⟩
      simp only [not_or] at h1
      rcases hpos with ⟨e1, e2⟩ | ⟨e1, e2⟩
      · rw [e1, e2, hyr, hyc]
        exact ⟨by simpa using h1.1, h1.2.2⟩
      · rw [inBounds_congr a _ (by simp) (by simp)] at e1
        rw [boardAt_congr a _ (by simp)] at e2
        exact ⟨e1, e2⟩
    · obtain ⟨x, hx, hpos⟩ := ih _ _ hc
      refine ⟨x, hx, Or.inr ?_⟩
      simp only [not_or] at h1
      rcases hpos with ⟨e1, e2⟩ | ⟨e1, e2⟩
      · rw [e1, e2]
        exact ⟨by simpa using h1.1, h1.2.2⟩
      · rw [inBounds_congr a _ (by simp) (by simp)] at e1
        rw [boardAt_congr a _ (by simp)] at e2
        exact ⟨e1, e2⟩

/-- C5: if the handle stands inside the grid, then after `doMovement` with any
direction 0..8 and any distance its position still satisfies
`0 ≤ row < rows` and `0 ≤ col < cols`. -/
theorem doMovement_in_bounds (a : Arena) (i : Nat) (dir dist : Int) (lr : LoadedRobot)
    (h : a.robots[i]? = some lr) (hin : a.inBounds lr.row lr.col = true)
    (_hdir : 0 ≤ dir ∧ dir ≤ 8) :
    ∃ x, (a.doMovement i dir dist).robots[i]? = some x ∧
      0 ≤ x.row ∧ x.row < a.m_rows ∧ 0 ≤ x.col ∧ x.col < a.m_cols := by
  rcases doMovement_cases a i dir dist with e | ⟨n, dr, dc, e⟩
  · rw [e]
    exact ⟨lr, h, (inBounds_iff a _ _).mp hin⟩
  · rw [e]
    obtain ⟨x, hx, hpos⟩ := moveLoop_position n (a.record i Call.get_move_direction) i dr dc lr h
    refine ⟨x, hx, (inBounds_iff a _ _).mp ?_⟩
    rcases hpos with ⟨e1, e2⟩ | ⟨e1, _⟩
    · rw [e1, e2]
      exact hin
    · exact e1

/-- C5 at a concrete input: in Scenario B the handle at `(2,2)` asked to go
east by 3 stays inside the 5×5 grid. -/
theorem doMovement_in_bounds_witness :
    Scenario.scenarioB.inBounds 2 2 = true ∧
    ∃ x, (Scenario.scenarioB.doMovement 0 3 3).robots[0]? = some x ∧
      0 ≤ x.row ∧ x.row < Scenario.scenarioB.m_rows ∧ 0 ≤ x.col ∧ x.col < Scenario.scenarioB.m_cols :=
  ⟨by decide,
    doMovement_in_bounds Scenario.scenarioB 0 3 3 (Scenario.mkRobot WeaponType.railgun 100 0 2 2)
      (by decide) (by decide) (by decide)⟩

theorem pitFree_nil (a : Arena) : PitFree a [] := by
  intro e he
  cases he

theorem stepsValid_nil (a : Arena) (i : Nat) : StepsValid a i [] := by
  intro e he
  cases he

theorem pitFree_append (a : Arena) (L1 L2 : List (Nat × Call)) (h1 : PitFree a L1)
    (h2 : PitFree a L2) : PitFree a (L1 ++ L2) := by
  intro e he
  rcases List.mem_append.mp he with h | h
  · exact h1 e h
  · exact h2 e h

theorem stepsValid_append (a : Arena) (i : Nat) (L1 L2 : List (Nat × Call))
    (h1 : StepsValid a i L1) (h2 : StepsValid a i L2) : StepsValid a i (L1 ++ L2) := by
  intro e he
  rcases List.mem_append.mp he with h | h
  · exact h1 e h
  · exact h2 e h

theorem pitFree_congr (a b : Arena) (h : b.board = a.board) (L : List (Nat × Call))
    (hL : PitFree b L) : PitFree a L := by
  intro e he
  refine ⟨(hL e he).1, fun r c hrc => ?_⟩
  rw [← boardAt_congr a b h]
  exact (hL e he).2 r c hrc

theorem stepsValid_congr (a b : Arena) (h1 : b.m_rows = a.m_rows) (h2 : b.m_cols = a.m_cols)
    (h : b.board = a.board) (i : Nat) (L : List (Nat × Call))
    (hL : StepsValid b i L) : StepsValid a i L := by
  intro e he
  refine ⟨(hL e he).1, fun r c hrc => ?_⟩
  rw [← boardAt_congr a b h, ← inBounds_congr a b h1 h2]
  exact (hL e he).2 r c hrc

/-- The calls `applyDamage` logs are all made on the target and are armor and
damage calls only. -/
theorem applyDamage_log (a : Arena) (t : Nat) (w : WeaponType) :
    ∃ D, (a.applyDamage t w).log = a.log ++ D ∧
      ∀ e ∈ D, e.1 = t ∧
        (e.2 = Call.get_armor ∨ e.2 = Call.reduce_armor 1 ∨ ∃ d, e.2 = Call.take_damage d) := by
  rcases applyDamage_cases a t w with h | ⟨x, _, _, h⟩
  · exact ⟨[], by rw [h]; simp, by intro e he; cases he⟩
  · refine ⟨damageCalls t x w, by rw [h], ?_⟩
    intro e he
    unfold damageCalls at he
    split at he
    · simp only [List.mem_cons, List.mem_singleton, List.not_mem_nil, or_false] at he
      rcases he with rfl | rfl | rfl
      · exact ⟨rfl, Or.inl rfl⟩
      · exact ⟨rfl, Or.inr (Or.inl rfl)⟩
      · exact ⟨rfl, Or.inr (Or.inr ⟨_, rfl⟩)⟩
    · simp only [List.mem_cons, List.mem_singleton, List.not_mem_nil, or_false] at he
      rcases he with rfl | rfl
      · exact ⟨rfl, Or.inl rfl⟩
      · exact ⟨rfl, Or.inr (Or.inr ⟨_, rfl⟩)⟩

theorem damage_log_pitFree (a : Arena) (t : Nat) (D : List (Nat × Call))
    (hD : ∀ e ∈ D, e.1 = t ∧
        (e.2 = Call.get_armor ∨ e.2 = Call.reduce_armor 1 ∨ ∃ d, e.2 = Call.take_damage d)) :
    PitFree a D ∧ StepsValid a t D := by
  constructor
  · intro e he
    rcases (hD e he).2 with h | h | ⟨d, h⟩ <;> rw [h] <;>
      exact ⟨by simp, fun r c hrc => by cases hrc⟩
  · intro e he
    refine ⟨(hD e he).1, ?_⟩
    rcases (hD e he).2 with h | h | ⟨d, h⟩ <;> rw [h] <;>
      exact fun r c hrc => by cases hrc

/-- The trace of the step loop: all calls are on the moving handle, every
committed step goes to an in-bounds non-Mound cell, and either no Pit was
entered and `disable_movement` was not called, or the trace ends with the step
onto a Pit followed by the one `disable_movement` call, the handle resting on
that Pit. -/
theorem moveLoop_trace (n : Nat) (a : Arena) (i : Nat) (dr dc : Int) :
    ∃ L, (moveLoop n a i dr dc).log = a.log ++ L ∧ StepsValid a i L ∧
      (PitFree a L ∨
        ∃ L0 r c, L = L0 ++ [(i, Call.move_to r c), (i, Call.disable_movement)] ∧
          a.boardAt r c = ObstacleType.Pit ∧ PitFree a L0 ∧
          ∃ x, (moveLoop n a i dr dc).robots[i]? = some x ∧ x.row = r ∧ x.col = c) := by
  induction n generalizing a with
  | zero =>
    exact ⟨[], by simp [moveLoop], stepsValid_nil a i, Or.inl (pitFree_nil a)⟩
  | succ n ih =>
    cases h : a.robots[i]? with
    | none =>
      exact ⟨[], by simp [moveLoop, h], stepsValid_nil a i, Or.inl (pitFree_nil a)⟩
    | some lr =>
      rw [moveLoop_succ n a i dr dc lr h]
      have hc := commitStep_get a i lr (lr.row + dr) (lr.col + dc) h
      split_ifs with h1 h2 h3
      · exact ⟨[], by simp, stepsValid_nil a i, Or.inl (pitFree_nil a)⟩
      · simp only [not_or] at h1
        have hin : a.inBounds (lr.row + dr) (lr.col + dc) = true := by simpa using h1.1
        refine ⟨[(i, Call.move_to (lr.row + dr) (lr.col + dc)), (i, Call.disable_movement)], ?_, ?_,
          Or.inr ⟨[], _, _, rfl, h2, pitFree_nil a, _, notifyPit_get _ i _ hc, rfl, rfl⟩⟩
        · rw [notifyPit_eq _ i _ hc]
          simp
        · intro e he
          simp only [List.mem_cons, List.mem_singleton, List.not_mem_nil, or_false] at he
          rcases he with rfl | rfl
          · refine ⟨rfl, fun r c hrc => ?_⟩
            simp only [Call.move_to.injEq] at hrc
            rw [← hrc.1, ← hrc.2]
            exact ⟨hin, h1.2.2⟩
          · exact ⟨rfl, fun r c hrc => by cases hrc⟩
      · simp only [not_or] at h1
        have hin : a.inBounds (lr.row + dr) (lr.col + dc) = true := by simpa using h1.1
        obtain ⟨D, hD, hDe⟩ := applyDamage_log (a.commitStep i lr (lr.row + dr) (lr.col + dc)) i
          WeaponType.flamethrower
        obtain ⟨hDp, hDs⟩ := damage_log_pitFree a i D hDe
        obtain ⟨L2, hL2, hs2, hp2⟩ := ih ((a.commitStep i lr (lr.row + dr) (lr.col + dc)).applyDamage i
          WeaponType.flamethrower)
        have hs2' := stepsValid_congr a _ (by simp) (by simp) (by simp) i L2 hs2
        have hm : StepsValid a i [(i, Call.move_to (lr.row + dr) (lr.col + dc))] := by
          intro e he
          simp only [List.mem_singleton] at he
          subst he
          refine ⟨rfl, fun r c hrc => ?_⟩
          simp only [Call.move_to.injEq] at hrc
          rw [← hrc.1, ← hrc.2]
          exact ⟨hin, h1.2.2⟩
        have hmp : PitFree a [(i, Call.move_to (lr.row + dr) (lr.col + dc))] := by
          intro e he
          simp only [List.mem_singleton] at he
          subst he
          refine ⟨fun hh => (by cases hh), fun r c hrc => ?_⟩
          simp only [Call.move_to.injEq] at hrc
          rw [← hrc.1, ← hrc.2]
          exact h2
        refine ⟨[(i, Call.move_to (lr.row + dr) (lr.col + dc))] ++ D ++ L2, ?_, ?_, ?_⟩
        · rw [hL2, hD]
          simp
        · exact stepsValid_append a i _ _ (stepsValid_append a i _ _ hm hDs) hs2'
        · rcases hp2 with hp | ⟨L0, r, c, e1, e2, e3, x, hx, e4, e5⟩
          · left
            exact pitFree_append a _ _ (pitFree_append a _ _ hmp hDp)
              (pitFree_congr a _ (by simp) L2 hp)
          · right
            refine ⟨[(i, Call.move_to (lr.row + dr) (lr.col + dc))] ++ D ++ L0, r, c, ?_, ?_, ?_,
              x, hx, e4, e5⟩
            · rw [e1]
              simp
            · rw [boardAt_congr a _ (by simp)] at e2
              exact e2
            · exact pitFree_append a _ _ (pitFree_append a _ _ hmp hDp)
                (pitFree_congr a _ (by simp) L0 e3)
      · simp only [not_or] at h1
        have hin : a.inBounds (lr.row + dr) (lr.col + dc) = true := by simpa using h1.1
        obtain ⟨L2, hL2, hs2, hp2⟩ := ih (a.commitStep i lr (lr.row + dr) (lr.col + dc))
        have hs2' := stepsValid_congr a _ (by simp) (by simp) (by simp) i L2 hs2
        have hm : StepsValid a i [(i, Call.move_to (lr.row + dr) (lr.col + dc))] := by
          intro e he
          simp only [List.mem_singleton] at he
          subst he
          refine ⟨rfl, fun r c hrc => ?_⟩
          simp only [Call.move_to.injEq] at hrc
          rw [← hrc.1, ← hrc.2]
          exact ⟨hin, h1.2.2⟩
        have hmp : PitFree a [(i, Call.move_to (lr.row + dr) (lr.col + dc))] := by
          intro e he
          simp only [List.mem_singleton] at he
          subst he
          refine ⟨fun hh => (by cases hh), fun r c hrc => ?_⟩
          simp only [Call.move_to.injEq] at hrc
          rw [← hrc.1, ← hrc.2]
          exact h2
        refine ⟨[(i, Call.move_to (lr.row + dr) (lr.col + dc))] ++ L2, ?_, ?_, ?_⟩
        · rw [hL2]
          simp
        · exact stepsValid_append a i _ _ hm hs2'
        · rcases hp2 with hp | ⟨L0, r, c, e1, e2, e3, x, hx, e4, e5⟩
          · left
            exact pitFree_append a _ _ hmp (pitFree_congr a _ (by simp) L2 hp)
          · right
            refine ⟨[(i, Call.move_to (lr.row + dr) (lr.col + dc))] ++ L0, r, c, ?_, ?_, ?_,
              x, hx, e4, e5⟩
            · rw [e1]
              simp
            · rw [boardAt_congr a _ (by simp)] at e2
              exact e2
            · exact pitFree_append a _ _ hmp (pitFree_congr a _ (by simp) L0 e3)

/-- A step loop whose next cell is a Mound changes nothing. -/
theorem moveLoop_mound_stop (n : Nat) (b : Arena) (i : Nat) (dr dc : Int) (y : LoadedRobot)
    (hy : b.robots[i]? = some y)
    (hm : b.boardAt (y.row + dr) (y.col + dc) = ObstacleType.Mound) :
    moveLoop n b i dr dc = b := by
  cases n with
  | zero => rfl
  | succ n =>
    rw [moveLoop_succ n b i dr dc y hy]
    simp [hm]

theorem newCalls_self (a : Arena) : a.newCalls a = [] := by
  simp [newCalls]

/-- C6: a handle that does not start on a Mound never gets onto one in
`doMovement`: its final cell is not a Mound, no committed step (`move_to`) of
the call goes onto a Mound, and whenever the next cell along the trajectory is
a Mound the step loop stops there, leaving the world as it is. -/
theorem doMovement_never_on_mound (a : Arena) (i : Nat) (dir dist : Int) (lr : LoadedRobot)
    (h : a.robots[i]? = some lr) (hstart : a.boardAt lr.row lr.col ≠ ObstacleType.Mound)
    (_hdir : 0 ≤ dir ∧ dir ≤ 8) :
    (∃ x, (a.doMovement i dir dist).robots[i]? = some x ∧
      a.boardAt x.row x.col ≠ ObstacleType.Mound) ∧
    (∀ j r c, (j, Call.move_to r c) ∈ a.newCalls (a.doMovement i dir dist) →
      a.boardAt r c ≠ ObstacleType.Mound) ∧
    (∀ (n : Nat) (b : Arena) (y : LoadedRobot) (dr dc : Int), b.robots[i]? = some y →
      b.boardAt (y.row + dr) (y.col + dc) = ObstacleType.Mound → moveLoop n b i dr dc = b) := by
  refine ⟨?_, ?_, fun n b y dr dc hy hm => moveLoop_mound_stop n b i dr dc y hy hm⟩
  · rcases doMovement_cases a i dir dist with e | ⟨n, dr, dc, e⟩
    · rw [e]
      exact ⟨lr, h, hstart⟩
    · rw [e]
      obtain ⟨x, hx, hpos⟩ :=
        moveLoop_position n (a.record i Call.get_move_direction) i dr dc lr h
      refine ⟨x, hx, ?_⟩
      rcases hpos with ⟨e1, e2⟩ | ⟨_, e2⟩
      · rw [e1, e2]
        exact hstart
      · exact e2
  · intro j r c hmem
    rcases doMovement_cases a i dir dist with e | ⟨n, dr, dc, e⟩
    · rw [e, newCalls_self] at hmem
      cases hmem
    · obtain ⟨L, hL, hs, -⟩ := moveLoop_trace n (a.record i Call.get_move_direction) i dr dc
      rw [e, newCalls_append a _ ([(i, Call.get_move_direction)] ++ L) (by rw [hL]; simp)] at hmem
      rcases List.mem_append.mp hmem with h1 | h1
      · simp at h1
      · exact ((hs _ h1).2 r c rfl).2

/-- C6 at Scenario B: the handle at `(2,2)`, Mound at `(2,4)`, going east (direction
3) by 3, ends at `(2,3)`. -/
theorem doMovement_never_on_mound_witness :
    (Scenario.scenarioB.doMovement 0 3 3).robots[0]? =
      some (Scenario.mkRobot WeaponType.railgun 100 0 2 3) ∧
    Scenario.scenarioB.boardAt 2 4 = ObstacleType.Mound ∧
    (∃ x, (Scenario.scenarioB.doMovement 0 3 3).robots[0]? = some x ∧
      Scenario.scenarioB.boardAt x.row x.col ≠ ObstacleType.Mound) :=
  ⟨by decide, by decide,
    (doMovement_never_on_mound Scenario.scenarioB 0 3 3
      (Scenario.mkRobot WeaponType.railgun 100 0 2 2) (by decide) (by decide) (by decide)).1⟩

theorem pitFree_count (a : Arena) (L : List (Nat × Call)) (i : Nat) (h : PitFree a L) :
    L.count (i, Call.disable_movement) = 0 := by
  rw [List.count_eq_zero]
  intro hmem
  exact (h _ hmem).1 rfl

/-- C7: in every call of `doMovement`, if a committed step (`move_to`) puts the
handle on a Pit cell then `disable_movement` is called on that handle exactly
once, that step and the call are the last two things the engine does (no
further step), and the handle ends on that Pit; if no committed step lands on a
Pit, `disable_movement` is not called at all. -/
theorem doMovement_pit (a : Arena) (i : Nat) (dir dist : Int) :
    (∀ r c : Int, (i, Call.move_to r c) ∈ a.newCalls (a.doMovement i dir dist) →
      a.boardAt r c = ObstacleType.Pit →
        (a.newCalls (a.doMovement i dir dist)).count (i, Call.disable_movement) = 1 ∧
        (∃ L0, a.newCalls (a.doMovement i dir dist) =
          L0 ++ [(i, Call.move_to r c), (i, Call.disable_movement)]) ∧
        ∃ x, (a.doMovement i dir dist).robots[i]? = some x ∧ x.row = r ∧ x.col = c) ∧
    ((¬ ∃ r c, (i, Call.move_to r c) ∈ a.newCalls (a.doMovement i dir dist) ∧
        a.boardAt r c = ObstacleType.Pit) →
      ∀ j, (j, Call.disable_movement) ∉ a.newCalls (a.doMovement i dir dist)) := by
  rcases doMovement_cases a i dir dist with e | ⟨n, dr, dc, e⟩
  · rw [e, newCalls_self]
    constructor
    · intro r c hmem
      cases hmem
    · intro _ j hmem
      cases hmem
  · obtain ⟨L, hL, -, hp⟩ := moveLoop_trace n (a.record i Call.get_move_direction) i dr dc
    have hnew : a.newCalls (a.doMovement i dir dist) = [(i, Call.get_move_direction)] ++ L := by
      rw [e]
      exact newCalls_append a _ _ (by rw [hL]; simp)
    have hg : PitFree a [(i, Call.get_move_direction)] := by
      intro x hx
      simp only [List.mem_singleton] at hx
      subst hx
      exact ⟨fun hh => (by cases hh), fun r c hrc => (by cases hrc)⟩
    rw [hnew]
    rcases hp with hp | ⟨L0, r1, c1, e1, e2, e3, x, hx, e4, e5⟩
    · have hall : PitFree a ([(i, Call.get_move_direction)] ++ L) :=
        pitFree_append a _ _ hg (pitFree_congr a _ (by simp) L hp)
      constructor
      · intro r c hmem hpit
        exact absurd hpit ((hall _ hmem).2 r c rfl)
      · intro _ j hmem
        exact (hall _ hmem).1 rfl
    · have h0 : PitFree a ([(i, Call.get_move_direction)] ++ L0) :=
        pitFree_append a _ _ hg (pitFree_congr a _ (by simp) L0 e3)
      rw [boardAt_congr a _ (by simp)] at e2
      constructor
      · intro r c hmem hpit
        have hrc : r = r1 ∧ c = c1 := by
          rw [e1, ← List.append_assoc] at hmem
          rcases List.mem_append.mp hmem with hm | hm
          · exact absurd hpit ((h0 _ hm).2 r c rfl)
          · simp only [List.mem_cons, Prod.mk.injEq, Call.move_to.injEq, true_and,
              List.mem_singleton, reduceCtorEq, and_false, or_false, List.not_mem_nil] at hm
            exact hm
        obtain ⟨rfl, rfl⟩ := hrc
        refine ⟨?_, ⟨[(i, Call.get_move_direction)] ++ L0, ?_⟩, x, ?_, e4, e5⟩
        · rw [e1, ← List.append_assoc, List.count_append, pitFree_count a _ i h0]
          simp
        · rw [e1, List.append_assoc]
        · rw [e]
          exact hx
      · intro hno
        exfalso
        apply hno
        exact ⟨r1, c1, by rw [e1]; simp, e2⟩

/-- C7 at a concrete input: on the lane `. F P .` the handle at `(0,0)` going
east by 3 crosses the FlameTrap, steps onto the Pit at `(0,2)`, is told
`disable_movement` once and rests there. -/
theorem doMovement_pit_witness :
    Scenario.pitLane.newCalls (Scenario.pitLane.doMovement 0 3 3) =
      [(0, Call.get_move_direction), (0, Call.move_to 0 1), (0, Call.get_armor),
        (0, Call.reduce_armor 1), (0, Call.take_damage 8), (0, Call.move_to 0 2),
        (0, Call.disable_movement)] ∧
    ((Scenario.pitLane.newCalls (Scenario.pitLane.doMovement 0 3 3)).count
        (0, Call.disable_movement) = 1 ∧
      (∃ L0, Scenario.pitLane.newCalls (Scenario.pitLane.doMovement 0 3 3) =
        L0 ++ [(0, Call.move_to 0 2), (0, Call.disable_movement)]) ∧
      ∃ x, (Scenario.pitLane.doMovement 0 3 3).robots[0]? = some x ∧ x.row = 0 ∧ x.col = 2) :=
  ⟨by decide, (doMovement_pit Scenario.pitLane 0 3 3).1 0 2 (by decide) (by decide)⟩

/-! ### `robotAt` -/

theorem robotAtFrom_none (r c : Int) (l : List LoadedRobot) (k : Nat) :
    robotAtFrom r c l k = none ↔
      ∀ x ∈ l, ¬ (x.row = r ∧ x.col = c ∧ x.alive = true) := by
  induction l generalizing k with
  | nil => simp [robotAtFrom]
  | cons y rest ih =>
    simp only [robotAtFrom, List.mem_cons, forall_eq_or_imp]
    by_cases hy : y.row = r ∧ y.col = c ∧ y.alive = true
    · simp [hy]
    · simp only [hy, if_false, not_false_eq_true, true_and]
      exact ih (k + 1)

theorem robotAtFrom_some (r c : Int) (l : List LoadedRobot) (k j : Nat)
    (h : robotAtFrom r c l k = some j) :
    k ≤ j ∧ ∃ x, l[j - k]? = some x ∧ x.row = r ∧ x.col = c ∧ x.alive = true ∧
      ∀ (m : Nat) (y : LoadedRobot), m < j - k → l[m]? = some y → ¬ (y.row = r ∧ y.col = c ∧ y.alive = true) := by
  induction l generalizing k with
  | nil => simp [robotAtFrom] at h
  | cons y rest ih =>
    simp only [robotAtFrom] at h
    by_cases hy : y.row = r ∧ y.col = c ∧ y.alive = true
    · simp only [hy, and_self, if_true, Option.some.injEq] at h
      subst h
      refine ⟨le_refl _, y, by simp, hy.1, hy.2.1, hy.2.2, ?_⟩
      intro m z hm
      omega
    · simp only [hy, if_false] at h
      obtain ⟨hk, x, hx, h1, h2, h3, h4⟩ := ih (k + 1) h
      refine ⟨by omega, x, ?_, h1, h2, h3, ?_⟩
      · have : j - k = (j - (k + 1)) + 1 := by omega
        rw [this]
        simpa using hx
      · intro m z hm hz
        cases m with
        | zero =>
          simp only [List.getElem?_cons_zero, Option.some.injEq] at hz
          subst hz
          exact hy
        | succ m =>
          simp only [List.getElem?_cons_succ] at hz
          exact h4 m z (by omega) hz

theorem robotAt_none (a : Arena) (r c : Int) :
    a.robotAt r c = none ↔
      ∀ (j : Nat) (x : LoadedRobot), a.robots[j]? = some x →
        ¬ (x.row = r ∧ x.col = c ∧ x.alive = true) := by
  unfold robotAt
  rw [robotAtFrom_none]
  constructor
  · intro h j x hx
    exact h x (List.getElem?_mem hx)
  · intro h x hx
    obtain ⟨j, hj⟩ := List.getElem?_of_mem hx
    exact h j x hj

theorem robotAt_some (a : Arena) (r c : Int) (j : Nat) (h : a.robotAt r c = some j) :
    ∃ x, a.robots[j]? = some x ∧ x.row = r ∧ x.col = c ∧ x.alive = true ∧
      ∀ (m : Nat) (y : LoadedRobot), m < j → a.robots[m]? = some y → ¬ (y.row = r ∧ y.col = c ∧ y.alive = true) := by
  obtain ⟨_, x, hx, h1, h2, h3, h4⟩ := robotAtFrom_some r c a.robots 0 j h
  exact ⟨x, by simpa using hx, h1, h2, h3, fun m y hm hy => h4 m y (by simpa using hm) hy⟩

/-! ### Worlds that differ only by damage -/

theorem Weakens.refl (a : Arena) : Weakens a a := by
  refine ⟨rfl, rfl, rfl, rfl, ?_⟩
  intro j x y hx hy
  rw [hx] at hy
  cases hy
  exact ⟨rfl, rfl, id⟩

theorem Weakens.trans {a b c : Arena} (h1 : Weakens a b) (h2 : Weakens b c) : Weakens a c := by
  obtain ⟨r1, c1, b1, l1, p1⟩ := h1
  obtain ⟨r2, c2, b2, l2, p2⟩ := h2
  refine ⟨by rw [r2, r1], by rw [c2, c1], by rw [b2, b1], by rw [l2, l1], ?_⟩
  intro j x z hx hz
  have hj : j < b.robots.length := by
    rw [l1]
    exact (List.getElem?_eq_some_iff.mp hx).1
  have hy : b.robots[j]? = some (b.robots[j]) := List.getElem?_eq_getElem hj
  obtain ⟨e1, e2, e3⟩ := p1 j x _ hx hy
  obtain ⟨f1, f2, f3⟩ := p2 j _ z hy hz
  exact ⟨by rw [f1, e1], by rw [f2, e2], fun hh => e3 (f3 hh)⟩

theorem Weakens.noOverlap {a b : Arena} (h : Weakens a b) (ha : NoOverlap a) : NoOverlap b := by
  obtain ⟨_, _, _, l1, p1⟩ := h
  intro i j x y hx hy ax ay hr hc
  have hi : i < a.robots.length := by
    rw [← l1]
    exact (List.getElem?_eq_some_iff.mp hx).1
  have hj : j < a.robots.length := by
    rw [← l1]
    exact (List.getElem?_eq_some_iff.mp hy).1
  have hx0 : a.robots[i]? = some (a.robots[i]) := List.getElem?_eq_getElem hi
  have hy0 : a.robots[j]? = some (a.robots[j]) := List.getElem?_eq_getElem hj
  obtain ⟨e1, e2, e3⟩ := p1 i _ x hx0 hx
  obtain ⟨f1, f2, f3⟩ := p1 j _ y hy0 hy
  exact ha i j _ _ hx0 hy0 (e3 ax) (f3 ay) (by rw [← e1, ← f1, hr]) (by rw [← e2, ← f2, hc])

theorem weakens_record (a : Arena) (i : Nat) (c : Call) : Weakens a (a.record i c) := by
  refine ⟨rfl, rfl, rfl, rfl, ?_⟩
  intro j x y hx hy
  rw [record_robots, hx] at hy
  cases hy
  exact ⟨rfl, rfl, id⟩

theorem weakens_applyDamage (a : Arena) (t : Nat) (w : WeaponType) :
    Weakens a (a.applyDamage t w) := by
  refine ⟨by simp, by simp, by simp, by simp, ?_⟩
  intro j x y hx hy
  obtain ⟨z, hz, e1, e2, e3, -⟩ := applyDamage_get a t w j x hx
  rw [hz] at hy
  cases hy
  exact ⟨e1, e2, e3⟩

theorem weakens_hitAt (a : Arena) (r c : Int) (w : WeaponType) : Weakens a (a.hitAt r c w) := by
  unfold hitAt
  split
  · exact weakens_applyDamage a _ w
  · exact Weakens.refl a

theorem weakens_foldl {β : Type} (f : Arena → β → Arena) (hf : ∀ a x, Weakens a (f a x))
    (l : List β) (a : Arena) : Weakens a (l.foldl f a) := by
  induction l generalizing a with
  | nil => exact Weakens.refl a
  | cons x rest ih => exact Weakens.trans (hf a x) (ih (f a x))

theorem weakens_flameSweep (a : Arena) (r0 c0 : Int) : Weakens a (a.flameSweep r0 c0) := by
  unfold flameSweep
  apply weakens_foldl
  intro a1 dr
  apply weakens_foldl
  intro a2 i
  split
  · exact weakens_hitAt a2 _ _ _
  · exact Weakens.refl a2

theorem weakens_grenadeBlast (a : Arena) (sr sc : Int) : Weakens a (a.grenadeBlast sr sc) := by
  unfold grenadeBlast
  apply weakens_foldl
  intro a1 dr
  apply weakens_foldl
  intro a2 dc
  split
  · exact weakens_hitAt a2 _ _ _
  · exact Weakens.refl a2

theorem weakens_railgunWalk (fuel : Nat) (a : Arena) (r c dr dc : Int) :
    Weakens a (railgunWalk fuel a r c dr dc).state := by
  induction fuel generalizing a r c with
  | zero => exact Weakens.refl a
  | succ n ih =>
    simp only [railgunWalk]
    split
    · exact Weakens.trans (weakens_hitAt a r c _) (ih _ _ _)
    · exact Weakens.refl a

/-- Replacing the behaviour instance of a handle, leaving cell and alive flag. -/
theorem weakens_setRobot (a : Arena) (i : Nat) (lr x : LoadedRobot) (h : a.robots[i]? = some lr)
    (hr : x.row = lr.row) (hc : x.col = lr.col) (hal : x.alive = lr.alive) :
    Weakens a (a.setRobot i x) := by
  refine ⟨rfl, rfl, rfl, by simp, ?_⟩
  intro j u v hu hv
  rw [setRobot_robots, getElem?_set_robot _ i j lr x h] at hv
  split at hv
  · rename_i hj
    subst hj
    rw [h] at hu
    cases hu
    cases hv
    exact ⟨hr, hc, fun hh => by rw [← hal]; exact hh⟩
  · rw [hu] at hv
    cases hv
    exact ⟨rfl, rfl, id⟩

theorem weakens_doShooting (fuel : Nat) (a : Arena) (i : Nat) (shot : Option (Int × Int)) :
    Weakens a (a.doShooting fuel i shot).state := by
  unfold doShooting
  split
  · exact Weakens.refl a
  · rename_i lr hlr
    split
    · exact Weakens.refl a
    · split
      · exact weakens_record a i _
      · rename_i sr sc
        have h2 : Weakens a ((a.record i Call.get_shot_location).record i Call.get_weapon) :=
          Weakens.trans (weakens_record a i _) (weakens_record _ i _)
        simp only []
        split
        · exact Weakens.trans h2 (weakens_flameSweep _ _ _)
        · split
          · exact Weakens.trans h2 (weakens_hitAt _ _ _ _)
          · split
            · exact Weakens.trans h2 (weakens_railgunWalk fuel _ _ _ _ _)
            · split
              · have h3 := Weakens.trans h2 (weakens_record _ i Call.get_grenades)
                split
                · exact h3
                · refine Weakens.trans h3 (Weakens.trans ?_ (weakens_grenadeBlast _ sr sc))
                  refine Weakens.trans (weakens_setRobot _ i lr
                    { lr with robot := lr.robot.decrement_grenades } (by simpa using hlr)
                    rfl rfl rfl) (weakens_record _ i _)
              · exact h2

/-! ### Movement keeps distinct living handles on distinct cells -/

theorem noOverlap_commitStep (a : Arena) (i : Nat) (lr : LoadedRobot) (nr nc : Int)
    (h : a.robots[i]? = some lr) (hfree : a.robotAt nr nc = none) (ha : NoOverlap a) :
    NoOverlap (a.commitStep i lr nr nc) := by
  have hnone := (robotAt_none a nr nc).mp hfree
  intro j1 j2 x y hx hy ax ay hr hc
  rw [commitStep_robots, getElem?_set_robot _ i _ lr _ h] at hx hy
  by_cases h1 : j1 = i
  · by_cases h2 : j2 = i
    · rw [h1, h2]
    · exfalso
      simp only [h1, h2, if_true, if_false, Option.some.injEq] at hx hy
      subst hx
      exact hnone j2 y hy ⟨hr.symm, hc.symm, ay⟩
  · by_cases h2 : j2 = i
    · exfalso
      simp only [h1, h2, if_true, if_false, Option.some.injEq] at hx hy
      subst hy
      exact hnone j1 x hx ⟨hr, hc, ax⟩
    · simp only [h1, h2, if_false] at hx hy
      exact ha j1 j2 x y hx hy ax ay hr hc

theorem weakens_notifyPit (a : Arena) (i : Nat) : Weakens a (a.notifyPit i) := by
  cases h : a.robots[i]? with
  | none =>
    simp only [notifyPit, h]
    exact Weakens.refl a
  | some lr =>
    have : a.notifyPit i =
        (a.setRobot i { lr with robot := lr.robot.disable_movement }).record i
          Call.disable_movement := by
      simp [notifyPit, h]
    rw [this]
    exact Weakens.trans
      (weakens_setRobot a i lr { lr with robot := lr.robot.disable_movement } h rfl rfl rfl)
      (weakens_record _ i _)

theorem noOverlap_moveLoop (n : Nat) (a : Arena) (i : Nat) (dr dc : Int) (ha : NoOverlap a) :
    NoOverlap (moveLoop n a i dr dc) := by
  induction n generalizing a with
  | zero => exact ha
  | succ n ih =>
    cases h : a.robots[i]? with
    | none =>
      simp only [moveLoop, h]
      exact ha
    | some lr =>
      rw [moveLoop_succ n a i dr dc lr h]
      split_ifs with h1 h2 h3
      · exact ha
      · simp only [not_or] at h1
        have hfree : a.robotAt (lr.row + dr) (lr.col + dc) = none := by
          simpa using h1.2.1
        exact (weakens_notifyPit _ i).noOverlap (noOverlap_commitStep a i lr _ _ h hfree ha)
      · simp only [not_or] at h1
        have hfree : a.robotAt (lr.row + dr) (lr.col + dc) = none := by
          simpa using h1.2.1
        exact ih _ ((weakens_applyDamage _ i _).noOverlap
          (noOverlap_commitStep a i lr _ _ h hfree ha))
      · simp only [not_or] at h1
        have hfree : a.robotAt (lr.row + dr) (lr.col + dc) = none := by
          simpa using h1.2.1
        exact ih _ (noOverlap_commitStep a i lr _ _ h hfree ha)

theorem noOverlap_doMovement (a : Arena) (i : Nat) (dir dist : Int) (ha : NoOverlap a) :
    NoOverlap (a.doMovement i dir dist) := by
  rcases doMovement_cases a i dir dist with e | ⟨n, dr, dc, e⟩
  · rw [e]
    exact ha
  · rw [e]
    exact noOverlap_moveLoop n _ i dr dc ((weakens_record a i _).noOverlap ha)

theorem noOverlap_takeTurn (fuel : Nat) (beh : Behaviour) (round : Nat) (a : Arena) (i : Nat)
    (ha : NoOverlap a) : NoOverlap (takeTurn fuel beh round a i).state := by
  unfold takeTurn
  split
  · exact ha
  · split
    · exact ha
    · apply (weakens_doShooting fuel _ i _).noOverlap
      apply noOverlap_doMovement
      exact (Weakens.trans (weakens_record a i _) (weakens_record _ i _)).noOverlap ha

theorem noOverlap_turnsFrom (fuel : Nat) (beh : Behaviour) (round : Nat) (l : List Nat)
    (a : Arena) (ha : NoOverlap a) : NoOverlap (turnsFrom fuel beh round l a).state := by
  induction l generalizing a with
  | nil => exact ha
  | cons i rest ih =>
    have h1 := noOverlap_takeTurn fuel beh round a i ha
    simp only [turnsFrom]
    split
    · rename_i a1 e
      rw [e] at h1
      exact ih a1 h1
    · rename_i a1 e
      rw [e] at h1
      exact h1

theorem noOverlap_simLoop (fuel : Nat) (beh : Behaviour) (n round : Nat) (a : Arena)
    (ha : NoOverlap a) : NoOverlap (simLoop fuel beh n round a).state.1 := by
  induction n generalizing a round with
  | zero => exact ha
  | succ n ih =>
    simp only [simLoop]
    split
    · have h1 := noOverlap_turnsFrom fuel beh round (List.range a.robots.length) a ha
      unfold playRound
      split
      · rename_i a1 e
        rw [e] at h1
        exact ih (round + 1) a1 h1
      · rename_i a1 e
        rw [e] at h1
        exact h1
    · exact ha

theorem weakens_report (l : List Nat) (a : Arena) :
    Weakens a (l.foldl (fun w i => w.record i Call.print_stats) a) :=
  weakens_foldl _ (fun w i => weakens_record w i _) l a

theorem noOverlap_runSimulation (fuel : Nat) (beh : Behaviour) (a : Arena)
    (ha : NoOverlap a) : NoOverlap (a.runSimulation fuel beh).state.arena := by
  have h1 := noOverlap_simLoop fuel beh 500 0 a ha
  unfold runSimulation
  split
  · rename_i a1 round e
    rw [e] at h1
    exact (weakens_report _ a1).noOverlap h1
  · rename_i a1 round e
    rw [e] at h1
    exact h1

theorem noOverlap_of_check (a : Arena) (h : a.noOverlapCheck = true) : NoOverlap a := by
  intro i j x y hx hy ax ay hr hc
  have hi : i < a.robots.length := (List.getElem?_eq_some_iff.mp hx).1
  have hj : j < a.robots.length := (List.getElem?_eq_some_iff.mp hy).1
  unfold noOverlapCheck at h
  rw [List.all_eq_true] at h
  have h1 := h i (List.mem_range.mpr hi)
  rw [List.all_eq_true] at h1
  have h2 := h1 j (List.mem_range.mpr hj)
  simp only [hx, hy, ax, ay, hr, hc, decide_True, Bool.and_self, Bool.not_true, Bool.or_false,
    decide_eq_true_eq] at h2
  exact h2

/-- C8: "no two distinct alive handles stand on the same cell" is an invariant of
the engine: if it holds in a world, it holds after `applyDamage`, after
`doMovement` (any handle, any direction 0..8, any distance), in the state
`doShooting` reaches (any handle, any shot intent), in the state reached after
any number of rounds of the simulation loop, and in the final state of
`runSimulation`. -/
theorem noOverlap_invariant (a : Arena) (ha : NoOverlap a) :
    (∀ t w, NoOverlap (a.applyDamage t w)) ∧
    (∀ i dir dist, 0 ≤ dir ∧ dir ≤ 8 → NoOverlap (a.doMovement i dir dist)) ∧
    (∀ fuel i shot, NoOverlap (a.doShooting fuel i shot).state) ∧
    (∀ fuel beh n round, NoOverlap (simLoop fuel beh n round a).state.1) ∧
    (∀ fuel beh, NoOverlap (a.runSimulation fuel beh).state.arena) :=
  ⟨fun t w => (weakens_applyDamage a t w).noOverlap ha,
    fun i dir dist _ => noOverlap_doMovement a i dir dist ha,
    fun fuel i shot => (weakens_doShooting fuel a i shot).noOverlap ha,
    fun fuel beh n round => noOverlap_simLoop fuel beh n round a ha,
    fun fuel beh => noOverlap_runSimulation fuel beh a ha⟩

/-- C8 at Scenario A, whose two handles stand on different cells. -/
theorem noOverlap_invariant_witness :
    NoOverlap Scenario.scenarioA ∧
    NoOverlap (Scenario.scenarioA.doMovement 0 3 2) ∧
    NoOverlap (Scenario.scenarioA.doShooting 10 0 (some (0, 4))).state :=
  ⟨noOverlap_of_check _ (by decide),
    (noOverlap_invariant Scenario.scenarioA (noOverlap_of_check _ (by decide))).2.1 0 3 2
      (by decide),
    (noOverlap_invariant Scenario.scenarioA (noOverlap_of_check _ (by decide))).2.2.1 10 0
      (some (0, 4))⟩

/-! ### The railgun walk -/

theorem robotAtFrom_set (r c : Int) (l : List LoadedRobot) (t : Nat) (y : LoadedRobot) (k : Nat)
    (h : ∀ x, l[t]? = some x →
      ((x.row = r ∧ x.col = c ∧ x.alive = true) ↔ (y.row = r ∧ y.col = c ∧ y.alive = true))) :
    robotAtFrom r c (l.set t y) k = robotAtFrom r c l k := by
  induction l generalizing t k with
  | nil => rfl
  | cons z rest ih =>
    cases t with
    | zero =>
      have hz := h z (by simp)
      simp only [List.set_cons_zero, robotAtFrom]
      by_cases hm : z.row = r ∧ z.col = c ∧ z.alive = true
      · rw [if_pos hm, if_pos (hz.mp hm)]
      · rw [if_neg hm, if_neg (fun hy => hm (hz.mpr hy))]
    | succ t =>
      simp only [List.set_cons_succ, robotAtFrom]
      rw [ih t (k + 1) (fun x hx => h x (by simpa using hx))]

/-- Damage to a handle that is not on `(r, c)` does not change who `robotAt`
finds on `(r, c)`. -/
theorem robotAt_applyDamage_other (a : Arena) (t : Nat) (w : WeaponType) (r c : Int)
    (h : ∀ x, a.robots[t]? = some x → ¬ (x.row = r ∧ x.col = c)) :
    (a.applyDamage t w).robotAt r c = a.robotAt r c := by
  rcases applyDamage_cases a t w with e | ⟨x, hx, _, e⟩
  · rw [e]
  · rw [e]
    unfold robotAt
    apply robotAtFrom_set
    intro z hz
    rw [hx] at hz
    cases hz
    have hne := h x hx
    constructor
    · intro hm
      exact absurd ⟨hm.1, hm.2.1⟩ hne
    · intro hm
      exact absurd ⟨hm.1, hm.2.1⟩ hne

theorem robotAt_record (a : Arena) (i : Nat) (cl : Call) (r c : Int) :
    (a.record i cl).robotAt r c = a.robotAt r c := rfl

/-- Hitting a cell `p` does not change who stands on another cell `q`. -/
theorem robotAt_hitAt_other (a : Arena) (p q : Int × Int) (w : WeaponType) (hpq : p ≠ q) :
    (a.hitAt p.1 p.2 w).robotAt q.1 q.2 = a.robotAt q.1 q.2 := by
  unfold hitAt
  cases ht : a.robotAt p.1 p.2 with
  | none => rfl
  | some t =>
    obtain ⟨x, hx, hr, hc, -, -⟩ := robotAt_some a p.1 p.2 t ht
    apply robotAt_applyDamage_other
    intro z hz
    rw [hx] at hz
    cases hz
    intro hq
    apply hpq
    exact Prod.ext (by rw [← hr, hq.1]) (by rw [← hc, hq.2])

/-- Over pairwise distinct cells, hitting cell after cell is damaging, in order,
the handles that stood on those cells at the start. -/
theorem foldl_hitAt (cells : List (Int × Int)) (hnd : cells.Nodup) (a : Arena) (w : WeaponType) :
    cells.foldl (fun b p => b.hitAt p.1 p.2 w) a =
      (cells.filterMap fun p => a.robotAt p.1 p.2).foldl (fun b t => b.applyDamage t w) a := by
  induction cells generalizing a with
  | nil => rfl
  | cons p rest ih =>
    rw [List.nodup_cons] at hnd
    have hcongr : (rest.filterMap fun q => (a.hitAt p.1 p.2 w).robotAt q.1 q.2) =
        rest.filterMap fun q => a.robotAt q.1 q.2 := by
      apply List.filterMap_congr
      intro q hq
      exact robotAt_hitAt_other a p q w (fun e => hnd.1 (e ▸ hq))
    rw [List.foldl_cons, ih hnd.2, hcongr]
    cases ht : a.robotAt p.1 p.2 with
    | none => simp [List.filterMap_cons, ht, hitAt]
    | some t => simp [List.filterMap_cons, ht, hitAt]

theorem rayCells_succ (r c dr dc : Int) (n : Nat) :
    rayCells r c dr dc (n + 1) = (r, c) :: rayCells (r + dr) (c + dc) dr dc n := by
  simp only [rayCells, List.range_succ_eq_map, List.map_cons, List.map_map]
  congr 1
  · simp
  · apply List.map_congr_left
    intro k _
    simp only [Function.comp, Nat.succ_eq_add_one]
    ext
    · push_cast; ring
    · push_cast; ring

/-- The walk over `n` in-bounds cells followed by an out-of-bounds cell returns,
given more than `n` iterations, after hitting exactly those cells in order. -/
theorem railgunWalk_unroll (n fuel : Nat) (a : Arena) (r c dr dc : Int)
    (hin : ∀ k : Nat, k < n → a.inBounds (r + (k : Int) * dr) (c + (k : Int) * dc) = true)
    (hout : a.inBounds (r + (n : Int) * dr) (c + (n : Int) * dc) = false)
    (hfuel : n < fuel) :
    railgunWalk fuel a r c dr dc =
      Outcome.returned
        ((rayCells r c dr dc n).foldl (fun b p => b.hitAt p.1 p.2 WeaponType.railgun) a) := by
  induction n generalizing fuel a r c with
  | zero =>
    cases fuel with
    | zero => omega
    | succ f =>
      have h0 : a.inBounds r c = false := by simpa using hout
      simp [railgunWalk, h0, rayCells]
  | succ n ih =>
    cases fuel with
    | zero => omega
    | succ f =>
      have h0 : a.inBounds r c = true := by simpa using hin 0 (by omega)
      have hgrid : ∀ x y, (a.hitAt r c WeaponType.railgun).inBounds x y = a.inBounds x y := by
        intro x y
        obtain ⟨e1, e2, _, _, _⟩ := weakens_hitAt a r c WeaponType.railgun
        exact inBounds_congr a _ e1 e2 x y
      have hin2 : ∀ k : Nat, k < n →
          (a.hitAt r c WeaponType.railgun).inBounds (r + dr + (k : Int) * dr)
            (c + dc + (k : Int) * dc) = true := by
        intro k hk
        rw [hgrid]
        have := hin (k + 1) (by omega)
        have e1 : r + dr + (k : Int) * dr = r + ((k + 1 : Nat) : Int) * dr := by push_cast; ring
        have e2 : c + dc + (k : Int) * dc = c + ((k + 1 : Nat) : Int) * dc := by push_cast; ring
        rw [e1, e2]
        exact this
      have hout2 : (a.hitAt r c WeaponType.railgun).inBounds (r + dr + (n : Int) * dr)
          (c + dc + (n : Int) * dc) = false := by
        rw [hgrid]
        have e1 : r + dr + (n : Int) * dr = r + ((n + 1 : Nat) : Int) * dr := by push_cast; ring
        have e2 : c + dc + (n : Int) * dc = c + ((n + 1 : Nat) : Int) * dc := by push_cast; ring
        rw [e1, e2]
        exact hout
      simp only [railgunWalk, h0, if_true]
      rw [ih f _ (r + dr) (c + dc) hin2 hout2 (by omega)]
      rw [rayCells_succ, List.foldl_cons]

theorem damageCallsOf_congr (a b : Arena) (w : WeaponType) (hits : List Nat)
    (h : ∀ t ∈ hits, b.robots[t]? = a.robots[t]?) :
    damageCallsOf b w hits = damageCallsOf a w hits := by
  unfold damageCallsOf
  rw [List.flatMap_def, List.flatMap_def]
  congr 1
  apply List.map_congr_left
  intro t ht
  rw [h t ht]

/-- Damaging pairwise distinct living handles one after the other replaces the
record of each by `damaged`, leaves every other record as it is, and logs their
damage calls in order. -/
theorem foldl_applyDamage (w : WeaponType) (hits : List Nat) (hnd : hits.Nodup) (a : Arena)
    (hal : ∀ t ∈ hits, ∃ x, a.robots[t]? = some x ∧ x.alive = true) :
    (∀ (j : Nat) (x : LoadedRobot), a.robots[j]? = some x →
      (hits.foldl (fun b t => b.applyDamage t w) a).robots[j]? =
        some (if j ∈ hits then damaged x w else x)) ∧
    (hits.foldl (fun b t => b.applyDamage t w) a).log = a.log ++ damageCallsOf a w hits := by
  induction hits generalizing a with
  | nil =>
    constructor
    · intro j x hx
      simpa using hx
    · simp [damageCallsOf]
  | cons t rest ih =>
    rw [List.nodup_cons] at hnd
    obtain ⟨x, hx, hxa⟩ := hal t (List.mem_cons_self t rest)
    have e := applyDamage_alive a t w x hx hxa
    have hother : ∀ j, j ≠ t → (a.applyDamage t w).robots[j]? = a.robots[j]? := by
      intro j hj
      rw [e]
      simp [getElem?_set_robot _ t j x _ hx, hj]
    have hself : (a.applyDamage t w).robots[t]? = some (damaged x w) := by
      rw [e]
      simp [getElem?_set_robot _ t t x _ hx]
    have hal2 : ∀ u ∈ rest, ∃ y, (a.applyDamage t w).robots[u]? = some y ∧ y.alive = true := by
      intro u hu
      have hut : u ≠ t := fun h => hnd.1 (h ▸ hu)
      rw [hother u hut]
      exact hal u (List.mem_cons_of_mem t hu)
    obtain ⟨ih1, ih2⟩ := ih hnd.2 (a.applyDamage t w) hal2
    rw [List.foldl_cons]
    constructor
    · intro j y hy
      by_cases hj : j = t
      · subst hj
        rw [hx] at hy
        cases hy
        rw [ih1 j _ hself]
        simp [hnd.1]
      · rw [ih1 j y (by rw [hother j hj]; exact hy)]
        simp [hj]
    · rw [ih2, damageCallsOf_congr a _ w rest
        (fun u hu => hother u (fun h => hnd.1 (h ▸ hu)))]
      have : (a.applyDamage t w).log = a.log ++ damageCalls t x w := by rw [e]
      rw [this]
      simp [damageCallsOf, hx]

/-- From a cell inside the grid, a walk with a non-null unit step leaves the
grid: there is an `n` such that the cells `k = 1..n` are inside and every later
one is outside. -/
theorem ray_exit (a : Arena) (r0 c0 dr dc : Int) (hin : a.inBounds r0 c0 = true)
    (hdr : dr = 1 ∨ dr = -1 ∨ dr = 0) (hdc : dc = 1 ∨ dc = -1 ∨ dc = 0)
    (hne : ¬ (dr = 0 ∧ dc = 0)) :
    ∃ n : Nat, ∀ k : Nat, 1 ≤ k →
      (a.inBounds (r0 + (k : Int) * dr) (c0 + (k : Int) * dc) = true ↔ k ≤ n) := by
  rw [inBounds_iff] at hin
  obtain ⟨h1, h2, h3, h4⟩ := hin
  rcases hdr with rfl | rfl | rfl
  · rcases hdc with rfl | rfl | rfl
    · refine ⟨min (a.m_rows - 1 - r0).toNat (a.m_cols - 1 - c0).toNat, fun k hk => ?_⟩
      rw [inBounds_iff]
      omega
    · refine ⟨min (a.m_rows - 1 - r0).toNat c0.toNat, fun k hk => ?_⟩
      rw [inBounds_iff]
      omega
    · refine ⟨(a.m_rows - 1 - r0).toNat, fun k hk => ?_⟩
      rw [inBounds_iff]
      omega
  · rcases hdc with rfl | rfl | rfl
    · refine ⟨min r0.toNat (a.m_cols - 1 - c0).toNat, fun k hk => ?_⟩
      rw [inBounds_iff]
      omega
    · refine ⟨min r0.toNat c0.toNat, fun k hk => ?_⟩
      rw [inBounds_iff]
      omega
    · refine ⟨r0.toNat, fun k hk => ?_⟩
      rw [inBounds_iff]
      omega
  · rcases hdc with rfl | rfl | rfl
    · refine ⟨(a.m_cols - 1 - c0).toNat, fun k hk => ?_⟩
      rw [inBounds_iff]
      omega
    · refine ⟨c0.toNat, fun k hk => ?_⟩
      rw [inBounds_iff]
      omega
    · exact absurd ⟨rfl, rfl⟩ hne

theorem stepToward_cases (s x : Int) :
    (stepToward s x = 1 ∨ stepToward s x = -1 ∨ stepToward s x = 0) ∧
      (stepToward s x = 0 ↔ s = x) := by
  unfold stepToward
  split
  · exact ⟨Or.inl rfl, by constructor <;> intro h <;> omega⟩
  · split
    · exact ⟨Or.inr (Or.inl rfl), by constructor <;> intro h <;> omega⟩
    · exact ⟨Or.inr (Or.inr rfl), by constructor <;> intro h <;> omega⟩

theorem mem_rayCells (r c dr dc : Int) (n : Nat) (p : Int × Int) :
    p ∈ rayCells r c dr dc n ↔
      ∃ k : Nat, k < n ∧ p = (r + (k : Int) * dr, c + (k : Int) * dc) := by
  unfold rayCells
  simp only [List.mem_map, List.mem_range]
  constructor
  · rintro ⟨k, hk, e⟩
    exact ⟨k, hk, e.symm⟩
  · rintro ⟨k, hk, e⟩
    exact ⟨k, hk, e.symm⟩

theorem nodup_rayCells (r c dr dc : Int) (n : Nat)
    (hdr : dr = 1 ∨ dr = -1 ∨ dr = 0) (hdc : dc = 1 ∨ dc = -1 ∨ dc = 0)
    (hne : ¬ (dr = 0 ∧ dc = 0)) : (rayCells r c dr dc n).Nodup := by
  unfold rayCells
  apply List.Nodup.map_on _ (List.nodup_range n)
  intro k _ k2 _ e
  simp only [Prod.mk.injEq] at e
  obtain ⟨e1, e2⟩ := e
  rcases hdr with rfl | rfl | rfl
  · omega
  · omega
  · rcases hdc with rfl | rfl | rfl
    · omega
    · omega
    · exact absurd ⟨rfl, rfl⟩ hne

/-- C10: a living railgun attacker inside the grid whose shot intent is not its
own cell damages, with the railgun, exactly the handles alive on the cells
`(r0 + k*dr, c0 + k*dc)`, `k ≥ 1`, inside the grid (`dr`, `dc` the signs of
`sr - r0`, `sc - c0`), each exactly once and in increasing `k`; every other
handle is left as it was, and the shot returns once the walk has left the grid. -/
theorem doShooting_railgun (a : Arena) (i : Nat) (lr : LoadedRobot) (sr sc : Int)
    (h : a.robots[i]? = some lr) (halive : lr.alive = true)
    (hw : lr.robot.m_weapon = WeaponType.railgun)
    (hin : a.inBounds lr.row lr.col = true) (hno : NoOverlap a)
    (hne : ¬ (sr = lr.row ∧ sc = lr.col)) :
    ∃ (n : Nat) (hits : List Nat),
      (∀ k : Nat, 1 ≤ k →
        (a.inBounds (lr.row + (k : Int) * stepToward sr lr.row)
          (lr.col + (k : Int) * stepToward sc lr.col) = true ↔ k ≤ n)) ∧
      hits =
        (rayCells (lr.row + stepToward sr lr.row) (lr.col + stepToward sc lr.col)
          (stepToward sr lr.row) (stepToward sc lr.col) n).filterMap
          (fun p => a.robotAt p.1 p.2) ∧
      hits.Nodup ∧
      (∀ j : Nat, j ∈ hits ↔
        ∃ x, a.robots[j]? = some x ∧ x.alive = true ∧
          ∃ k : Nat, 1 ≤ k ∧
            a.inBounds (lr.row + (k : Int) * stepToward sr lr.row)
              (lr.col + (k : Int) * stepToward sc lr.col) = true ∧
            x.row = lr.row + (k : Int) * stepToward sr lr.row ∧
            x.col = lr.col + (k : Int) * stepToward sc lr.col) ∧
      ∀ fuel : Nat, n < fuel →
        ∃ b, a.doShooting fuel i (some (sr, sc)) = Outcome.returned b ∧
          (∀ (j : Nat) (x : LoadedRobot), a.robots[j]? = some x →
            b.robots[j]? = some (if j ∈ hits then damaged x WeaponType.railgun else x)) ∧
          a.newCalls b =
            [(i, Call.get_shot_location), (i, Call.get_weapon)] ++
              damageCallsOf a WeaponType.railgun hits := by
  obtain ⟨hdr, hdr0⟩ := stepToward_cases sr lr.row
  obtain ⟨hdc, hdc0⟩ := stepToward_cases sc lr.col
  have hnz : ¬ (stepToward sr lr.row = 0 ∧ stepToward sc lr.col = 0) := by
    rintro ⟨e1, e2⟩
    exact hne ⟨hdr0.mp e1, hdc0.mp e2⟩
  generalize hdr_eq : stepToward sr lr.row = dr at *
  generalize hdc_eq : stepToward sc lr.col = dc at *
  obtain ⟨n, hn⟩ := ray_exit a lr.row lr.col dr dc hin hdr hdc hnz
  have hcell : ∀ k : Nat, (lr.row + dr + (k : Int) * dr, lr.col + dc + (k : Int) * dc) =
      (lr.row + ((k + 1 : Nat) : Int) * dr, lr.col + ((k + 1 : Nat) : Int) * dc) := by
    intro k
    ext
    · push_cast; ring
    · push_cast; ring
  have hcells := nodup_rayCells (lr.row + dr) (lr.col + dc) dr dc n hdr hdc hnz
  have hmemhits : ∀ j : Nat,
      j ∈ (rayCells (lr.row + dr) (lr.col + dc) dr dc n).filterMap (fun p => a.robotAt p.1 p.2) ↔
        ∃ x, a.robots[j]? = some x ∧ x.alive = true ∧
          ∃ k : Nat, 1 ≤ k ∧
            a.inBounds (lr.row + (k : Int) * dr) (lr.col + (k : Int) * dc) = true ∧
            x.row = lr.row + (k : Int) * dr ∧ x.col = lr.col + (k : Int) * dc := by
    intro j
    rw [List.mem_filterMap]
    constructor
    · rintro ⟨p, hp, hj⟩
      obtain ⟨k, hk, e⟩ := (mem_rayCells _ _ _ _ _ _).mp hp
      rw [hcell k] at e
      obtain ⟨x, hx, e1, e2, e3, -⟩ := robotAt_some a p.1 p.2 j hj
      refine ⟨x, hx, e3, k + 1, by omega, (hn (k + 1) (by omega)).mpr (by omega), ?_, ?_⟩
      · rw [e1, e]
      · rw [e2, e]
    · rintro ⟨x, hx, hxa, k, hk, hkin, e1, e2⟩
      have hkn := (hn k hk).mp hkin
      refine ⟨(x.row, x.col), ?_, ?_⟩
      · rw [mem_rayCells]
        refine ⟨k - 1, by omega, ?_⟩
        rw [hcell (k - 1), e1, e2]
        have : k - 1 + 1 = k := by omega
        rw [this]
      · cases hr : a.robotAt x.row x.col with
        | none => exact absurd ⟨rfl, rfl, hxa⟩ ((robotAt_none a _ _).mp hr j x hx)
        | some j2 =>
          obtain ⟨y, hy, f1, f2, f3, -⟩ := robotAt_some a _ _ j2 hr
          rw [hno j2 j y x hy hx f3 hxa f1 f2]
  have hnd : ((rayCells (lr.row + dr) (lr.col + dc) dr dc n).filterMap
      (fun p => a.robotAt p.1 p.2)).Nodup := by
    apply List.Nodup.filterMap _ hcells
    intro p q j hp hq
    obtain ⟨x, hx, e1, e2, -, -⟩ := robotAt_some a p.1 p.2 j hp
    obtain ⟨y, hy, f1, f2, -, -⟩ := robotAt_some a q.1 q.2 j hq
    rw [hx] at hy
    cases hy
    exact Prod.ext (by rw [← e1, f1]) (by rw [← e2, f2])
  refine ⟨n, _, hn, rfl, hnd, hmemhits, ?_⟩
  intro fuel hfuel
  have hwalk := railgunWalk_unroll n fuel
    ((a.record i Call.get_shot_location).record i Call.get_weapon)
    (lr.row + dr) (lr.col + dc) dr dc
    (by
      intro k hk
      have := (hn (k + 1) (by omega)).mpr (by omega)
      have e := hcell k
      simp only [Prod.mk.injEq] at e
      rw [e.1, e.2]
      exact this)
    (by
      have : ¬ (a.inBounds (lr.row + ((n + 1 : Nat) : Int) * dr)
          (lr.col + ((n + 1 : Nat) : Int) * dc) = true) := by
        rw [hn (n + 1) (by omega)]
        omega
      have e := hcell n
      simp only [Prod.mk.injEq] at e
      rw [e.1, e.2]
      simpa using this)
    hfuel
  rw [foldl_hitAt _ hcells] at hwalk
  have hal : ∀ t ∈ (rayCells (lr.row + dr) (lr.col + dc) dr dc n).filterMap
      (fun p => a.robotAt p.1 p.2),
      ∃ x, ((a.record i Call.get_shot_location).record i Call.get_weapon).robots[t]? = some x ∧
        x.alive = true := by
    intro t ht
    obtain ⟨x, hx, hxa, -⟩ := (hmemhits t).mp ht
    exact ⟨x, hx, hxa⟩
  obtain ⟨g1, g2⟩ := foldl_applyDamage WeaponType.railgun _ hnd
    ((a.record i Call.get_shot_location).record i Call.get_weapon) hal
  refine ⟨_, ?_, fun j x hx => g1 j x hx, ?_⟩
  · unfold doShooting
    simp only [h, halive, hw, RobotBase.get_weapon, Bool.not_true, Bool.false_eq_true, if_false,
      if_true, hdr_eq, hdc_eq]
    simp only [reduceCtorEq, if_false]
    exact hwalk
  · apply newCalls_append
    rw [g2]
    simp [damageCallsOf]

/-- C10 at Scenario A: X at `(0,0)` targeting `(0,4)` on the 5×5 empty grid
damages Y at `(0,4)` by 15 (HP 30 → 15) and nobody else. -/
theorem doShooting_railgun_witness :
    Scenario.scenarioA.doShooting 5 0 (some (0, 4)) =
      Outcome.returned
        { Scenario.scenarioA with
          robots :=
            [Scenario.mkRobot WeaponType.railgun 100 0 0 0,
              Scenario.mkRobot WeaponType.railgun 15 0 0 4]
          log :=
            [(0, Call.get_shot_location), (0, Call.get_weapon), (1, Call.get_armor),
              (1, Call.take_damage 15)] } ∧
    ∃ (n : Nat) (hits : List Nat),
      (∀ k : Nat, 1 ≤ k →
        (Scenario.scenarioA.inBounds
          (Scenario.shooterX.row + (k : Int) * stepToward 0 Scenario.shooterX.row)
          (Scenario.shooterX.col + (k : Int) * stepToward 4 Scenario.shooterX.col) = true ↔
            k ≤ n)) ∧
      hits =
        (rayCells (Scenario.shooterX.row + stepToward 0 Scenario.shooterX.row)
          (Scenario.shooterX.col + stepToward 4 Scenario.shooterX.col)
          (stepToward 0 Scenario.shooterX.row) (stepToward 4 Scenario.shooterX.col) n).filterMap
          (fun p => Scenario.scenarioA.robotAt p.1 p.2) ∧
      hits.Nodup ∧
      (∀ j : Nat, j ∈ hits ↔
        ∃ x, Scenario.scenarioA.robots[j]? = some x ∧ x.alive = true ∧
          ∃ k : Nat, 1 ≤ k ∧
            Scenario.scenarioA.inBounds
              (Scenario.shooterX.row + (k : Int) * stepToward 0 Scenario.shooterX.row)
              (Scenario.shooterX.col + (k : Int) * stepToward 4 Scenario.shooterX.col) = true ∧
            x.row = Scenario.shooterX.row + (k : Int) * stepToward 0 Scenario.shooterX.row ∧
            x.col = Scenario.shooterX.col + (k : Int) * stepToward 4 Scenario.shooterX.col) ∧
      ∀ fuel : Nat, n < fuel →
        ∃ b, Scenario.scenarioA.doShooting fuel 0 (some (0, 4)) = Outcome.returned b ∧
          (∀ (j : Nat) (x : LoadedRobot), Scenario.scenarioA.robots[j]? = some x →
            b.robots[j]? = some (if j ∈ hits then damaged x WeaponType.railgun else x)) ∧
          Scenario.scenarioA.newCalls b =
            [(0, Call.get_shot_location), (0, Call.get_weapon)] ++
              damageCallsOf Scenario.scenarioA WeaponType.railgun hits :=
  ⟨by decide,
    doShooting_railgun Scenario.scenarioA 0 Scenario.shooterX 0 4
      (by decide) (by decide) (by decide) (by decide) (noOverlap_of_check _ (by decide))
      (by decide)⟩

/-! ### A railgun aimed at the shooter's own cell -/

/-- With the null step the walk never leaves an in-bounds cell: it is still
running after any number of iterations. -/
theorem railgunWalk_null_step (fuel : Nat) (a : Arena) (r c : Int)
    (hin : a.inBounds r c = true) :
    ∃ b, railgunWalk fuel a r c 0 0 = Outcome.outOfFuel b := by
  induction fuel generalizing a with
  | zero => exact ⟨a, rfl⟩
  | succ n ih =>
    simp only [railgunWalk, hin, if_true, add_zero]
    apply ih
    obtain ⟨e1, e2, _, _, _⟩ := weakens_hitAt a r c WeaponType.railgun
    rw [inBounds_congr a _ e1 e2]
    exact hin

/-- A living railgun handle inside the grid that reports its own cell as shot
intent makes `doShooting` loop forever. -/
theorem doShooting_own_cell (fuel : Nat) (a : Arena) (i : Nat) (lr : LoadedRobot)
    (h : a.robots[i]? = some lr) (halive : lr.alive = true)
    (hw : lr.robot.m_weapon = WeaponType.railgun) (hin : a.inBounds lr.row lr.col = true) :
    ∃ b, a.doShooting fuel i (some (lr.row, lr.col)) = Outcome.outOfFuel b := by
  unfold doShooting
  simp only [h, halive, hw, RobotBase.get_weapon, Bool.not_true, Bool.false_eq_true, if_false,
    if_true]
  simp only [reduceCtorEq, if_false, stepToward, gt_iff_lt, lt_self_iff_false, add_zero]
  exact railgunWalk_null_step fuel _ _ _ hin

/-- C2, the failing input: in Scenario A the railgun handle X at `(0,0)` reports
its own cell as shot intent.  The walk starts on X's cell and never leaves it:
`doShooting` does not return for any number of loop iterations; after one
iteration X has taken 15 damage from its own shot (HP 100 → 85), and after
seven iterations X is dead. -/
theorem doShooting_railgun_hits_shooter :
    (∀ fuel : Nat, ∃ b, Scenario.scenarioA.doShooting fuel 0 (some (0, 0)) = Outcome.outOfFuel b) ∧
    Scenario.scenarioA.doShooting 1 0 (some (0, 0)) =
      Outcome.outOfFuel
        { Scenario.scenarioA with
          robots :=
            [Scenario.mkRobot WeaponType.railgun 85 0 0 0,
              Scenario.mkRobot WeaponType.railgun 30 0 0 4]
          log :=
            [(0, Call.get_shot_location), (0, Call.get_weapon), (0, Call.get_armor),
              (0, Call.take_damage 15)] } ∧
    (Scenario.scenarioA.doShooting 7 0 (some (0, 0))).state.robots[0]? =
      some { Scenario.mkRobot WeaponType.railgun (-5) 0 0 0 with alive := false } :=
  ⟨fun fuel =>
      doShooting_own_cell fuel Scenario.scenarioA 0 Scenario.shooterX (by decide) (by decide)
        (by decide) (by decide),
    by decide, by decide⟩

/-! ### The round scheduler -/

/-- A living handle whose move intent is `(0, 0)` is asked for it and stays put. -/
theorem doMovement_zero (a : Arena) (i : Nat) (lr : LoadedRobot) (h : a.robots[i]? = some lr)
    (halive : lr.alive = true) :
    a.doMovement i 0 0 = a.record i Call.get_move_direction := by
  simp [doMovement, h, halive]

/-- A living railgun handle that stays put and reports its own cell as shot
intent never finishes its turn. -/
theorem takeTurn_own_cell (fuel : Nat) (beh : Behaviour) (round : Nat) (a : Arena) (i : Nat)
    (lr : LoadedRobot) (h : a.robots[i]? = some lr) (halive : lr.alive = true)
    (hw : lr.robot.m_weapon = WeaponType.railgun) (hin : a.inBounds lr.row lr.col = true)
    (hmove : beh.get_move_direction round i = (0, 0))
    (hshot : beh.get_shot_location round i = some (lr.row, lr.col)) :
    ∃ b, takeTurn fuel beh round a i = Outcome.outOfFuel b := by
  unfold takeTurn
  simp only [h, halive, hmove, hshot, Bool.not_true, Bool.false_eq_true, if_false]
  rw [doMovement_zero
    ((a.record i Call.get_radar_direction).record i (Call.process_radar_results (a.buildRadar i)))
    i lr h halive]
  exact doShooting_own_cell fuel _ i lr h halive hw hin

/-- C3, the failing input: Scenario A with handle 0 (a railgun) reporting its own
cell `(0,0)` as shot intent.  Every contract call returns, yet `runSimulation`
does not halt: for every bound on the iterations of the railgun walk the first
turn of round 0 is still inside that loop. -/
theorem runSimulation_diverges :
    ∀ fuel : Nat, ∃ s,
      Scenario.scenarioA.runSimulation fuel Scenario.selfShooter = Outcome.outOfFuel s ∧
        s.round = 0 := by
  intro fuel
  obtain ⟨b, hb⟩ := takeTurn_own_cell fuel Scenario.selfShooter 0 Scenario.scenarioA 0
    Scenario.shooterX (by decide) (by decide) (by decide) (by decide) rfl rfl
  have hg : Scenario.scenarioA.gameOver = false := by decide
  have hr : List.range Scenario.scenarioA.robots.length = [0, 1] := by decide
  have hloop : simLoop fuel Scenario.selfShooter 500 0 Scenario.scenarioA =
      Outcome.outOfFuel (b, 0) := by
    show simLoop fuel Scenario.selfShooter (499 + 1) 0 Scenario.scenarioA = _
    simp only [simLoop, hg, playRound, hr, turnsFrom, hb]
    simp
  refine ⟨{ arena := b, round := 0, winners := [] }, ?_, rfl⟩
  unfold runSimulation
  rw [hloop]

/-- A turn of an idle combatant changes no handle record. -/
theorem takeTurn_idle (fuel round : Nat) (a : Arena) (i : Nat) :
    ∃ b, takeTurn fuel Scenario.idle round a i = Outcome.returned b ∧ b.robots = a.robots := by
  unfold takeTurn
  cases h : a.robots[i]? with
  | none => exact ⟨a, rfl, rfl⟩
  | some lr =>
    cases hl : lr.alive with
    | false => exact ⟨a, by simp [hl], rfl⟩
    | true =>
      simp only [hl, Bool.not_true, Bool.false_eq_true, if_false, Scenario.idle]
      rw [doMovement_zero
        ((a.record i Call.get_radar_direction).record i
          (Call.process_radar_results (a.buildRadar i))) i lr h hl]
      refine ⟨(((a.record i Call.get_radar_direction).record i
        (Call.process_radar_results (a.buildRadar i))).record i Call.get_move_direction).record i
          Call.get_shot_location, ?_, rfl⟩
      simp only [doShooting, record_robots, h, hl, Bool.not_true, Bool.false_eq_true, if_false]

theorem turnsFrom_idle (fuel round : Nat) (l : List Nat) (a : Arena) :
    ∃ b, turnsFrom fuel Scenario.idle round l a = Outcome.returned b ∧ b.robots = a.robots := by
  induction l generalizing a with
  | nil => exact ⟨a, rfl, rfl⟩
  | cons i rest ih =>
    obtain ⟨b, hb, hrb⟩ := takeTurn_idle fuel round a i
    obtain ⟨c, hc, hrc⟩ := ih b
    exact ⟨c, by simp only [turnsFrom, hb, hc], by rw [hrc, hrb]⟩

/-- With idle combatants and at least two of them alive, the loop runs to the
cap of 500 rounds and leaves every handle record as it was. -/
theorem simLoop_idle (fuel n round : Nat) (a : Arena) (hg : a.gameOver = false)
    (hn : round + n = 500) :
    ∃ b, simLoop fuel Scenario.idle n round a = Outcome.returned (b, 500) ∧
      b.robots = a.robots := by
  induction n generalizing a round with
  | zero =>
    have : round = 500 := by omega
    subst this
    exact ⟨a, rfl, rfl⟩
  | succ n ih =>
    obtain ⟨b, hb, hrb⟩ := turnsFrom_idle fuel round (List.range a.robots.length) a
    have hgb : b.gameOver = false := by
      unfold gameOver at *
      rw [hrb]
      exact hg
    obtain ⟨c, hc, hrc⟩ := ih (round + 1) b hgb (by omega)
    refine ⟨c, ?_, by rw [hrc, hrb]⟩
    have hlt : round < 500 := by omega
    simp only [simLoop, hg, playRound, hb, hc, hlt, Bool.not_false, decide_True, Bool.and_self,
      if_true]

/-! ### The end-of-match report -/

theorem report_robots (l : List Nat) (a : Arena) :
    (l.foldl (fun w i => w.record i Call.print_stats) a).robots = a.robots := by
  induction l generalizing a with
  | nil => rfl
  | cons i rest ih => rw [List.foldl_cons, ih]; rfl

theorem winners_congr (a b : Arena) (h : b.robots = a.robots) : b.winners = a.winners := by
  unfold winners
  rw [h]

theorem aliveCount_congr (a b : Arena) (h : b.robots = a.robots) :
    b.aliveCount = a.aliveCount := by
  unfold aliveCount
  rw [h]

theorem mem_winners (a : Arena) (i : Nat) :
    i ∈ a.winners ↔ ∃ x, a.robots[i]? = some x ∧ x.alive = true := by
  unfold winners
  rw [List.mem_filter, List.mem_range]
  constructor
  · rintro ⟨_, h⟩
    cases hx : a.robots[i]? with
    | none => simp [hx] at h
    | some x => exact ⟨x, rfl, by simpa [hx] using h⟩
  · rintro ⟨x, hx, hxa⟩
    exact ⟨(List.getElem?_eq_some_iff.mp hx).1, by simp [hx, hxa]⟩

theorem winners_sorted (a : Arena) : a.winners.Pairwise (· < ·) :=
  List.Pairwise.filter _ (List.pairwise_lt_range _)

/-- The number of indices of living records equals the number of living records. -/
theorem length_alive_indices (l : List LoadedRobot) :
    ((List.range l.length).filter fun i =>
      match l[i]? with
      | some lr => lr.alive
      | none => false).length = (l.filter fun lr => lr.alive).length := by
  induction l with
  | nil => rfl
  | cons x rest ih =>
    rw [List.length_cons, List.range_succ_eq_map, List.filter_cons, List.filter_map,
      List.filter_cons]
    have hcomp : ((fun i => match (x :: rest)[i]? with
        | some lr => lr.alive
        | none => false) ∘ Nat.succ) = fun i => match rest[i]? with
        | some lr => lr.alive
        | none => false := by
      funext i
      simp
    rw [hcomp]
    cases hx : x.alive with
    | false => simp [hx, ih]
    | true => simp [hx, ih]

theorem length_winners (a : Arena) : a.winners.length = a.aliveCount :=
  length_alive_indices a.robots

theorem report_log (l : List Nat) (a : Arena) :
    (l.foldl (fun w i => w.record i Call.print_stats) a).log =
      a.log ++ l.map (fun i => (i, Call.print_stats)) := by
  induction l generalizing a with
  | nil => simp
  | cons i rest ih =>
    rw [List.foldl_cons, ih]
    simp

/-- A duplicate-free list whose only member is `j` is `[j]`. -/
theorem only_member (l : List Nat) (j : Nat) (hnd : l.Nodup) (h : ∀ i : Nat, i ∈ l ↔ i = j) :
    l = [j] := by
  cases l with
  | nil => exact absurd ((h j).mpr rfl) (List.not_mem_nil j)
  | cons x rest =>
    have hx : x = j := (h x).mp (List.mem_cons_self x rest)
    subst hx
    rw [List.nodup_cons] at hnd
    cases rest with
    | nil => rfl
    | cons y r2 =>
      have hy : y = x := (h y).mp (List.mem_cons_of_mem x (List.mem_cons_self y r2))
      subst hy
      exact absurd (List.mem_cons_self y r2) hnd.1

/-- C4 as stated fails: Scenario A with idle combatants runs to the cap of 500
rounds with both handles alive, and both are reported as winners. -/
theorem runSimulation_cap_reports_survivors :
    ∃ s, Scenario.scenarioA.runSimulation 0 Scenario.idle = Outcome.returned s ∧
      s.round = 500 ∧ s.arena.aliveCount = 2 ∧ s.winners = [0, 1] ∧ s.winners ≠ [] := by
  obtain ⟨b, hb, hrb⟩ := simLoop_idle 0 500 0 Scenario.scenarioA (by decide) rfl
  have hw : b.winners = [0, 1] := by
    rw [winners_congr _ b hrb]
    decide
  refine ⟨SimResult.mk (b.winners.foldl (fun w i => w.record i Call.print_stats) b) 500
    b.winners, ?_, rfl, ?_, hw, ?_⟩
  · unfold runSimulation
    rw [hb]
  · show Arena.aliveCount _ = 2
    rw [aliveCount_congr b _ (report_robots _ b), aliveCount_congr _ b hrb]
    decide
  · show b.winners ≠ []
    rw [hw]
    exact List.cons_ne_nil _ _

/-- C4, amended: whenever `runSimulation` ends, it prints one WINNER line for
every handle that is alive in the final world and for no other, in registration
order, whether the match ended by the cap or not; so with exactly one handle
alive exactly that handle is reported, and with two or more alive at the cap
all of them are. -/
theorem runSimulation_winners (fuel : Nat) (beh : Behaviour) (a : Arena) (s : SimResult)
    (h : a.runSimulation fuel beh = Outcome.returned s) :
    s.winners.Pairwise (· < ·) ∧
    (∀ i : Nat, i ∈ s.winners ↔ ∃ x, s.arena.robots[i]? = some x ∧ x.alive = true) ∧
    s.winners.length = s.arena.aliveCount ∧
    (∃ L, s.arena.log = L ++ s.winners.map (fun i => (i, Call.print_stats))) ∧
    (∀ j : Nat, (∀ i : Nat, (∃ x, s.arena.robots[i]? = some x ∧ x.alive = true) ↔ i = j) →
      s.winners = [j]) := by
  unfold runSimulation at h
  split at h
  · rename_i a1 round e
    cases h
    have hmem : ∀ i : Nat, i ∈ a1.winners ↔
        ∃ x, (a1.winners.foldl (fun w i => w.record i Call.print_stats) a1).robots[i]? = some x ∧
          x.alive = true := by
      intro i
      rw [report_robots]
      exact mem_winners a1 i
    refine ⟨winners_sorted a1, hmem, ?_, ⟨a1.log, report_log _ a1⟩, ?_⟩
    · show a1.winners.length = Arena.aliveCount _
      rw [aliveCount_congr a1 _ (report_robots _ a1)]
      exact length_winners a1
    · intro j hj
      show a1.winners = [j]
      have hj2 : ∀ i : Nat, i ∈ a1.winners ↔ i = j := fun i => (hmem i).trans (hj i)
      exact only_member a1.winners j (winners_sorted a1).nodup hj2
  · cases h

/-- C4 amended, at a concrete input: Scenario B has a single handle, the match
is over before the first round and that handle is the one winner reported. -/
theorem runSimulation_winners_witness :
    Scenario.scenarioB.runSimulation 0 Scenario.idle =
      Outcome.returned
        (SimResult.mk (Scenario.scenarioB.record 0 Call.print_stats) 0 [0]) ∧
    ((SimResult.mk (Scenario.scenarioB.record 0 Call.print_stats) 0 [0]).winners.Pairwise
        (· < ·) ∧
      (∀ i : Nat, i ∈ (SimResult.mk (Scenario.scenarioB.record 0 Call.print_stats) 0 [0]).winners ↔
        ∃ x, (SimResult.mk (Scenario.scenarioB.record 0 Call.print_stats) 0 [0]).arena.robots[i]? =
          some x ∧ x.alive = true)) :=
  ⟨by decide,
    ⟨(runSimulation_winners 0 Scenario.idle Scenario.scenarioB
        (SimResult.mk (Scenario.scenarioB.record 0 Call.print_stats) 0 [0]) (by decide)).1,
      (runSimulation_winners 0 Scenario.idle Scenario.scenarioB
        (SimResult.mk (Scenario.scenarioB.record 0 Call.print_stats) 0 [0]) (by decide)).2.1⟩⟩

/-- Whenever the simulation loop returns, the round counter is at most 500 and
either at most one handle is alive or the counter is exactly 500. -/
theorem simLoop_returned (fuel : Nat) (beh : Behaviour) (n round : Nat) (a b : Arena) (r : Nat)
    (h : simLoop fuel beh n round a = Outcome.returned (b, r)) (hn : round + n = 500) :
    r ≤ 500 ∧ (b.aliveCount ≤ 1 ∨ r = 500) := by
  induction n generalizing a round with
  | zero =>
    simp only [simLoop, Outcome.returned.injEq, Prod.mk.injEq] at h
    omega
  | succ n ih =>
    simp only [simLoop] at h
    split at h
    · split at h
      · exact ih (round + 1) _ h (by omega)
      · cases h
    · rename_i hc
      simp only [Outcome.returned.injEq, Prod.mk.injEq] at h
      obtain ⟨rfl, rfl⟩ := h
      have hlt : round < 500 := by omega
      simp only [hlt, decide_True, Bool.and_true, Bool.not_eq_true', Bool.not_eq_false] at hc
      refine ⟨by omega, Or.inl ?_⟩
      simpa [gameOver, aliveCount] using hc

/-- A world without handles ends at once: zero rounds, nobody reported. -/
theorem runSimulation_no_handles (fuel : Nat) (beh : Behaviour) (a : Arena)
    (h : a.robots = []) :
    a.runSimulation fuel beh = Outcome.returned (SimResult.mk a 0 []) := by
  have hg : a.gameOver = true := by simp [gameOver, h]
  have hw : a.winners = [] := by simp [winners, h]
  have hloop : simLoop fuel beh 500 0 a = Outcome.returned (a, 0) := by
    show simLoop fuel beh (499 + 1) 0 a = _
    simp [simLoop, hg]
  unfold runSimulation
  rw [hloop]
  simp [hw]

/-- Hitting a cell leaves every handle that does not stand on it as it was. -/
theorem hitAt_spares (a : Arena) (i : Nat) (lr : LoadedRobot) (r c : Int) (w : WeaponType)
    (h : a.robots[i]? = some lr) (hoff : ¬ (lr.row = r ∧ lr.col = c)) :
    (a.hitAt r c w).robots[i]? = some lr := by
  unfold hitAt
  cases ht : a.robotAt r c with
  | none => exact h
  | some t =>
    obtain ⟨x, hx, e1, e2, -, -⟩ := robotAt_some a r c t ht
    have hit : i ≠ t := by
      intro e
      subst e
      rw [h] at hx
      cases hx
      exact hoff ⟨e1, e2⟩
    obtain ⟨y, hy, -, -, -, hsame⟩ := applyDamage_get a t w i lr h
    rw [hy, hsame hit]

/-- A walk with a non-null unit step that starts `k ≥ 1` steps away from a
handle never touches that handle. -/
theorem railgunWalk_spares (fuel : Nat) (a : Arena) (i : Nat) (lr : LoadedRobot) (dr dc : Int)
    (k : Nat) (h : a.robots[i]? = some lr) (hk : 1 ≤ k)
    (hdr : dr = 1 ∨ dr = -1 ∨ dr = 0) (hdc : dc = 1 ∨ dc = -1 ∨ dc = 0)
    (hne : ¬ (dr = 0 ∧ dc = 0)) :
    (railgunWalk fuel a (lr.row + (k : Int) * dr) (lr.col + (k : Int) * dc) dr dc).state.robots[i]? =
      some lr := by
  induction fuel generalizing a k with
  | zero => exact h
  | succ n ih =>
    simp only [railgunWalk]
    split
    · have hoff : ¬ (lr.row = lr.row + (k : Int) * dr ∧ lr.col = lr.col + (k : Int) * dc) := by
        rintro ⟨e1, e2⟩
        rcases hdr with rfl | rfl | rfl
        · omega
        · omega
        · rcases hdc with rfl | rfl | rfl
          · omega
          · omega
          · exact hne ⟨rfl, rfl⟩
      have h2 := hitAt_spares a i lr _ _ WeaponType.railgun h hoff
      have e1 : lr.row + (k : Int) * dr + dr = lr.row + ((k + 1 : Nat) : Int) * dr := by
        push_cast; ring
      have e2 : lr.col + (k : Int) * dc + dc = lr.col + ((k + 1 : Nat) : Int) * dc := by
        push_cast; ring
      rw [e1, e2]
      exact ih _ (k + 1) h2 (by omega)
    · exact h

/-- A railgun shot whose intent is not the shooter's own cell leaves the
shooter's record (HP, armor, alive flag, cell) as it was, in whatever state the
shot has reached. -/
theorem doShooting_railgun_spares_shooter (fuel : Nat) (a : Arena) (i : Nat) (lr : LoadedRobot)
    (sr sc : Int) (h : a.robots[i]? = some lr) (halive : lr.alive = true)
    (hw : lr.robot.m_weapon = WeaponType.railgun) (hne : ¬ (sr = lr.row ∧ sc = lr.col)) :
    (a.doShooting fuel i (some (sr, sc))).state.robots[i]? = some lr := by
  obtain ⟨hdr, hdr0⟩ := stepToward_cases sr lr.row
  obtain ⟨hdc, hdc0⟩ := stepToward_cases sc lr.col
  have hnz : ¬ (stepToward sr lr.row = 0 ∧ stepToward sc lr.col = 0) := by
    rintro ⟨e1, e2⟩
    exact hne ⟨hdr0.mp e1, hdc0.mp e2⟩
  have hwalk := railgunWalk_spares fuel
    ((a.record i Call.get_shot_location).record i Call.get_weapon) i lr
    (stepToward sr lr.row) (stepToward sc lr.col) 1 h (le_refl 1) hdr hdc hnz
  unfold doShooting
  simp only [h, halive, hw, RobotBase.get_weapon, Bool.not_true, Bool.false_eq_true, if_false,
    if_true]
  simp only [reduceCtorEq, if_false]
  simpa using hwalk

/-! ### Dead handles, the damage floor, flame traps -/

/-- C17: a dead handle neither acts nor takes damage: `applyDamage` on a target
whose alive flag is false, and `doMovement` and `doShooting` on a handle whose
alive flag is false, return the world exactly as it was, log of contract calls
included (no call is made on any combatant). -/
theorem dead_handle_frame (a : Arena) (t : Nat) (x : LoadedRobot) (h : a.robots[t]? = some x)
    (hdead : x.alive = false) :
    (∀ w, a.applyDamage t w = a) ∧
    (∀ dir dist, a.doMovement t dir dist = a) ∧
    (∀ fuel shot, a.doShooting fuel t shot = Outcome.returned a) := by
  refine ⟨fun w => applyDamage_dead a t w x h hdead, fun dir dist => ?_, fun fuel shot => ?_⟩
  · simp [doMovement, h, hdead]
  · simp [doShooting, h, hdead]

/-- C17 at a concrete input: in Scenario A with Y dead, damage to Y, a move of Y
and a shot of Y change nothing. -/
theorem dead_handle_frame_witness :
    Scenario.scenarioAdead.robots[1]? =
      some { Scenario.mkRobot WeaponType.railgun 0 0 0 4 with alive := false } ∧
    ((∀ w, Scenario.scenarioAdead.applyDamage 1 w = Scenario.scenarioAdead) ∧
      (∀ dir dist, Scenario.scenarioAdead.doMovement 1 dir dist = Scenario.scenarioAdead) ∧
      (∀ fuel shot,
        Scenario.scenarioAdead.doShooting fuel 1 shot = Outcome.returned Scenario.scenarioAdead)) :=
  ⟨by decide,
    dead_handle_frame Scenario.scenarioAdead 1
      { Scenario.mkRobot WeaponType.railgun 0 0 0 4 with alive := false } (by decide) (by decide)⟩

theorem baseDamage_ge (w : WeaponType) : 10 ≤ baseDamage w := by
  cases w <;> decide

/-- C19: the floor at 1 in `applyDamage` never decides: for every weapon value
(the default base 10 included) and every armor value the amount handed to
`take_damage` is at least 6, the test `base < 1` is never true, and
`max 1 (base - 4) = base - 4`. -/
theorem applyDamage_floor_never_binds (w : WeaponType) :
    (∀ (a : Arena) (t j : Nat) (d : Int),
      (j, Call.take_damage d) ∈ a.newCalls (a.applyDamage t w) → 6 ≤ d) ∧
    (∀ armor : Int, 6 ≤ damageDealt w armor ∧
      damageDealt w armor = if armor > 0 then baseDamage w - 4 else baseDamage w) ∧
    max 1 (baseDamage w - 4) = baseDamage w - 4 ∧
    ¬ (baseDamage w - 4 < 1) ∧ ¬ (baseDamage w < 1) := by
  have hb := baseDamage_ge w
  have hd : ∀ armor : Int, 6 ≤ damageDealt w armor ∧
      damageDealt w armor = if armor > 0 then baseDamage w - 4 else baseDamage w := by
    intro armor
    unfold damageDealt
    split
    · rw [if_neg (by omega)]
      exact ⟨by omega, rfl⟩
    · rw [if_neg (by omega)]
      exact ⟨by omega, rfl⟩
  refine ⟨?_, hd, by omega, by omega, by omega⟩
  intro a t j d hmem
  rcases applyDamage_cases a t w with e | ⟨x, _, _, e⟩
  · rw [e, newCalls_self] at hmem
    cases hmem
  · rw [e, newCalls_append a _ (damageCalls t x w) rfl] at hmem
    have hx := (hd x.robot.m_armor).1
    unfold damageCalls at hmem
    split at hmem
    · simp only [List.mem_cons, Prod.mk.injEq, reduceCtorEq, and_false, Call.take_damage.injEq,
        false_or, List.mem_singleton, List.not_mem_nil, or_false] at hmem
      rw [hmem.2]
      exact hx
    · simp only [List.mem_cons, Prod.mk.injEq, reduceCtorEq, and_false, Call.take_damage.injEq,
        false_or, List.mem_singleton, List.not_mem_nil, or_false] at hmem
      rw [hmem.2]
      exact hx

/-- C19 at a concrete input: the default weapon value (base 10) on the armored
target hands exactly 6 to `take_damage`. -/
theorem applyDamage_floor_never_binds_witness :
    (1, Call.take_damage 6) ∈
      Scenario.armored.newCalls (Scenario.armored.applyDamage 1 WeaponType.other) ∧
    (6 : Int) ≤ 6 :=
  ⟨by decide,
    (applyDamage_floor_never_binds WeaponType.other).1 Scenario.armored 1 1 6 (by decide)⟩

/-- C18: in the step loop of `doMovement`, when the next cell is inside the
grid, free of living handles and a FlameTrap, the step is committed,
`applyDamage` with the flamethrower is run on the moving handle itself, and the
loop goes on with the remaining steps from that world, whatever the damage did
to the handle's alive flag; a living handle is handed 12 (8 when it has armor),
and the loop commits the step of a dead handle onto a free cell just the same. -/
theorem moveLoop_flame_trap (n : Nat) (a : Arena) (i : Nat) (dr dc : Int) (lr : LoadedRobot)
    (h : a.robots[i]? = some lr)
    (hin : a.inBounds (lr.row + dr) (lr.col + dc) = true)
    (hfree : a.robotAt (lr.row + dr) (lr.col + dc) = none)
    (hflame : a.boardAt (lr.row + dr) (lr.col + dc) = ObstacleType.FlameTrap) :
    moveLoop (n + 1) a i dr dc =
      moveLoop n
        ((a.commitStep i lr (lr.row + dr) (lr.col + dc)).applyDamage i WeaponType.flamethrower)
        i dr dc ∧
    (lr.alive = true →
      (a.commitStep i lr (lr.row + dr) (lr.col + dc)).applyDamage i WeaponType.flamethrower =
        { a with
          robots :=
            a.robots.set i
              (damaged
                { lr with
                  row := lr.row + dr, col := lr.col + dc,
                  robot := lr.robot.move_to (lr.row + dr) (lr.col + dc) }
                WeaponType.flamethrower)
          log :=
            a.log ++ [(i, Call.move_to (lr.row + dr) (lr.col + dc))] ++
              damageCalls i lr WeaponType.flamethrower }) ∧
    damageDealt WeaponType.flamethrower lr.robot.m_armor =
      (if lr.robot.m_armor > 0 then 8 else 12) ∧
    (∀ (m : Nat) (b : Arena) (y : LoadedRobot), b.robots[i]? = some y → y.alive = false →
      b.inBounds (y.row + dr) (y.col + dc) = true →
      b.robotAt (y.row + dr) (y.col + dc) = none →
      b.boardAt (y.row + dr) (y.col + dc) = ObstacleType.Empty →
      moveLoop (m + 1) b i dr dc =
        moveLoop m (b.commitStep i y (y.row + dr) (y.col + dc)) i dr dc) := by
  refine ⟨?_, ?_, ?_, ?_⟩
  · rw [moveLoop_succ n a i dr dc lr h]
    simp [hin, hfree, hflame]
  · intro hal
    rw [applyDamage_alive _ i _ _ (commitStep_get a i lr _ _ h) hal]
    simp [damageCalls, RobotBase.move_to]
  · unfold damageDealt
    split <;> rfl
  · intro m b y hy _ hbin hbfree hbempty
    rw [moveLoop_succ m b i dr dc y hy]
    simp [hbin, hbfree, hbempty]

/-- C18 at a concrete input: on the lane `. F . .` a handle with HP 10 going
east by 3 steps onto the FlameTrap, takes 12, is dead, and still advances over
the two remaining cells to `(0,3)`. -/
theorem moveLoop_flame_trap_witness :
    Scenario.flameLane.doMovement 0 3 3 =
      { Scenario.flameLane with
        robots := [{ Scenario.mkRobot WeaponType.hammer (-2) 0 0 3 with alive := false }]
        log :=
          [(0, Call.get_move_direction), (0, Call.move_to 0 1), (0, Call.get_armor),
            (0, Call.take_damage 12), (0, Call.move_to 0 2), (0, Call.move_to 0 3)] } ∧
    moveLoop (2 + 1) (Scenario.flameLane.record 0 Call.get_move_direction) 0 0 1 =
      moveLoop 2
        (((Scenario.flameLane.record 0 Call.get_move_direction).commitStep 0
          (Scenario.mkRobot WeaponType.hammer 10 0 0 0)
          ((Scenario.mkRobot WeaponType.hammer 10 0 0 0).row + 0)
          ((Scenario.mkRobot WeaponType.hammer 10 0 0 0).col + 1)).applyDamage 0
            WeaponType.flamethrower)
        0 0 1 :=
  ⟨by decide,
    (moveLoop_flame_trap 2 (Scenario.flameLane.record 0 Call.get_move_direction) 0 0 1
      (Scenario.mkRobot WeaponType.hammer 10 0 0 0) (by decide) (by decide) (by decide)
      (by decide)).1⟩

/-! ### Area weapons -/

theorem inBounds_hitAt (a : Arena) (r c : Int) (w : WeaponType) (x y : Int) :
    (a.hitAt r c w).inBounds x y = a.inBounds x y := by
  obtain ⟨e1, e2, _, _, _⟩ := weakens_hitAt a r c w
  exact inBounds_congr a _ e1 e2 x y

/-- A sweep hits exactly the listed cells that lie inside the grid. -/
theorem sweep_eq_filter (a : Arena) (w : WeaponType) (cells : List (Int × Int)) :
    a.sweep w cells =
      (cells.filter fun p => a.inBounds p.1 p.2).foldl (fun b p => b.hitAt p.1 p.2 w) a := by
  unfold sweep
  induction cells generalizing a with
  | nil => rfl
  | cons p rest ih =>
    rw [List.foldl_cons, List.filter_cons]
    by_cases hp : a.inBounds p.1 p.2 = true
    · rw [if_pos hp, if_pos hp, List.foldl_cons, ih]
      congr 1
      apply List.filter_congr
      intro q _
      rw [inBounds_hitAt]
    · rw [if_neg hp, if_neg hp, ih]

/-- The handles found on pairwise distinct cells are pairwise distinct. -/
theorem nodup_filterMap_robotAt (a : Arena) (cells : List (Int × Int)) (hnd : cells.Nodup) :
    (cells.filterMap fun p => a.robotAt p.1 p.2).Nodup := by
  apply List.Nodup.filterMap _ hnd
  intro p q j hp hq
  obtain ⟨x, hx, e1, e2, -, -⟩ := robotAt_some a p.1 p.2 j hp
  obtain ⟨y, hy, f1, f2, -, -⟩ := robotAt_some a q.1 q.2 j hq
  rw [hx] at hy
  cases hy
  exact Prod.ext (by rw [← e1, f1]) (by rw [← e2, f2])

/-- Where no two living handles share a cell, the handles found on the listed
cells are exactly the living handles standing on a listed cell. -/
theorem mem_filterMap_robotAt (a : Arena) (cells : List (Int × Int)) (hno : NoOverlap a)
    (j : Nat) :
    j ∈ (cells.filterMap fun p => a.robotAt p.1 p.2) ↔
      ∃ x, a.robots[j]? = some x ∧ x.alive = true ∧ (x.row, x.col) ∈ cells := by
  rw [List.mem_filterMap]
  constructor
  · rintro ⟨p, hp, hj⟩
    obtain ⟨x, hx, e1, e2, e3, -⟩ := robotAt_some a p.1 p.2 j hj
    refine ⟨x, hx, e3, ?_⟩
    rw [e1, e2]
    exact hp
  · rintro ⟨x, hx, hxa, hmem⟩
    refine ⟨(x.row, x.col), hmem, ?_⟩
    cases hr : a.robotAt x.row x.col with
    | none => exact absurd ⟨rfl, rfl, hxa⟩ ((robotAt_none a _ _).mp hr j x hx)
    | some j2 =>
      obtain ⟨y, hy, f1, f2, f3, -⟩ := robotAt_some a _ _ j2 hr
      rw [hno j2 j y x hy hx f3 hxa f1 f2]

theorem nodup_hitsOf (a : Arena) (cells : List (Int × Int)) (hnd : cells.Nodup) :
    (hitsOf a cells).Nodup :=
  nodup_filterMap_robotAt a _ (hnd.filter _)

theorem mem_hitsOf (a : Arena) (cells : List (Int × Int)) (hno : NoOverlap a) (j : Nat) :
    j ∈ hitsOf a cells ↔
      ∃ x, a.robots[j]? = some x ∧ x.alive = true ∧ a.inBounds x.row x.col = true ∧
        (x.row, x.col) ∈ cells := by
  unfold hitsOf
  rw [mem_filterMap_robotAt a _ hno]
  constructor
  · rintro ⟨x, hx, hxa, hmem⟩
    rw [List.mem_filter] at hmem
    exact ⟨x, hx, hxa, hmem.2, hmem.1⟩
  · rintro ⟨x, hx, hxa, hin, hmem⟩
    exact ⟨x, hx, hxa, List.mem_filter.mpr ⟨hmem, hin⟩⟩

/-- A sweep over pairwise distinct cells, in a world where no two living handles
share a cell, damages the handles of `hitsOf` once each, in order, and leaves
every other handle as it was. -/
theorem sweep_spec (a : Arena) (w : WeaponType) (cells : List (Int × Int)) (hnd : cells.Nodup)
    (hno : NoOverlap a) :
    (∀ (j : Nat) (x : LoadedRobot), a.robots[j]? = some x →
      (a.sweep w cells).robots[j]? = some (if j ∈ hitsOf a cells then damaged x w else x)) ∧
    (a.sweep w cells).log = a.log ++ damageCallsOf a w (hitsOf a cells) := by
  rw [sweep_eq_filter, foldl_hitAt _ (hnd.filter _)]
  apply foldl_applyDamage w _ (nodup_hitsOf a cells hnd) a
  intro t ht
  obtain ⟨x, hx, hxa, -, -⟩ := (mem_hitsOf a cells hno t).mp ht
  exact ⟨x, hx, hxa⟩

theorem nodup_flameCells (r0 c0 : Int) : (flameCells r0 c0).Nodup := by
  unfold flameCells
  apply List.Nodup.map _ (by decide)
  intro o1 o2 e
  simp only [Prod.mk.injEq] at e
  exact Prod.ext (by omega) (by omega)

theorem nodup_blastCells (sr sc : Int) : (blastCells sr sc).Nodup := by
  unfold blastCells
  apply List.Nodup.map _ (by decide)
  intro o1 o2 e
  simp only [Prod.mk.injEq] at e
  exact Prod.ext (by omega) (by omega)

theorem flameSweep_eq_sweep (a : Arena) (r0 c0 : Int) :
    a.flameSweep r0 c0 = a.sweep WeaponType.flamethrower (flameCells r0 c0) := by
  simp only [flameSweep, sweep, flameCells, flameOffsets, List.foldl_cons, List.foldl_nil,
    List.map_cons, List.map_nil]

theorem grenadeBlast_eq_sweep (a : Arena) (sr sc : Int) :
    a.grenadeBlast sr sc = a.sweep WeaponType.grenade (blastCells sr sc) := by
  simp only [grenadeBlast, sweep, blastCells, blastOffsets, List.foldl_cons, List.foldl_nil,
    List.map_cons, List.map_nil]

theorem mem_flameOffsets (k dc : Int) :
    (k, dc) ∈ flameOffsets ↔ (k = 1 ∨ k = 2 ∨ k = 3 ∨ k = 4) ∧ (dc = -1 ∨ dc = 0 ∨ dc = 1) := by
  simp only [flameOffsets, List.mem_cons, Prod.mk.injEq, List.not_mem_nil, or_false]
  omega

theorem mem_blastOffsets (dr dc : Int) :
    (dr, dc) ∈ blastOffsets ↔ (-1 ≤ dr ∧ dr ≤ 1) ∧ (-1 ≤ dc ∧ dc ≤ 1) := by
  simp only [blastOffsets, List.mem_cons, Prod.mk.injEq, List.not_mem_nil, or_false]
  omega

theorem mem_flameCells (r0 c0 r c : Int) :
    (r, c) ∈ flameCells r0 c0 ↔
      ∃ k dc : Int, (k = 1 ∨ k = 2 ∨ k = 3 ∨ k = 4) ∧ (dc = -1 ∨ dc = 0 ∨ dc = 1) ∧
        r = r0 + k ∧ c = c0 + dc := by
  unfold flameCells
  rw [List.mem_map]
  constructor
  · rintro ⟨⟨k, dc⟩, ho, e⟩
    simp only [Prod.mk.injEq] at e
    obtain ⟨h1, h2⟩ := (mem_flameOffsets k dc).mp ho
    exact ⟨k, dc, h1, h2, e.1.symm, e.2.symm⟩
  · rintro ⟨k, dc, hk, hdc, rfl, rfl⟩
    exact ⟨(k, dc), (mem_flameOffsets k dc).mpr ⟨hk, hdc⟩, rfl⟩

theorem mem_blastCells (sr sc r c : Int) :
    (r, c) ∈ blastCells sr sc ↔ |r - sr| ≤ 1 ∧ |c - sc| ≤ 1 := by
  rw [abs_le, abs_le]
  unfold blastCells
  rw [List.mem_map]
  constructor
  · rintro ⟨⟨dr, dc⟩, ho, e⟩
    simp only [Prod.mk.injEq] at e
    have := (mem_blastOffsets dr dc).mp ho
    omega
  · intro h
    exact ⟨(r - sr, c - sc), (mem_blastOffsets _ _).mpr (by omega), by ext <;> simp⟩
/-- The flamethrower branch of `doShooting`, for a living flamethrower handle. -/
theorem doShooting_flamethrower_eq (fuel : Nat) (a : Arena) (i : Nat) (lr : LoadedRobot)
    (sr sc : Int) (h : a.robots[i]? = some lr) (halive : lr.alive = true)
    (hw : lr.robot.m_weapon = WeaponType.flamethrower) :
    a.doShooting fuel i (some (sr, sc)) =
      Outcome.returned
        (((a.record i Call.get_shot_location).record i Call.get_weapon).sweep
          WeaponType.flamethrower (flameCells lr.row lr.col)) := by
  unfold doShooting
  simp only [h, halive, hw, RobotBase.get_weapon, Bool.not_true, Bool.false_eq_true, if_false,
    if_true]
  rw [flameSweep_eq_sweep]

/-- C11: a living flamethrower handle at `(r0, c0)` that reports a shot intent
damages, with the flamethrower, exactly the living handles on the cells
`(r0 + k, c0 + dc)`, `k ∈ {1,2,3,4}`, `dc ∈ {-1,0,1}`, inside the grid, each
once, and leaves every other handle as it was; the outcome is the same for every
reported shot cell `(sr, sc)`. -/
theorem doShooting_flamethrower (a : Arena) (i : Nat) (lr : LoadedRobot)
    (h : a.robots[i]? = some lr) (halive : lr.alive = true)
    (hw : lr.robot.m_weapon = WeaponType.flamethrower) (hno : NoOverlap a) :
    (hitsOf a (flameCells lr.row lr.col)).Nodup ∧
    (∀ j : Nat, j ∈ hitsOf a (flameCells lr.row lr.col) ↔
      ∃ x, a.robots[j]? = some x ∧ x.alive = true ∧ a.inBounds x.row x.col = true ∧
        ∃ k dc : Int, (k = 1 ∨ k = 2 ∨ k = 3 ∨ k = 4) ∧ (dc = -1 ∨ dc = 0 ∨ dc = 1) ∧
          x.row = lr.row + k ∧ x.col = lr.col + dc) ∧
    (∀ (fuel : Nat) (sr sc : Int),
      ∃ b, a.doShooting fuel i (some (sr, sc)) = Outcome.returned b ∧
        (∀ (j : Nat) (x : LoadedRobot), a.robots[j]? = some x →
          b.robots[j]? =
            some (if j ∈ hitsOf a (flameCells lr.row lr.col) then
              damaged x WeaponType.flamethrower else x)) ∧
        a.newCalls b =
          [(i, Call.get_shot_location), (i, Call.get_weapon)] ++
            damageCallsOf a WeaponType.flamethrower (hitsOf a (flameCells lr.row lr.col))) ∧
    (∀ (fuel fuel2 : Nat) (sr sc sr2 sc2 : Int),
      a.doShooting fuel i (some (sr, sc)) = a.doShooting fuel2 i (some (sr2, sc2))) := by
  refine ⟨nodup_hitsOf a _ (nodup_flameCells _ _), ?_, ?_, ?_⟩
  · intro j
    rw [mem_hitsOf a _ hno]
    constructor
    · rintro ⟨x, hx, hxa, hin, hmem⟩
      exact ⟨x, hx, hxa, hin, (mem_flameCells _ _ _ _).mp hmem⟩
    · rintro ⟨x, hx, hxa, hin, hmem⟩
      exact ⟨x, hx, hxa, hin, (mem_flameCells _ _ _ _).mpr hmem⟩
  · intro fuel sr sc
    obtain ⟨g1, g2⟩ := sweep_spec ((a.record i Call.get_shot_location).record i Call.get_weapon)
      WeaponType.flamethrower (flameCells lr.row lr.col) (nodup_flameCells _ _)
      ((Weakens.trans (weakens_record a i _) (weakens_record _ i _)).noOverlap hno)
    refine ⟨_, doShooting_flamethrower_eq fuel a i lr sr sc h halive hw, fun j x hx => g1 j x hx,
      ?_⟩
    apply newCalls_append
    rw [g2]
    simp only [record_log, List.append_assoc, List.singleton_append]
    rfl
  · intro fuel fuel2 sr sc sr2 sc2
    rw [doShooting_flamethrower_eq fuel a i lr sr sc h halive hw,
      doShooting_flamethrower_eq fuel2 a i lr sr2 sc2 h halive hw]

/-- C11 at Scenario C: the flamethrower handle at `(5,5)` on the clear 10×10
board hits the enemy at `(7,5)` (HP 100 → 88) and nobody else, for the shot
intent `(0,0)` as for any other. -/
theorem doShooting_flamethrower_witness :
    Scenario.scenarioC.doShooting 0 0 (some (0, 0)) =
      Outcome.returned
        { Scenario.scenarioC with
          robots :=
            [Scenario.mkRobot WeaponType.flamethrower 100 0 5 5,
              Scenario.mkRobot WeaponType.hammer 88 0 7 5,
              Scenario.mkRobot WeaponType.hammer 100 0 4 5]
          log :=
            [(0, Call.get_shot_location), (0, Call.get_weapon), (1, Call.get_armor),
              (1, Call.take_damage 12)] } ∧
    (∀ (fuel fuel2 : Nat) (sr sc sr2 sc2 : Int),
      Scenario.scenarioC.doShooting fuel 0 (some (sr, sc)) =
        Scenario.scenarioC.doShooting fuel2 0 (some (sr2, sc2))) :=
  ⟨by decide,
    (doShooting_flamethrower Scenario.scenarioC 0
      (Scenario.mkRobot WeaponType.flamethrower 100 0 5 5) (by decide) (by decide) (by decide)
      (noOverlap_of_check _ (by decide))).2.2.2⟩

/-- The hammer branch of `doShooting`, for a living hammer handle. -/
theorem doShooting_hammer_eq (fuel : Nat) (a : Arena) (i : Nat) (lr : LoadedRobot)
    (sr sc : Int) (h : a.robots[i]? = some lr) (halive : lr.alive = true)
    (hw : lr.robot.m_weapon = WeaponType.hammer) :
    a.doShooting fuel i (some (sr, sc)) =
      Outcome.returned
        (((a.record i Call.get_shot_location).record i Call.get_weapon).hitAt sr sc
          WeaponType.hammer) := by
  unfold doShooting
  simp only [h, halive, hw, RobotBase.get_weapon, Bool.not_true, Bool.false_eq_true, if_false,
    if_true]
  simp only [reduceCtorEq, if_false, if_true]

/-- C14: a living hammer handle with shot intent `(sr, sc)`, wherever that cell
lies, damages with the hammer exactly once the living handle standing on
`(sr, sc)` and no other handle; when no living handle stands there, no handle
record changes and no armor or damage call is made. -/
theorem doShooting_hammer (a : Arena) (i : Nat) (lr : LoadedRobot) (sr sc : Int)
    (h : a.robots[i]? = some lr) (halive : lr.alive = true)
    (hw : lr.robot.m_weapon = WeaponType.hammer) :
    (∀ (t : Nat) (x : LoadedRobot), NoOverlap a → a.robots[t]? = some x → x.alive = true →
      x.row = sr → x.col = sc →
      ∀ fuel : Nat, ∃ b, a.doShooting fuel i (some (sr, sc)) = Outcome.returned b ∧
        (∀ (j : Nat) (y : LoadedRobot), a.robots[j]? = some y →
          b.robots[j]? = some (if j = t then damaged y WeaponType.hammer else y)) ∧
        a.newCalls b =
          [(i, Call.get_shot_location), (i, Call.get_weapon)] ++
            damageCalls t x WeaponType.hammer) ∧
    ((∀ (j : Nat) (y : LoadedRobot), a.robots[j]? = some y →
        ¬ (y.row = sr ∧ y.col = sc ∧ y.alive = true)) →
      ∀ fuel : Nat,
        a.doShooting fuel i (some (sr, sc)) =
          Outcome.returned ((a.record i Call.get_shot_location).record i Call.get_weapon)) := by
  constructor
  · intro t x hno hx hxa hr hc fuel
    have hat : a.robotAt sr sc = some t := by
      cases hrt : a.robotAt sr sc with
      | none => exact absurd ⟨hr, hc, hxa⟩ ((robotAt_none a _ _).mp hrt t x hx)
      | some t2 =>
        obtain ⟨y, hy, f1, f2, f3, -⟩ := robotAt_some a _ _ t2 hrt
        rw [hno t2 t y x hy hx f3 hxa (by rw [f1, hr]) (by rw [f2, hc])]
    rw [doShooting_hammer_eq fuel a i lr sr sc h halive hw]
    have hhit : ((a.record i Call.get_shot_location).record i Call.get_weapon).hitAt sr sc
        WeaponType.hammer =
        { (a.record i Call.get_shot_location).record i Call.get_weapon with
          robots := a.robots.set t (damaged x WeaponType.hammer)
          log := a.log ++ [(i, Call.get_shot_location)] ++ [(i, Call.get_weapon)] ++
            damageCalls t x WeaponType.hammer } := by
      unfold hitAt
      rw [robotAt_record, robotAt_record, hat]
      exact applyDamage_alive _ t _ x hx hxa
    rw [hhit]
    refine ⟨_, rfl, ?_, ?_⟩
    · intro j y hy
      show (a.robots.set t (damaged x WeaponType.hammer))[j]? = _
      rw [getElem?_set_robot _ t j x _ hx]
      by_cases hj : j = t
      · subst hj
        rw [hx] at hy
        cases hy
        simp
      · simp [hj, hy]
    · apply newCalls_append
      simp
  · intro hnone fuel
    rw [doShooting_hammer_eq fuel a i lr sr sc h halive hw]
    unfold hitAt
    rw [robotAt_record, robotAt_record, (robotAt_none a sr sc).mpr hnone]

/-- C14 at a concrete input: the hammer handle at `(1,1)` strikes `(1,2)`, where
the armored target stands: 16 damage (HP 30 → 14), armor 3 → 2; a strike at the
empty cell `(9,9)` outside the grid changes no handle. -/
theorem doShooting_hammer_witness :
    Scenario.armored.doShooting 0 0 (some (1, 2)) =
      Outcome.returned
        { Scenario.armored with
          robots :=
            [Scenario.mkRobot WeaponType.hammer 100 0 1 1,
              Scenario.mkRobot WeaponType.railgun 14 2 1 2]
          log :=
            [(0, Call.get_shot_location), (0, Call.get_weapon), (1, Call.get_armor),
              (1, Call.reduce_armor 1), (1, Call.take_damage 16)] } ∧
    (∀ fuel : Nat,
      Scenario.armored.doShooting fuel 0 (some (9, 9)) =
        Outcome.returned
          ((Scenario.armored.record 0 Call.get_shot_location).record 0 Call.get_weapon)) :=
  ⟨by decide,
    (doShooting_hammer Scenario.armored 0 (Scenario.mkRobot WeaponType.hammer 100 0 1 1) 9 9
      (by decide) (by decide) (by decide)).2
      (by
        intro j y hy
        have hj : j < 2 := (List.getElem?_eq_some_iff.mp hy).1
        interval_cases j
        · simp only [Scenario.armored, List.getElem?_cons_zero, Option.some.injEq] at hy
          subst hy
          decide
        · simp only [Scenario.armored, List.getElem?_cons_succ, List.getElem?_cons_zero,
            Option.some.injEq] at hy
          subst hy
          decide)⟩

/-- The grenade branch of `doShooting`, for a living grenade handle without
grenades. -/
theorem doShooting_grenade_zero (fuel : Nat) (a : Arena) (i : Nat) (lr : LoadedRobot)
    (sr sc : Int) (h : a.robots[i]? = some lr) (halive : lr.alive = true)
    (hw : lr.robot.m_weapon = WeaponType.grenade) (hcount : lr.robot.m_grenades = 0) :
    a.doShooting fuel i (some (sr, sc)) =
      Outcome.returned
        (((a.record i Call.get_shot_location).record i Call.get_weapon).record i
          Call.get_grenades) := by
  unfold doShooting
  simp only [h, halive, hw, RobotBase.get_weapon, RobotBase.get_grenades, hcount,
    Bool.not_true, Bool.false_eq_true, if_false, if_true]
  simp only [reduceCtorEq, if_false, if_true]

/-- The grenade branch of `doShooting`, for a living grenade handle whose count
is not zero. -/
theorem doShooting_grenade_throw (fuel : Nat) (a : Arena) (i : Nat) (lr : LoadedRobot)
    (sr sc : Int) (h : a.robots[i]? = some lr) (halive : lr.alive = true)
    (hw : lr.robot.m_weapon = WeaponType.grenade) (hcount : lr.robot.m_grenades ≠ 0) :
    a.doShooting fuel i (some (sr, sc)) =
      Outcome.returned
        ((((((a.record i Call.get_shot_location).record i Call.get_weapon).record i
          Call.get_grenades).setRobot i { lr with robot := lr.robot.decrement_grenades }).record i
            Call.decrement_grenades).sweep WeaponType.grenade (blastCells sr sc)) := by
  unfold doShooting
  simp only [h, halive, hw, RobotBase.get_weapon, RobotBase.get_grenades, hcount,
    Bool.not_true, Bool.false_eq_true, if_false, if_true]
  simp only [reduceCtorEq, if_false, if_true]
  rw [grenadeBlast_eq_sweep]

/-- Spending a grenade does not change who stands where, alive. -/
theorem robotAt_spend (a : Arena) (i : Nat) (lr : LoadedRobot) (h : a.robots[i]? = some lr)
    (r c : Int) :
    (a.setRobot i { lr with robot := lr.robot.decrement_grenades }).robotAt r c =
      a.robotAt r c := by
  unfold robotAt
  rw [setRobot_robots]
  apply robotAtFrom_set
  intro x hx
  rw [h] at hx
  cases hx
  exact Iff.rfl

theorem hitsOf_spend (a : Arena) (i : Nat) (lr : LoadedRobot) (h : a.robots[i]? = some lr)
    (cells : List (Int × Int)) :
    hitsOf (a.setRobot i { lr with robot := lr.robot.decrement_grenades }) cells =
      hitsOf a cells := by
  unfold hitsOf
  have hf : (fun p : Int × Int =>
      (a.setRobot i { lr with robot := lr.robot.decrement_grenades }).robotAt p.1 p.2) =
      fun p => a.robotAt p.1 p.2 := by
    funext p
    exact robotAt_spend a i lr h p.1 p.2
  rw [hf]
  rfl

theorem damageCallsOf_spend (a : Arena) (i : Nat) (lr : LoadedRobot)
    (h : a.robots[i]? = some lr) (w : WeaponType) (hits : List Nat) :
    damageCallsOf (a.setRobot i { lr with robot := lr.robot.decrement_grenades }) w hits =
      damageCallsOf a w hits := by
  unfold damageCallsOf
  rw [List.flatMap_def, List.flatMap_def]
  congr 1
  apply List.map_congr_left
  intro t _
  rw [setRobot_robots, getElem?_set_robot _ i t lr _ h]
  by_cases ht : t = i
  · subst ht
    rw [if_pos rfl, h]
    rfl
  · rw [if_neg ht]

/-- The calls logged for damage are armor and damage calls only. -/
theorem mem_damageCallsOf (a : Arena) (w : WeaponType) (hits : List Nat) (e : Nat × Call)
    (he : e ∈ damageCallsOf a w hits) :
    e.2 = Call.get_armor ∨ e.2 = Call.reduce_armor 1 ∨ ∃ d, e.2 = Call.take_damage d := by
  unfold damageCallsOf at he
  rw [List.mem_flatMap] at he
  obtain ⟨t, _, het⟩ := he
  split at het
  · rename_i x _
    unfold damageCalls at het
    split at het
    · simp only [List.mem_cons, List.mem_singleton, List.not_mem_nil, or_false] at het
      rcases het with rfl | rfl | rfl
      · exact Or.inl rfl
      · exact Or.inr (Or.inl rfl)
      · exact Or.inr (Or.inr ⟨_, rfl⟩)
    · simp only [List.mem_cons, List.mem_singleton, List.not_mem_nil, or_false] at het
      rcases het with rfl | rfl
      · exact Or.inl rfl
      · exact Or.inr (Or.inr ⟨_, rfl⟩)
  · cases het

/-- C13: a living grenade handle with a positive grenade count and shot intent
`(sr, sc)` has its count decremented exactly once, and the grenade damages
exactly once every living handle whose cell `(r, c)` lies inside the grid with
`|r - sr| ≤ 1` and `|c - sc| ≤ 1` (the thrower too when it stands there), and
no handle outside that block. -/
theorem doShooting_grenade (a : Arena) (i : Nat) (lr : LoadedRobot) (sr sc : Int)
    (h : a.robots[i]? = some lr) (halive : lr.alive = true)
    (hw : lr.robot.m_weapon = WeaponType.grenade) (hcount : 0 < lr.robot.m_grenades)
    (hno : NoOverlap a) :
    (hitsOf a (blastCells sr sc)).Nodup ∧
    (∀ j : Nat, j ∈ hitsOf a (blastCells sr sc) ↔
      ∃ x, a.robots[j]? = some x ∧ x.alive = true ∧ a.inBounds x.row x.col = true ∧
        |x.row - sr| ≤ 1 ∧ |x.col - sc| ≤ 1) ∧
    ∀ fuel : Nat,
      ∃ b, a.doShooting fuel i (some (sr, sc)) = Outcome.returned b ∧
        (∀ (j : Nat) (x : LoadedRobot), a.robots[j]? = some x →
          b.robots[j]? =
            some (if j ∈ hitsOf a (blastCells sr sc) then
              damaged (spent i j x) WeaponType.grenade else spent i j x)) ∧
        a.newCalls b =
          [(i, Call.get_shot_location), (i, Call.get_weapon), (i, Call.get_grenades),
            (i, Call.decrement_grenades)] ++
            damageCallsOf a WeaponType.grenade (hitsOf a (blastCells sr sc)) ∧
        (a.newCalls b).count (i, Call.decrement_grenades) = 1 ∧
        ∃ y, b.robots[i]? = some y ∧ y.robot.m_grenades = lr.robot.m_grenades - 1 := by
  refine ⟨nodup_hitsOf a _ (nodup_blastCells _ _), ?_, ?_⟩
  · intro j
    rw [mem_hitsOf a _ hno]
    constructor
    · rintro ⟨x, hx, hxa, hin, hmem⟩
      exact ⟨x, hx, hxa, hin, (mem_blastCells _ _ _ _).mp hmem⟩
    · rintro ⟨x, hx, hxa, hin, hmem⟩
      exact ⟨x, hx, hxa, hin, (mem_blastCells _ _ _ _).mpr hmem⟩
  · intro fuel
    have h3 : (((a.record i Call.get_shot_location).record i Call.get_weapon).record i
        Call.get_grenades).robots[i]? = some lr := h
    have hw3 : Weakens a (((a.record i Call.get_shot_location).record i Call.get_weapon).record i
        Call.get_grenades) :=
      Weakens.trans (Weakens.trans (weakens_record a i _) (weakens_record _ i _))
        (weakens_record _ i _)
    have hw4 := Weakens.trans (Weakens.trans hw3
      (weakens_setRobot _ i lr { lr with robot := lr.robot.decrement_grenades } h3 rfl rfl rfl))
      (weakens_record _ i Call.decrement_grenades)
    obtain ⟨g1, g2⟩ := sweep_spec _ WeaponType.grenade (blastCells sr sc) (nodup_blastCells _ _)
      (hw4.noOverlap hno)
    have hhits : hitsOf (((((a.record i Call.get_shot_location).record i Call.get_weapon).record i
        Call.get_grenades).setRobot i { lr with robot := lr.robot.decrement_grenades }).record i
          Call.decrement_grenades) (blastCells sr sc) = hitsOf a (blastCells sr sc) :=
      hitsOf_spend _ i lr h3 _
    have hcalls : damageCallsOf (((((a.record i Call.get_shot_location).record i
        Call.get_weapon).record i Call.get_grenades).setRobot i
          { lr with robot := lr.robot.decrement_grenades }).record i Call.decrement_grenades)
        WeaponType.grenade (hitsOf a (blastCells sr sc)) =
        damageCallsOf a WeaponType.grenade (hitsOf a (blastCells sr sc)) :=
      damageCallsOf_spend _ i lr h3 _ _
    rw [hhits] at g1 g2
    rw [hcalls] at g2
    have hget : ∀ (j : Nat) (x : LoadedRobot), a.robots[j]? = some x →
        (((((a.record i Call.get_shot_location).record i Call.get_weapon).record i
          Call.get_grenades).setRobot i { lr with robot := lr.robot.decrement_grenades }).record i
            Call.decrement_grenades).robots[j]? = some (spent i j x) := by
      intro j x hx
      show (a.robots.set i _)[j]? = _
      rw [getElem?_set_robot _ i j lr _ h]
      unfold spent
      by_cases hj : j = i
      · subst hj
        rw [h] at hx
        cases hx
        simp
      · simp [hj, hx]
    have hlog : a.newCalls ((((((a.record i Call.get_shot_location).record i
        Call.get_weapon).record i Call.get_grenades).setRobot i
          { lr with robot := lr.robot.decrement_grenades }).record i Call.decrement_grenades).sweep
            WeaponType.grenade (blastCells sr sc)) =
        [(i, Call.get_shot_location), (i, Call.get_weapon), (i, Call.get_grenades),
          (i, Call.decrement_grenades)] ++
          damageCallsOf a WeaponType.grenade (hitsOf a (blastCells sr sc)) := by
      apply newCalls_append
      rw [g2]
      simp
    refine ⟨_, doShooting_grenade_throw fuel a i lr sr sc h halive hw (by omega),
      fun j x hx => g1 j _ (hget j x hx), hlog, ?_, ?_⟩
    · rw [hlog, List.count_append]
      have h0 : (damageCallsOf a WeaponType.grenade (hitsOf a (blastCells sr sc))).count
          (i, Call.decrement_grenades) = 0 := by
        rw [List.count_eq_zero]
        intro hmem
        rcases mem_damageCallsOf a _ _ _ hmem with e | e | ⟨d, e⟩ <;> cases e
      rw [h0]
      simp
    · rw [g1 i _ (hget i lr h)]
      refine ⟨_, rfl, ?_⟩
      split
      · simp [damaged, spent, RobotBase.decrement_grenades]
      · simp [spent, RobotBase.decrement_grenades]

/-- C13 at Scenario D: with one grenade, a throw at `(3,3)` hits the enemies at
`(2,3)` and `(4,4)` (HP 100 → 82), misses the one at `(5,5)`, and leaves the
thrower with no grenade. -/
theorem doShooting_grenade_witness :
    Scenario.scenarioD.doShooting 0 0 (some (3, 3)) =
      Outcome.returned
        { Scenario.scenarioDspent with
          log :=
            [(0, Call.get_shot_location), (0, Call.get_weapon), (0, Call.get_grenades),
              (0, Call.decrement_grenades), (1, Call.get_armor), (1, Call.take_damage 18),
              (2, Call.get_armor), (2, Call.take_damage 18)] } ∧
    hitsOf Scenario.scenarioD (blastCells 3 3) = [1, 2] ∧
    (∀ j : Nat, j ∈ hitsOf Scenario.scenarioD (blastCells 3 3) ↔
      ∃ x, Scenario.scenarioD.robots[j]? = some x ∧ x.alive = true ∧
        Scenario.scenarioD.inBounds x.row x.col = true ∧ |x.row - 3| ≤ 1 ∧ |x.col - 3| ≤ 1) :=
  ⟨by decide, by decide,
    (doShooting_grenade Scenario.scenarioD 0 (Scenario.mkGrenadier 1 0 0) 3 3 (by decide)
      (by decide) (by decide) (by decide) (noOverlap_of_check _ (by decide))).2.1⟩

/-- C12 as stated fails: with a grenade count of `-1` the guard
`get_grenades() == 0` does not fire, the count drops to `-2` and the two
enemies around `(3,3)` take 18 each. -/
theorem doShooting_grenade_negative_count :
    (Scenario.mkGrenadier (-1) 0 0).robot.get_grenades = -1 ∧
    ¬ ((Scenario.mkGrenadier (-1) 0 0).robot.get_grenades > 0) ∧
    Scenario.scenarioDnegative.doShooting 0 0 (some (3, 3)) =
      Outcome.returned
        { Scenario.scenarioDnegative with
          robots :=
            [Scenario.mkGrenadier (-2) 0 0, Scenario.mkRobot WeaponType.hammer 82 0 2 3,
              Scenario.mkRobot WeaponType.hammer 82 0 4 4,
              Scenario.mkRobot WeaponType.hammer 100 0 5 5]
          log :=
            [(0, Call.get_shot_location), (0, Call.get_weapon), (0, Call.get_grenades),
              (0, Call.decrement_grenades), (1, Call.get_armor), (1, Call.take_damage 18),
              (2, Call.get_armor), (2, Call.take_damage 18)] } :=
  ⟨by decide, by decide, by decide⟩

/-- C12, amended: for a living grenade handle whose grenade count is 0, and
every shot intent, the action is a no-op: the engine asks for the shot
location, the weapon and the grenade count and does nothing else; no handle
record changes (no damage, no armor change, no grenade spent). -/
theorem doShooting_grenade_empty (a : Arena) (i : Nat) (lr : LoadedRobot)
    (h : a.robots[i]? = some lr) (halive : lr.alive = true)
    (hw : lr.robot.m_weapon = WeaponType.grenade) (hcount : lr.robot.get_grenades = 0) :
    ∀ (fuel : Nat) (sr sc : Int),
      ∃ b, a.doShooting fuel i (some (sr, sc)) = Outcome.returned b ∧
        b.robots = a.robots ∧ b.m_rows = a.m_rows ∧ b.m_cols = a.m_cols ∧ b.board = a.board ∧
        a.newCalls b =
          [(i, Call.get_shot_location), (i, Call.get_weapon), (i, Call.get_grenades)] := by
  intro fuel sr sc
  refine ⟨_, doShooting_grenade_zero fuel a i lr sr sc h halive hw hcount, rfl, rfl, rfl, rfl,
    ?_⟩
  apply newCalls_append
  simp

/-- C12 amended, at Scenario D after the throw: with the count at 0 a second
throw at `(3,3)` changes no handle. -/
theorem doShooting_grenade_empty_witness :
    (Scenario.mkGrenadier 0 0 0).robot.get_grenades = 0 ∧
    ∃ b, Scenario.scenarioDspent.doShooting 0 0 (some (3, 3)) = Outcome.returned b ∧
      b.robots = Scenario.scenarioDspent.robots ∧ b.m_rows = Scenario.scenarioDspent.m_rows ∧
      b.m_cols = Scenario.scenarioDspent.m_cols ∧ b.board = Scenario.scenarioDspent.board ∧
      Scenario.scenarioDspent.newCalls b =
        [(0, Call.get_shot_location), (0, Call.get_weapon), (0, Call.get_grenades)] :=
  ⟨by decide,
    doShooting_grenade_empty Scenario.scenarioDspent 0 (Scenario.mkGrenadier 0 0 0) (by decide)
      (by decide) (by decide) (by decide) 0 3 3⟩

/-! ### The sensing snapshot -/

/-- Row-major layout: in the list built by two nested loops over `R` rows and
`C` columns, the entry for `(r, c)` sits at index `r * C + c`. -/
theorem grid_layout {α : Type} (f : Nat → Nat → α) (R C : Nat) :
    ((List.range R).flatMap fun r => (List.range C).map (f r)).length = R * C ∧
    ∀ r c : Nat, r < R → c < C →
      ((List.range R).flatMap fun r => (List.range C).map (f r))[r * C + c]? = some (f r c) := by
  induction R with
  | zero => exact ⟨by simp, fun r c hr _ => absurd hr (Nat.not_lt_zero r)⟩
  | succ R ih =>
    obtain ⟨ihl, ihg⟩ := ih
    have hsplit : ((List.range (R + 1)).flatMap fun r => (List.range C).map (f r)) =
        ((List.range R).flatMap fun r => (List.range C).map (f r)) ++ (List.range C).map (f R) := by
      rw [List.range_succ, List.flatMap_append]
      simp
    rw [hsplit]
    constructor
    · rw [List.length_append, ihl, List.length_map, List.length_range]
      ring
    · intro r c hr hc
      by_cases hrR : r < R
      · have hlt : r * C + c < R * C := by
          have : (r + 1) * C ≤ R * C := Nat.mul_le_mul_right C hrR
          have h2 : (r + 1) * C = r * C + C := by ring
          omega
        rw [List.getElem?_append_left (by rw [ihl]; exact hlt)]
        exact ihg r c hrR hc
      · have hreq : r = R := by omega
        subst hreq
        rw [List.getElem?_append_right (by rw [ihl]; omega), ihl]
        have : r * C + c - r * C = c := by omega
        rw [this, List.getElem?_map, List.getElem?_range hc]
        rfl

/-- The kind `buildRadar` reports for a cell: `'R'` exactly when a living handle
stands there, the hazard kind of the cell otherwise. -/
theorem radarCell_spec (a : Arena) (r c : Int) :
    (a.radarCell r c).m_row = r ∧ (a.radarCell r c).m_col = c ∧
    ((∃ (j : Nat) (x : LoadedRobot),
        a.robots[j]? = some x ∧ x.row = r ∧ x.col = c ∧ x.alive = true) →
      (a.radarCell r c).m_type = 'R') ∧
    ((¬ ∃ (j : Nat) (x : LoadedRobot),
        a.robots[j]? = some x ∧ x.row = r ∧ x.col = c ∧ x.alive = true) →
      (a.radarCell r c).m_type =
        match a.boardAt r c with
        | ObstacleType.FlameTrap => 'F'
        | ObstacleType.Pit => 'P'
        | ObstacleType.Mound => 'M'
        | ObstacleType.Empty => '.') := by
  refine ⟨rfl, rfl, ?_, ?_⟩
  · rintro ⟨j, x, hx, h1, h2, h3⟩
    have hsome : (a.robotAt r c).isSome = true := by
      cases hr : a.robotAt r c with
      | none => exact absurd ⟨h1, h2, h3⟩ ((robotAt_none a r c).mp hr j x hx)
      | some t => rfl
    simp [radarCell, hsome]
  · intro hno
    have hnone : a.robotAt r c = none := by
      rw [robotAt_none]
      intro j x hx hm
      exact hno ⟨j, x, hx, hm⟩
    simp only [radarCell, hnone, Option.isSome_none, Bool.false_eq_true, if_false]

/-- C15: on a `rows × cols` grid `buildRadar` returns exactly `rows * cols`
samples, row-major: the sample at index `r * cols + c` has coordinates `(r, c)`
and kind `'R'` if a living handle stands on `(r, c)`, otherwise the hazard kind
of `board[r][c]` (`'F'`, `'P'`, `'M'`, or `'.'`), also when only dead handles
stand there. -/
theorem buildRadar_spec (a : Arena) (i : Nat) (hrows : 0 ≤ a.m_rows) (hcols : 0 ≤ a.m_cols) :
    ((a.buildRadar i).length : Int) = a.m_rows * a.m_cols ∧
    ∀ r c : Int, a.inBounds r c = true →
      ∃ s, (a.buildRadar i)[(r * a.m_cols + c).toNat]? = some s ∧
        s.m_row = r ∧ s.m_col = c ∧
        ((∃ (j : Nat) (x : LoadedRobot),
            a.robots[j]? = some x ∧ x.row = r ∧ x.col = c ∧ x.alive = true) →
          s.m_type = 'R') ∧
        ((¬ ∃ (j : Nat) (x : LoadedRobot),
            a.robots[j]? = some x ∧ x.row = r ∧ x.col = c ∧ x.alive = true) →
          s.m_type =
            match a.boardAt r c with
            | ObstacleType.FlameTrap => 'F'
            | ObstacleType.Pit => 'P'
            | ObstacleType.Mound => 'M'
            | ObstacleType.Empty => '.') := by
  obtain ⟨hl, hg⟩ := grid_layout (fun r c : Nat => a.radarCell (r : Int) (c : Int))
    a.m_rows.toNat a.m_cols.toNat
  constructor
  · unfold buildRadar
    rw [hl]
    push_cast
    rw [Int.toNat_of_nonneg hrows, Int.toNat_of_nonneg hcols]
  · intro r c hin
    rw [inBounds_iff] at hin
    obtain ⟨h1, h2, h3, h4⟩ := hin
    have hidx : (r * a.m_cols + c).toNat = r.toNat * a.m_cols.toNat + c.toNat := by
      have e1 : ((r.toNat * a.m_cols.toNat + c.toNat : Nat) : Int) = r * a.m_cols + c := by
        push_cast
        rw [Int.toNat_of_nonneg h1, Int.toNat_of_nonneg hcols, Int.toNat_of_nonneg h3]
      rw [← e1, Int.toNat_natCast]
    have hcell := hg r.toNat c.toNat (by omega) (by omega)
    simp only [Int.toNat_of_nonneg h1, Int.toNat_of_nonneg h3] at hcell
    refine ⟨a.radarCell r c, ?_, radarCell_spec a r c⟩
    unfold buildRadar
    rw [hidx]
    exact hcell

/-- C15 at concrete inputs: in Scenario B (5×5) the snapshot has 25 samples, the
one at index `2*5 + 2` is the robot at `(2,2)` and the one at `2*5 + 4` the
Mound at `(2,4)`; in Scenario A with Y dead the cell `(0,4)` reads `'.'`. -/
theorem buildRadar_spec_witness :
    (Scenario.scenarioB.buildRadar 0).length = 25 ∧
    (Scenario.scenarioB.buildRadar 0)[12]? = some { m_type := 'R', m_row := 2, m_col := 2 } ∧
    (Scenario.scenarioB.buildRadar 0)[14]? = some { m_type := 'M', m_row := 2, m_col := 4 } ∧
    (Scenario.scenarioAdead.buildRadar 0)[4]? = some { m_type := '.', m_row := 0, m_col := 4 } ∧
    ((Scenario.scenarioB.buildRadar 0).length : Int) =
      Scenario.scenarioB.m_rows * Scenario.scenarioB.m_cols :=
  ⟨by decide, by decide, by decide, by decide,
    (buildRadar_spec Scenario.scenarioB 0 (by decide) (by decide)).1⟩

theorem radarDeliveries_append (L1 L2 : List (Nat × Call)) :
    radarDeliveries (L1 ++ L2) = radarDeliveries L1 ++ radarDeliveries L2 := by
  unfold radarDeliveries
  exact List.filterMap_append _ _ _

theorem quiet_refl (a : Arena) : Quiet a a :=
  ⟨[], by simp, rfl⟩

theorem quiet_trans {a b c : Arena} (h1 : Quiet a b) (h2 : Quiet b c) : Quiet a c := by
  obtain ⟨L1, e1, q1⟩ := h1
  obtain ⟨L2, e2, q2⟩ := h2
  refine ⟨L1 ++ L2, by rw [e2, e1, List.append_assoc], ?_⟩
  rw [radarDeliveries_append, q1, q2]
  rfl

theorem quiet_record (a : Arena) (i : Nat) (c : Call)
    (hc : ∀ radar, c ≠ Call.process_radar_results radar) : Quiet a (a.record i c) := by
  refine ⟨[(i, c)], rfl, ?_⟩
  cases c <;> first | rfl | exact absurd rfl (hc _)

theorem quiet_setRobot (a : Arena) (i : Nat) (x : LoadedRobot) : Quiet a (a.setRobot i x) :=
  ⟨[], by simp, rfl⟩

theorem quiet_applyDamage (a : Arena) (t : Nat) (w : WeaponType) :
    Quiet a (a.applyDamage t w) := by
  rcases applyDamage_cases a t w with e | ⟨x, _, _, e⟩
  · rw [e]
    exact quiet_refl a
  · rw [e]
    refine ⟨damageCalls t x w, rfl, ?_⟩
    unfold damageCalls
    split <;> rfl

theorem quiet_hitAt (a : Arena) (r c : Int) (w : WeaponType) : Quiet a (a.hitAt r c w) := by
  unfold hitAt
  split
  · exact quiet_applyDamage a _ w
  · exact quiet_refl a

theorem quiet_foldl {β : Type} (f : Arena → β → Arena) (hf : ∀ a x, Quiet a (f a x))
    (l : List β) (a : Arena) : Quiet a (l.foldl f a) := by
  induction l generalizing a with
  | nil => exact quiet_refl a
  | cons x rest ih => exact quiet_trans (hf a x) (ih (f a x))

theorem quiet_flameSweep (a : Arena) (r0 c0 : Int) : Quiet a (a.flameSweep r0 c0) := by
  unfold flameSweep
  apply quiet_foldl
  intro a1 dr
  apply quiet_foldl
  intro a2 i
  split
  · exact quiet_hitAt a2 _ _ _
  · exact quiet_refl a2

theorem quiet_grenadeBlast (a : Arena) (sr sc : Int) : Quiet a (a.grenadeBlast sr sc) := by
  unfold grenadeBlast
  apply quiet_foldl
  intro a1 dr
  apply quiet_foldl
  intro a2 dc
  split
  · exact quiet_hitAt a2 _ _ _
  · exact quiet_refl a2

theorem quiet_railgunWalk (fuel : Nat) (a : Arena) (r c dr dc : Int) :
    Quiet a (railgunWalk fuel a r c dr dc).state := by
  induction fuel generalizing a r c with
  | zero => exact quiet_refl a
  | succ n ih =>
    simp only [railgunWalk]
    split
    · exact quiet_trans (quiet_hitAt a r c _) (ih _ _ _)
    · exact quiet_refl a

theorem quiet_doShooting (fuel : Nat) (a : Arena) (i : Nat) (shot : Option (Int × Int)) :
    Quiet a (a.doShooting fuel i shot).state := by
  unfold doShooting
  split
  · exact quiet_refl a
  · rename_i lr hlr
    split
    · exact quiet_refl a
    · have h1 : Quiet a (a.record i Call.get_shot_location) :=
        quiet_record a i Call.get_shot_location (fun _ hh => by cases hh)
      split
      · exact h1
      · rename_i sr sc
        have h2 : Quiet a ((a.record i Call.get_shot_location).record i Call.get_weapon) :=
          quiet_trans h1 (quiet_record _ i Call.get_weapon (fun _ hh => by cases hh))
        simp only []
        split
        · exact quiet_trans h2 (quiet_flameSweep _ _ _)
        · split
          · exact quiet_trans h2 (quiet_hitAt _ _ _ _)
          · split
            · exact quiet_trans h2 (quiet_railgunWalk fuel _ _ _ _ _)
            · split
              · have h3 := quiet_trans h2
                  (quiet_record _ i Call.get_grenades (fun _ hh => by cases hh))
                split
                · exact h3
                · exact quiet_trans h3 (quiet_trans (quiet_trans (quiet_setRobot _ i _)
                    (quiet_record _ i Call.decrement_grenades (fun _ hh => by cases hh)))
                    (quiet_grenadeBlast _ sr sc))
              · exact h2

theorem quiet_commitStep (a : Arena) (i : Nat) (lr : LoadedRobot) (nr nc : Int) :
    Quiet a (a.commitStep i lr nr nc) :=
  quiet_trans (quiet_setRobot a i _)
    (quiet_record _ i (Call.move_to nr nc) (fun _ hh => by cases hh))

theorem quiet_notifyPit (a : Arena) (i : Nat) : Quiet a (a.notifyPit i) := by
  unfold notifyPit
  split
  · exact quiet_refl a
  · exact quiet_trans (quiet_setRobot a i _)
      (quiet_record _ i Call.disable_movement (fun _ hh => by cases hh))

theorem quiet_moveLoop (n : Nat) (a : Arena) (i : Nat) (dr dc : Int) :
    Quiet a (moveLoop n a i dr dc) := by
  induction n generalizing a with
  | zero => exact quiet_refl a
  | succ n ih =>
    cases h : a.robots[i]? with
    | none =>
      simp only [moveLoop, h]
      exact quiet_refl a
    | some lr =>
      rw [moveLoop_succ n a i dr dc lr h]
      split_ifs
      · exact quiet_refl a
      · exact quiet_trans (quiet_commitStep a i lr _ _) (quiet_notifyPit _ i)
      · exact quiet_trans (quiet_trans (quiet_commitStep a i lr _ _) (quiet_applyDamage _ i _))
          (ih _)
      · exact quiet_trans (quiet_commitStep a i lr _ _) (ih _)

theorem quiet_doMovement (a : Arena) (i : Nat) (dir dist : Int) :
    Quiet a (a.doMovement i dir dist) := by
  rcases doMovement_cases a i dir dist with e | ⟨n, dr, dc, e⟩
  · rw [e]
    exact quiet_refl a
  · rw [e]
    exact quiet_trans (quiet_record a i Call.get_move_direction (fun _ hh => by cases hh))
      (quiet_moveLoop n _ i dr dc)

/-- The snapshot depends on the world only through the grid and through which
cells hold a living handle. -/
theorem buildRadar_congr (a b : Arena) (i j : Nat) (h1 : b.m_rows = a.m_rows)
    (h2 : b.m_cols = a.m_cols) (h3 : b.board = a.board)
    (hocc : ∀ r c : Int, (b.robotAt r c).isSome = (a.robotAt r c).isSome) :
    b.buildRadar j = a.buildRadar i := by
  have hcell : ∀ r c : Int, b.radarCell r c = a.radarCell r c := by
    intro r c
    simp only [radarCell, hocc r c, boardAt_congr a b h3]
  unfold buildRadar
  simp only [h1, h2, hcell]

/-- A turn of a living handle delivers exactly one snapshot, to that handle: the
one built from the world as it is when the turn begins. -/
theorem takeTurn_delivery (fuel : Nat) (beh : Behaviour) (round : Nat) (a : Arena) (i : Nat)
    (lr : LoadedRobot) (h : a.robots[i]? = some lr) (halive : lr.alive = true) :
    radarDeliveries (a.newCalls (takeTurn fuel beh round a i).state) = [(i, a.buildRadar i)] := by
  unfold takeTurn
  simp only [h, halive, Bool.not_true, Bool.false_eq_true, if_false]
  obtain ⟨L, hL, hq⟩ := quiet_trans
    (quiet_doMovement
      ((a.record i Call.get_radar_direction).record i (Call.process_radar_results (a.buildRadar i)))
      i (beh.get_move_direction round i).1 (beh.get_move_direction round i).2)
    (quiet_doShooting fuel _ i (beh.get_shot_location round i))
  rw [newCalls_append a _
    ([(i, Call.get_radar_direction), (i, Call.process_radar_results (a.buildRadar i))] ++ L)
    (by rw [hL]; simp)]
  rw [radarDeliveries_append, hq]
  rfl

/-- C16 as stated fails: on the 1×3 board of three railgun handles, handle 0
acts first and kills the handle at `(0,2)`; handle 1, acting in the same round,
is handed a snapshot in which `(0,2)` reads `'.'`, while handle 0 was handed
one in which it reads `'R'`.  The match ends after that one round. -/
theorem runSimulation_radar_differs :
    Scenario.scenarioE.runSimulation 4 Scenario.crossfire =
      Outcome.returned (Scenario.scenarioE.runSimulation 4 Scenario.crossfire).state ∧
    (Scenario.scenarioE.runSimulation 4 Scenario.crossfire).state.round = 1 ∧
    radarDeliveries (Scenario.scenarioE.runSimulation 4 Scenario.crossfire).state.arena.log =
      [(0, [{ m_type := 'R', m_row := 0, m_col := 0 }, { m_type := 'R', m_row := 0, m_col := 1 },
            { m_type := 'R', m_row := 0, m_col := 2 }]),
        (1, [{ m_type := 'R', m_row := 0, m_col := 0 }, { m_type := 'R', m_row := 0, m_col := 1 },
            { m_type := '.', m_row := 0, m_col := 2 }])] ∧
    ([{ m_type := 'R', m_row := 0, m_col := 0 }, { m_type := 'R', m_row := 0, m_col := 1 },
        { m_type := 'R', m_row := 0, m_col := 2 }] : List RadarObj) ≠
      [{ m_type := 'R', m_row := 0, m_col := 0 }, { m_type := 'R', m_row := 0, m_col := 1 },
        { m_type := '.', m_row := 0, m_col := 2 }] :=
  ⟨by decide, by decide, by decide, by decide⟩

/-- C16, amended: in its turn a living handle is handed exactly one snapshot,
`buildRadar` of the world as it is when that turn begins; `buildRadar` does not
depend on the handle it is built for, and two worlds with the same grid and the
same cells holding a living handle give the same snapshot. -/
theorem radar_snapshot (fuel : Nat) (beh : Behaviour) (round : Nat) (a : Arena) (i : Nat) :
    (∀ lr : LoadedRobot, a.robots[i]? = some lr → lr.alive = true →
      radarDeliveries (a.newCalls (takeTurn fuel beh round a i).state) =
        [(i, a.buildRadar i)]) ∧
    (∀ j : Nat, a.buildRadar j = a.buildRadar i) ∧
    (∀ (b : Arena) (j : Nat), b.m_rows = a.m_rows → b.m_cols = a.m_cols → b.board = a.board →
      (∀ r c : Int, (b.robotAt r c).isSome = (a.robotAt r c).isSome) →
      b.buildRadar j = a.buildRadar i) :=
  ⟨fun lr h halive => takeTurn_delivery fuel beh round a i lr h halive,
    fun _ => rfl,
    fun b j h1 h2 h3 hocc => buildRadar_congr a b i j h1 h2 h3 hocc⟩

/-- C16 amended, at Scenario A with idle combatants: nobody moves or dies, and
both handles are handed the same snapshot in the round. -/
theorem radar_snapshot_witness :
    radarDeliveries (playRound 0 Scenario.idle 0 Scenario.scenarioA).state.log =
      [(0, Scenario.scenarioA.buildRadar 0), (1, Scenario.scenarioA.buildRadar 0)] ∧
    radarDeliveries
        (Scenario.scenarioA.newCalls (takeTurn 0 Scenario.idle 0 Scenario.scenarioA 0).state) =
      [(0, Scenario.scenarioA.buildRadar 0)] :=
  ⟨by decide,
    (radar_snapshot 0 Scenario.idle 0 Scenario.scenarioA 0).1
      (Scenario.mkRobot WeaponType.railgun 100 0 0 0) (by decide) (by decide)⟩

end Arena

namespace Robot_SniperBrooke

/-! ### The sniper's target selection -/

theorem update_obstacle_memory_frame (s : Robot_SniperBrooke) (radar : List RadarObj) :
    (s.update_obstacle_memory radar).base = s.base ∧
    (s.update_obstacle_memory radar).target_found = s.target_found := by
  unfold update_obstacle_memory
  induction radar generalizing s with
  | nil => exact ⟨rfl, rfl⟩
  | cons o rest ih =>
    rw [List.foldl_cons]
    split
    · exact ih _
    · exact ih _

end Robot_SniperBrooke
